import Mathlib

/-!
Verification development for the Cloudflare-Clist storage aggregator.

JavaScript strings are modelled as `List Char` (a JS string is a sequence of
code units; every string handled by this code base is surrogate-free, so code
units coincide with characters).  JavaScript numbers appearing as integer
counters, sizes and status codes are modelled as `Nat`/`Int`; 32-bit bitwise
arithmetic is modelled as `Nat` arithmetic reduced `% 2^32`.  Fallible
host/provider operations are modelled with `Option`/`Except`.  Network
interactions are modelled by interpreting each adapter against an explicit
script (list) of provider responses, consumed one response per `fetch`.
-/

/-- A JavaScript string: a list of code units. -/
abbrev JSStr := List Char

/-- JS falsiness of a string: only the empty string is falsy. -/
def jsStrFalsy (s : JSStr) : Bool := s.isEmpty

/-- Code units considered whitespace by JS `String.prototype.trim`. -/
def jsIsSpace (c : Char) : Bool :=
  c = ' ' || c = '\t' || c = '\n' || c = '\r' || c.toNat = 11 || c.toNat = 12 ||
  c.toNat = 0xfeff || c.toNat = 0xa0

/-- Model of JS `String.prototype.trim`. -/
def jsTrim (s : JSStr) : JSStr :=
  ((s.dropWhile jsIsSpace).reverse.dropWhile jsIsSpace).reverse

/-- Model of JS `s.startsWith(p)` for a one-character p. -/
def jsStartsWithChar (s : JSStr) (c : Char) : Bool :=
  match s with
  | [] => false
  | d :: _ => d = c

/-- Model of JS `s.endsWith(p)` for a one-character p. -/
def jsEndsWithChar (s : JSStr) (c : Char) : Bool :=
  match s.getLast? with
  | none => false
  | some d => d = c

/-- `drive-utils.ts` `stripTrailingSlash`: strings of length ≤ 1 are returned
unchanged, otherwise one trailing "/" (`slice(0, -1)`) is removed if present. -/
def stripTrailingSlash (path : JSStr) : JSStr :=
  if path.length ≤ 1 then path
  else if jsEndsWithChar path '/' then path.dropLast else path

/-- `drive-utils.ts` `stripLeadingSlash`: removes one leading "/" (`slice(1)`)
if present. -/
def stripLeadingSlash (path : JSStr) : JSStr :=
  if jsStartsWithChar path '/' then path.tail else path

/-- `drive-utils.ts` `normalizeRootPath`. -/
def normalizeRootPath (rootPath : JSStr) : JSStr :=
  if jsStrFalsy rootPath then ['/']
  else
    let n1 := jsTrim rootPath
    let n2 := if jsStartsWithChar n1 '/' then n1 else '/' :: n1
    if 1 < n2.length ∧ jsEndsWithChar n2 '/' then n2.dropLast else n2

/-- `drive-utils.ts` `joinRootPath`. -/
def joinRootPath (rootPath path : JSStr) : JSStr :=
  let root := normalizeRootPath rootPath
  let cleanPath :=
    if jsStrFalsy path then []
    else if jsStartsWithChar path '/' then path else '/' :: path
  if jsStrFalsy path ∨ cleanPath = ['/'] then root
  else if root = ['/'] then cleanPath
  else root ++ cleanPath

/-- The standard base64 alphabet, index 0 to 63. -/
def b64Alphabet : List Char :=
  [ 'A', 'B', 'C', 'D', 'E', 'F', 'G', 'H', 'I', 'J', 'K', 'L', 'M',
    'N', 'O', 'P', 'Q', 'R', 'S', 'T', 'U', 'V', 'W', 'X', 'Y', 'Z',
    'a', 'b', 'c', 'd', 'e', 'f', 'g', 'h', 'i', 'j', 'k', 'l', 'm',
    'n', 'o', 'p', 'q', 'r', 's', 't', 'u', 'v', 'w', 'x', 'y', 'z',
    '0', '1', '2', '3', '4', '5', '6', '7', '8', '9', '+', '/' ]

/-- The base64 character for a 6-bit value. -/
def b64CharOf (n : Nat) : Char := b64Alphabet.getD n 'A'

/-- The 6-bit value of a base64 character, if any. -/
def b64IndexOf (c : Char) : Option Nat := b64Alphabet.indexOf? c

/-- Standard base64 encoding of a byte sequence (the body of `btoa`). -/
def b64EncBytes : List Nat → List Char
  | [] => []
  | [a] => [b64CharOf (a / 4), b64CharOf (a % 4 * 16), '=', '=']
  | [a, b] => [b64CharOf (a / 4), b64CharOf (a % 4 * 16 + b / 16),
               b64CharOf (b % 16 * 4), '=']
  | a :: b :: c :: rest =>
      b64CharOf (a / 4) :: b64CharOf (a % 4 * 16 + b / 16) ::
      b64CharOf (b % 16 * 4 + c / 64) :: b64CharOf (c % 64) :: b64EncBytes rest

/-- Model of the host `btoa`: fails (throws) when a code unit exceeds 0xFF. -/
def jsBtoa (s : JSStr) : Option JSStr :=
  if s.all (fun c => c.toNat ≤ 0xff) then some (b64EncBytes (s.map Char.toNat))
  else none

/-- ASCII whitespace, removed by forgiving-base64 decoding. -/
def asciiSpace (c : Char) : Bool :=
  c = ' ' || c = '\t' || c = '\n' || c = '\r' || c.toNat = 12

/-- Removes up to two trailing '=' characters (forgiving-base64 step). -/
def stripPad2 (s : List Char) : List Char :=
  if s.getLast? = some '=' then
    let s1 := s.dropLast
    if s1.getLast? = some '=' then s1.dropLast else s1
  else s

/-- Map every base64 character of a list to its 6-bit value; fails on any
character outside the base64 alphabet. -/
def b64Indices : List Char → Option (List Nat)
  | [] => some []
  | c :: rest =>
      match b64IndexOf c, b64Indices rest with
      | some i, some is => some (i :: is)
      | _, _ => none

/-- Reassemble bytes from 6-bit values, four at a time; a trailing group of
two or three values yields one or two bytes, with the leftover bits
discarded (forgiving-base64); a trailing single value is an error. -/
def b64DecQuads : List Nat → Option (List Nat)
  | [] => some []
  | [_] => none
  | [a, b] => some [a * 4 + b / 16]
  | [a, b, c] => some [a * 4 + b / 16, b % 16 * 16 + c / 4]
  | a :: b :: c :: d :: rest =>
      match b64DecQuads rest with
      | some t => some ((a * 4 + b / 16) :: (b % 16 * 16 + c / 4) :: (c % 4 * 64 + d) :: t)
      | none => none

/-- Model of the host `atob` (WHATWG forgiving-base64 decode). -/
def jsAtob (s : JSStr) : Option JSStr :=
  let t0 := s.filter (fun c => !asciiSpace c)
  let t1 := if t0.length % 4 = 0 then stripPad2 t0 else t0
  if t1.length % 4 = 1 then none
  else
    match b64Indices t1 with
    | none => none
    | some idxs =>
        match b64DecQuads idxs with
        | none => none
        | some bytes => some (bytes.map Char.ofNat)

/-- The character rewrite `+`→`-`, `/`→`_` done by `encodeUploadState`. -/
def swapChar (c : Char) : Char :=
  if c = '+' then '-' else if c = '/' then '_' else c

/-- The character rewrite `-`→`+`, `_`→`/` done by `decodeUploadState`. -/
def unswapChar (c : Char) : Char :=
  if c = '-' then '+' else if c = '_' then '/' else c

/-- Model of the regex replace `/=+$/` with the empty string: removes every
trailing '='. -/
def stripAllTrailingEq (s : List Char) : List Char :=
  (s.reverse.dropWhile (fun c => c = '=')).reverse

/-- JSON values, modelling the JS values that `JSON.stringify`/`JSON.parse`
exchange.  `jnum` models integer-valued JS numbers exactly; `jnumNonint`
stands for a number written with a fraction or exponent, kept as its source
literal (IEEE-754 float semantics are outside this model). -/
inductive JVal where
  | jnull : JVal
  | jbool (b : Bool) : JVal
  | jnum (n : Int) : JVal
  | jnumNonint (lit : JSStr) : JVal
  | jstr (s : JSStr) : JVal
  | jarr (xs : List JVal) : JVal
  | jobj (fields : List (JSStr × JVal)) : JVal

/-- Lowercase hexadecimal digit. -/
def hexChar (n : Nat) : Char :=
  if n < 10 then Char.ofNat (48 + n) else Char.ofNat (87 + n)

/-- `JSON.stringify` escaping of one string character. -/
def escChar (c : Char) : List Char :=
  if c = '"' then ['\\', '"']
  else if c = '\\' then ['\\', '\\']
  else if c.toNat = 8 then ['\\', 'b']
  else if c.toNat = 9 then ['\\', 't']
  else if c.toNat = 10 then ['\\', 'n']
  else if c.toNat = 12 then ['\\', 'f']
  else if c.toNat = 13 then ['\\', 'r']
  else if c.toNat < 32 then
    ['\\', 'u', '0', '0', hexChar (c.toNat / 16), hexChar (c.toNat % 16)]
  else [c]

/-- A JSON string literal: quote, escaped characters, quote. -/
def printQuoted (s : JSStr) : List Char :=
  '"' :: (s.flatMap escChar) ++ ['"']

/-- Decimal digits of a natural number (most significant first). -/
def printNat (n : Nat) : List Char :=
  if n = 0 then ['0'] else ((Nat.digits 10 n).reverse.map Nat.digitChar)

/-- Decimal form of an integer as printed by `JSON.stringify`. -/
def printInt (i : Int) : List Char :=
  if i < 0 then '-' :: printNat i.natAbs else printNat i.natAbs

mutual

/-- Model of `JSON.stringify` (no spacing, keys in record order). -/
def printJVal : JVal → List Char
  | .jnull => ['n', 'u', 'l', 'l']
  | .jbool true => ['t', 'r', 'u', 'e']
  | .jbool false => ['f', 'a', 'l', 's', 'e']
  | .jnum n => printInt n
  | .jnumNonint lit => lit
  | .jstr s => printQuoted s
  | .jarr xs => '[' :: printItems xs ++ [']']
  | .jobj fs => '{' :: printFields fs ++ ['}']

/-- Comma-joined array items. -/
def printItems : List JVal → List Char
  | [] => []
  | [x] => printJVal x
  | x :: y :: rest => printJVal x ++ ',' :: printItems (y :: rest)

/-- Comma-joined object members. -/
def printFields : List (JSStr × JVal) → List Char
  | [] => []
  | [(k, v)] => printQuoted k ++ ':' :: printJVal v
  | (k, v) :: m :: rest =>
      printQuoted k ++ ':' :: printJVal v ++ ',' :: printFields (m :: rest)

end

/-- JSON insignificant whitespace. -/
def jsonWs (c : Char) : Bool :=
  c = ' ' || c = '\t' || c = '\n' || c = '\r'

/-- Decimal digit test. -/
def isDigitChar (c : Char) : Bool := 48 ≤ c.toNat && c.toNat ≤ 57

/-- Value of a decimal digit character. -/
def digVal (c : Char) : Nat := c.toNat - 48

/-- Value of a hexadecimal digit character, if any. -/
def hexVal (c : Char) : Option Nat :=
  if 48 ≤ c.toNat ∧ c.toNat ≤ 57 then some (c.toNat - 48)
  else if 97 ≤ c.toNat ∧ c.toNat ≤ 102 then some (c.toNat - 87)
  else if 65 ≤ c.toNat ∧ c.toNat ≤ 70 then some (c.toNat - 55)
  else none

/-- Single-character JSON string escapes. -/
def escUnmap (c : Char) : Option Char :=
  if c = '"' then some '"'
  else if c = '\\' then some '\\'
  else if c = '/' then some '/'
  else if c = 'b' then some (Char.ofNat 8)
  else if c = 'f' then some (Char.ofNat 12)
  else if c = 'n' then some (Char.ofNat 10)
  else if c = 'r' then some (Char.ofNat 13)
  else if c = 't' then some (Char.ofNat 9)
  else none

/-- Parses the body of a JSON string literal (after the opening quote) up to
and including the closing quote. -/
def parseJStrBody : List Char → Option (JSStr × List Char)
  | [] => none
  | c :: rest =>
    if c = '"' then some ([], rest)
    else if c = '\\' then
      match rest with
      | [] => none
      | e :: rest2 =>
        if e = 'u' then
          match rest2 with
          | h1 :: h2 :: h3 :: h4 :: rest3 =>
            match hexVal h1, hexVal h2, hexVal h3, hexVal h4 with
            | some v1, some v2, some v3, some v4 =>
              match parseJStrBody rest3 with
              | some (s, r) =>
                  some (Char.ofNat (v1 * 4096 + v2 * 256 + v3 * 16 + v4) :: s, r)
              | none => none
            | _, _, _, _ => none
          | _ => none
        else
          match escUnmap e with
          | some ec =>
            match parseJStrBody rest2 with
            | some (s, r) => some (ec :: s, r)
            | none => none
          | none => none
    else if c.toNat < 32 then none
    else
      match parseJStrBody rest with
      | some (s, r) => some (c :: s, r)
      | none => none

/-- Longest decimal-digit prefix and the remainder. -/
def readDigits (s : List Char) : List Char × List Char :=
  (s.takeWhile isDigitChar, s.dropWhile isDigitChar)

/-- Numeric value of a big-endian digit string. -/
def natFromDigits (ds : List Char) : Nat :=
  ds.foldl (fun a c => a * 10 + digVal c) 0

/-- Parses an optional exponent part; returns the consumed characters. -/
def parseExpPart (s : List Char) : Option (List Char × List Char) :=
  match s with
  | c :: r =>
    if c = 'e' ∨ c = 'E' then
      let (sgn, r1) :=
        match r with
        | '+' :: r1 => (['+'], r1)
        | '-' :: r1 => (['-'], r1)
        | _ => ([], r)
      match readDigits r1 with
      | ([], _) => none
      | (ds, r2) => some (c :: sgn ++ ds, r2)
    else some ([], s)
  | [] => some ([], s)

/-- Parses a JSON number token (sign included).  The JSON grammar forbids
leading zeros, which surfaces here as consuming only the initial `0`, the
stray digits then failing at the caller as in the host parser. -/
def parseJNum (s : List Char) : Option (JVal × List Char) :=
  let (neg, s1) := match s with | '-' :: r => (true, r) | _ => (false, s)
  match readDigits s1 with
  | ([], _) => none
  | (ds, r) =>
    let (ids, r') :=
      if ds.headI = '0' ∧ 1 < ds.length then (['0'], ds.tail ++ r) else (ds, r)
    match r' with
    | '.' :: r2 =>
      (match readDigits r2 with
       | ([], _) => none
       | (fds, r3) =>
         match parseExpPart r3 with
         | some (ecs, r4) =>
             some (.jnumNonint ((if neg then ['-'] else []) ++ ids ++ '.' :: fds ++ ecs), r4)
         | none => none)
    | c :: _ =>
      if c = 'e' ∨ c = 'E' then
        match parseExpPart r' with
        | some (ecs, r4) =>
            some (.jnumNonint ((if neg then ['-'] else []) ++ ids ++ ecs), r4)
        | none => none
      else
        some (.jnum (if neg then -(natFromDigits ids : Int) else (natFromDigits ids : Int)), r')
    | [] =>
      some (.jnum (if neg then -(natFromDigits ids : Int) else (natFromDigits ids : Int)), r')

mutual

/-- Fueled model of the `JSON.parse` value parser: parses one JSON value and
returns the unconsumed remainder. -/
def parseJVal : Nat → List Char → Option (JVal × List Char)
  | 0, _ => none
  | fuel + 1, s =>
    match s.dropWhile jsonWs with
    | [] => none
    | c :: rest =>
      if c = 'n' then
        match rest with
        | 'u' :: 'l' :: 'l' :: r => some (.jnull, r)
        | _ => none
      else if c = 't' then
        match rest with
        | 'r' :: 'u' :: 'e' :: r => some (.jbool true, r)
        | _ => none
      else if c = 'f' then
        match rest with
        | 'a' :: 'l' :: 's' :: 'e' :: r => some (.jbool false, r)
        | _ => none
      else if c = '"' then
        match parseJStrBody rest with
        | some (str, r) => some (.jstr str, r)
        | none => none
      else if c = '[' then
        match rest.dropWhile jsonWs with
        | ']' :: r => some (.jarr [], r)
        | _ =>
          match parseItems fuel rest with
          | some (xs, r) => some (.jarr xs, r)
          | none => none
      else if c = '{' then
        match rest.dropWhile jsonWs with
        | '}' :: r => some (.jobj [], r)
        | _ =>
          match parseMembers fuel rest with
          | some (fs, r) => some (.jobj fs, r)
          | none => none
      else if c = '-' ∨ isDigitChar c then parseJNum (c :: rest)
      else none

/-- Fueled parser for the comma-separated items of a non-empty JSON array,
consuming the closing bracket. -/
def parseItems : Nat → List Char → Option (List JVal × List Char)
  | 0, _ => none
  | fuel + 1, s =>
    match parseJVal fuel s with
    | none => none
    | some (v, r1) =>
      match r1.dropWhile jsonWs with
      | ',' :: r2 =>
        (match parseItems fuel r2 with
         | some (vs, r3) => some (v :: vs, r3)
         | none => none)
      | ']' :: r2 => some ([v], r2)
      | _ => none

/-- Fueled parser for the comma-separated members of a non-empty JSON object,
consuming the closing brace. -/
def parseMembers : Nat → List Char → Option (List (JSStr × JVal) × List Char)
  | 0, _ => none
  | fuel + 1, s =>
    match s.dropWhile jsonWs with
    | '"' :: r =>
      (match parseJStrBody r with
       | none => none
       | some (k, r1) =>
         match r1.dropWhile jsonWs with
         | ':' :: r2 =>
           (match parseJVal fuel r2 with
            | none => none
            | some (v, r3) =>
              match r3.dropWhile jsonWs with
              | ',' :: r4 =>
                (match parseMembers fuel r4 with
                 | some (fs, r5) => some ((k, v) :: fs, r5)
                 | none => none)
              | '}' :: r4 => some ([(k, v)], r4)
              | _ => none)
         | _ => none)
    | _ => none

end

/-- Model of `JSON.parse`: a whole input must be one JSON value surrounded
only by whitespace.  The fuel exceeds the recursion depth reachable on the
input, so it is not a semantic restriction. -/
def jsonParse (s : List Char) : Option JVal :=
  match parseJVal (2 * s.length + 4) s with
  | some (v, rest) => if (rest.dropWhile jsonWs).isEmpty then some v else none
  | none => none

/-- `drive-utils.ts` `encodeUploadState`: JSON serialize, `btoa`, then make
the token URL-safe (`+`→`-`, `/`→`_`, strip `=` padding).  `none` models the
host `btoa` throwing on non-Latin-1 text. -/
def encodeUploadState (state : JVal) : Option JSStr :=
  match jsBtoa (printJVal state) with
  | some base64 => some (stripAllTrailingEq (base64.map swapChar))
  | none => none

/-- `drive-utils.ts` `decodeUploadState`: undo the URL-safe rewrite, restore
padding to a multiple of four, `atob`, then `JSON.parse`; `none` models a
thrown decode error. -/
def decodeUploadState (token : JSStr) : Option JVal :=
  let padded := token.map unswapChar
  let padLength := if padded.length % 4 = 0 then 0 else 4 - padded.length % 4
  let base64 := padded ++ List.replicate padLength '='
  match jsAtob base64 with
  | some json => jsonParse json
  | none => none

/-- Keys pairwise distinct under JS string equality. -/
def nodupKeys : List JSStr → Bool
  | [] => true
  | k :: rest => !(rest.contains k) && nodupKeys rest

mutual

/-- A JVal that models a well-formed JS attribute map value: integer-valued
numbers only and no duplicate keys at any object level. -/
def wfJVal : JVal → Bool
  | .jnull => true
  | .jbool _ => true
  | .jnum _ => true
  | .jnumNonint _ => false
  | .jstr _ => true
  | .jarr xs => wfItemsB xs
  | .jobj fs => nodupKeys (fs.map Prod.fst) && wfFieldsB fs

/-- All array items well formed. -/
def wfItemsB : List JVal → Bool
  | [] => true
  | x :: rest => wfJVal x && wfItemsB rest

/-- All member values well formed. -/
def wfFieldsB : List (JSStr × JVal) → Bool
  | [] => true
  | (_, v) :: rest => wfJVal v && wfFieldsB rest

end

/-- Model of JS `parseInt(s, 10)`: skip whitespace, optional sign, longest
digit prefix; `none` models `NaN`. -/
def jsParseInt (s : JSStr) : Option Int :=
  let t := s.dropWhile jsIsSpace
  let (sgn, t1) : Int × JSStr :=
    match t with
    | '+' :: r => (1, r)
    | '-' :: r => (-1, r)
    | _ => (1, t)
  match readDigits t1 with
  | ([], _) => none
  | (ds, _) => some (sgn * (natFromDigits ds : Int))

/-- JS truthiness of an optional string (`!!x`): false for `undefined` and
for the empty string. -/
def jsTruthyStr (o : Option JSStr) : Bool :=
  match o with
  | none => false
  | some s => !s.isEmpty

/-- JS `x || dflt` over an optional string. -/
def jsOrStr (o : Option JSStr) (dflt : JSStr) : JSStr :=
  match o with
  | none => dflt
  | some s => if s.isEmpty then dflt else s

/-- The uniform `DriveObject` record of the storage contract.  `size` is
`none` when the JS value is `NaN` (a `parseInt` failure). -/
structure DriveObject where
  key : JSStr
  name : JSStr
  size : Option Int
  lastModified : JSStr
  isDirectory : Bool
  etag : Option JSStr := none

/-- The uniform `ListObjectsResult` record of the storage contract. -/
structure ListObjectsResult where
  objects : List DriveObject
  prefixes : List JSStr
  isTruncated : Bool
  nextContinuationToken : Option JSStr := none

/-- Code-unit comparison of two JS strings; models `localeCompare` in the
code-unit collation. -/
def lexCmp : JSStr → JSStr → Ordering
  | [], [] => .eq
  | [], _ :: _ => .lt
  | _ :: _, [] => .gt
  | a :: as, b :: bs =>
    match compare a.toNat b.toNat with
    | .eq => lexCmp as bs
    | o => o

/-- `localeCompare` as a JS comparator result. -/
def localeCompare (a b : JSStr) : Int :=
  match lexCmp a b with
  | .lt => -1
  | .eq => 0
  | .gt => 1

/-- The sort comparator shared by the adapters' `listObjects`: directories
first, then by name. -/
def cmpDrive (a b : DriveObject) : Int :=
  if a.isDirectory ≠ b.isDirectory then (if a.isDirectory then -1 else 1)
  else localeCompare a.name b.name

/-- Boolean "sorts not after" relation induced by `cmpDrive`. -/
def leDrive (a b : DriveObject) : Bool := decide (cmpDrive a b ≤ 0)

/-- Model of `Array.prototype.sort` with the adapters' comparator: the result
is sorted by the comparator and is a permutation of the input, which is all
ECMAScript guarantees for a consistent comparator. -/
def sortDrive (objects : List DriveObject) : List DriveObject :=
  objects.mergeSort leDrive

/-- A Google Drive `files.list` entry as read by the adapter. -/
structure GoogleFile where
  id : JSStr
  name : JSStr
  mimeType : Option JSStr := none
  size : Option JSStr := none
  modifiedTime : Option JSStr := none

/-- A Google Drive `files.list` response as read by the adapter. -/
structure GoogleListResponse where
  files : List GoogleFile
  nextPageToken : Option JSStr := none

/-- The folder MIME type constant of `gdrive-client.ts`. -/
def gdriveFolderMime : JSStr := "application/vnd.google-apps.folder".toList

/-- Abstract model of `Date.toISOString`: an injective rendering of the
epoch-milliseconds value; no claim inspects the text itself. -/
def jsDateToISO (ms : Int) : JSStr := printInt ms

/-- One `DriveObject` built by `GoogleDriveClient.listObjects` from one
listing entry. -/
def gdriveEntry (keyBase : JSStr) (file : GoogleFile) : DriveObject :=
  let isDirectory := file.mimeType = some gdriveFolderMime
  { key := if isDirectory then keyBase ++ file.name ++ ['/'] else keyBase ++ file.name
    name := file.name
    size := jsParseInt (jsOrStr file.size ('0' :: []))
    lastModified := jsOrStr file.modifiedTime []
    isDirectory := isDirectory }

/-- `GoogleDriveClient.listObjects`, from the resolved folder's listing
response to the returned `ListObjectsResult` (source lines 220-251). -/
def gdriveBuildList (normalized : JSStr) (rsp : GoogleListResponse) : ListObjectsResult :=
  let keyBase := if normalized.isEmpty then [] else stripTrailingSlash normalized ++ ['/']
  let objects := rsp.files.map (gdriveEntry keyBase)
  let prefixes := (objects.filter (fun o => o.isDirectory)).map (fun o => o.key)
  { objects := sortDrive objects
    prefixes := prefixes
    isTruncated := jsTruthyStr rsp.nextPageToken
    nextContinuationToken := rsp.nextPageToken }

/-- A Baidu `xpan/file list` entry as read by the adapter. -/
structure BaiduFile where
  fs_id : Nat
  path : JSStr
  server_filename : JSStr
  size : Option Nat := none
  isdir : Nat
  server_mtime : Int
  server_ctime : Int := 0
deriving DecidableEq

/-- One `DriveObject` built by `BaiduYunClient.listObjects` from one listing
entry. -/
def baiduEntry (keyBase : JSStr) (file : BaiduFile) : DriveObject :=
  let isDirectory := file.isdir = 1
  { key := if isDirectory then keyBase ++ file.server_filename ++ ['/']
           else keyBase ++ file.server_filename
    name := file.server_filename
    size := some (file.size.getD 0)
    lastModified := jsDateToISO (file.server_mtime * 1000)
    isDirectory := isDirectory }

/-- `BaiduYunClient.listObjects`, from the directory's listing entries to the
returned `ListObjectsResult` (source lines 282-313); the adapter never
paginates, so the result is never truncated and carries no token. -/
def baiduBuildList (pre : JSStr) (files : List BaiduFile) : ListObjectsResult :=
  let keyBase := if pre.isEmpty then []
                 else stripTrailingSlash (stripLeadingSlash pre) ++ ['/']
  let objects := files.map (baiduEntry keyBase)
  let prefixes := (objects.filter (fun o => o.isDirectory)).map (fun o => o.key)
  { objects := sortDrive objects
    prefixes := prefixes
    isTruncated := false
    nextContinuationToken := none }

/-- 32-bit wrap-around addition (`add32` in `md5.ts`). -/
def add32 (a b : Nat) : Nat := (a + b) % 2 ^ 32

/-- 32-bit left rotation (`rol` in `md5.ts`). -/
def rol32 (v s : Nat) : Nat := (v <<< s ||| v >>> (32 - s)) % 2 ^ 32

/-- 32-bit bitwise complement. -/
def not32 (b : Nat) : Nat := Nat.xor b (2 ^ 32 - 1)

/-- `cmn` in `md5.ts`. -/
def md5cmn (q a b x s t : Nat) : Nat := add32 (rol32 (add32 (add32 a q) (add32 x t)) s) b

/-- Round function F (`ff` in `md5.ts`). -/
def md5ff (a b c d x s t : Nat) : Nat := md5cmn ((b &&& c) ||| (not32 b &&& d)) a b x s t

/-- Round function G (`gg` in `md5.ts`). -/
def md5gg (a b c d x s t : Nat) : Nat := md5cmn ((b &&& d) ||| (c &&& not32 d)) a b x s t

/-- Round function H (`hh` in `md5.ts`). -/
def md5hh (a b c d x s t : Nat) : Nat := md5cmn (Nat.xor (Nat.xor b c) d) a b x s t

/-- Round function I (`ii` in `md5.ts`). -/
def md5ii (a b c d x s t : Nat) : Nat := md5cmn (Nat.xor c ((b ||| not32 d) % 2 ^ 32)) a b x s t

/-- The padded 32-bit message word at index `j` for a byte message, as the
sparse JS `words` array builds it: little-endian packed bytes, OR-ed `0x80`
terminator, and the bit length stored at the fixed tail slot (low word only;
the JS code is exact for messages shorter than 2^31 bits, which covers every
buffer this application hashes). -/
def md5WordAt (msg : List Nat) (j : Nat) : Nat :=
  let bitLen := msg.length * 8
  let byteWord := msg.getD (4 * j) 0 + msg.getD (4 * j + 1) 0 * 256 +
                  msg.getD (4 * j + 2) 0 * 65536 + msg.getD (4 * j + 3) 0 * 16777216
  let withPad := byteWord ||| (if j = bitLen / 32 then 0x80 <<< (bitLen % 32) else 0)
  let lenIdx := ((bitLen + 64) % 2 ^ 32) / 512 * 16 + 14
  if j = lenIdx then bitLen % 2 ^ 32 else withPad

/-- One 64-step MD5 block transformation starting at word index `i`,
mirroring the explicit step list of `md5.ts`. -/
def md5Block (w : Nat → Nat) (i : Nat) (st : Nat × Nat × Nat × Nat) : Nat × Nat × Nat × Nat :=
  let (a0, b0, c0, d0) := st
  let a := a0
  let b := b0
  let c := c0
  let d := d0
  let a := md5ff a b c d (w (i + 0)) 7 0xd76aa478
  let d := md5ff d a b c (w (i + 1)) 12 0xe8c7b756
  let c := md5ff c d a b (w (i + 2)) 17 0x242070db
  let b := md5ff b c d a (w (i + 3)) 22 0xc1bdceee
  let a := md5ff a b c d (w (i + 4)) 7 0xf57c0faf
  let d := md5ff d a b c (w (i + 5)) 12 0x4787c62a
  let c := md5ff c d a b (w (i + 6)) 17 0xa8304613
  let b := md5ff b c d a (w (i + 7)) 22 0xfd469501
  let a := md5ff a b c d (w (i + 8)) 7 0x698098d8
  let d := md5ff d a b c (w (i + 9)) 12 0x8b44f7af
  let c := md5ff c d a b (w (i + 10)) 17 0xffff5bb1
  let b := md5ff b c d a (w (i + 11)) 22 0x895cd7be
  let a := md5ff a b c d (w (i + 12)) 7 0x6b901122
  let d := md5ff d a b c (w (i + 13)) 12 0xfd987193
  let c := md5ff c d a b (w (i + 14)) 17 0xa679438e
  let b := md5ff b c d a (w (i + 15)) 22 0x49b40821
  let a := md5gg a b c d (w (i + 1)) 5 0xf61e2562
  let d := md5gg d a b c (w (i + 6)) 9 0xc040b340
  let c := md5gg c d a b (w (i + 11)) 14 0x265e5a51
  let b := md5gg b c d a (w (i + 0)) 20 0xe9b6c7aa
  let a := md5gg a b c d (w (i + 5)) 5 0xd62f105d
  let d := md5gg d a b c (w (i + 10)) 9 0x02441453
  let c := md5gg c d a b (w (i + 15)) 14 0xd8a1e681
  let b := md5gg b c d a (w (i + 4)) 20 0xe7d3fbc8
  let a := md5gg a b c d (w (i + 9)) 5 0x21e1cde6
  let d := md5gg d a b c (w (i + 14)) 9 0xc33707d6
  let c := md5gg c d a b (w (i + 3)) 14 0xf4d50d87
  let b := md5gg b c d a (w (i + 8)) 20 0x455a14ed
  let a := md5gg a b c d (w (i + 13)) 5 0xa9e3e905
  let d := md5gg d a b c (w (i + 2)) 9 0xfcefa3f8
  let c := md5gg c d a b (w (i + 7)) 14 0x676f02d9
  let b := md5gg b c d a (w (i + 12)) 20 0x8d2a4c8a
  let a := md5hh a b c d (w (i + 5)) 4 0xfffa3942
  let d := md5hh d a b c (w (i + 8)) 11 0x8771f681
  let c := md5hh c d a b (w (i + 11)) 16 0x6d9d6122
  let b := md5hh b c d a (w (i + 14)) 23 0xfde5380c
  let a := md5hh a b c d (w (i + 1)) 4 0xa4beea44
  let d := md5hh d a b c (w (i + 4)) 11 0x4bdecfa9
  let c := md5hh c d a b (w (i + 7)) 16 0xf6bb4b60
  let b := md5hh b c d a (w (i + 10)) 23 0xbebfbc70
  let a := md5hh a b c d (w (i + 13)) 4 0x289b7ec6
  let d := md5hh d a b c (w (i + 0)) 11 0xeaa127fa
  let c := md5hh c d a b (w (i + 3)) 16 0xd4ef3085
  let b := md5hh b c d a (w (i + 6)) 23 0x04881d05
  let a := md5hh a b c d (w (i + 9)) 4 0xd9d4d039
  let d := md5hh d a b c (w (i + 12)) 11 0xe6db99e5
  let c := md5hh c d a b (w (i + 15)) 16 0x1fa27cf8
  let b := md5hh b c d a (w (i + 2)) 23 0xc4ac5665
  let a := md5ii a b c d (w (i + 0)) 6 0xf4292244
  let d := md5ii d a b c (w (i + 7)) 10 0x432aff97
  let c := md5ii c d a b (w (i + 14)) 15 0xab9423a7
  let b := md5ii b c d a (w (i + 5)) 21 0xfc93a039
  let a := md5ii a b c d (w (i + 12)) 6 0x655b59c3
  let d := md5ii d a b c (w (i + 3)) 10 0x8f0ccc92
  let c := md5ii c d a b (w (i + 10)) 15 0xffeff47d
  let b := md5ii b c d a (w (i + 1)) 21 0x85845dd1
  let a := md5ii a b c d (w (i + 8)) 6 0x6fa87e4f
  let d := md5ii d a b c (w (i + 15)) 10 0xfe2ce6e0
  let c := md5ii c d a b (w (i + 6)) 15 0xa3014314
  let b := md5ii b c d a (w (i + 13)) 21 0x4e0811a1
  let a := md5ii a b c d (w (i + 4)) 6 0xf7537e82
  let d := md5ii d a b c (w (i + 11)) 10 0xbd3af235
  let c := md5ii c d a b (w (i + 2)) 15 0x2ad7d2bb
  let b := md5ii b c d a (w (i + 9)) 21 0xeb86d391
  (add32 a a0, add32 b b0, add32 c c0, add32 d d0)

/-- Two lowercase hex characters of one byte. -/
def byteHex (b : Nat) : List Char := [hexChar (b / 16 % 16), hexChar (b % 16)]

/-- `toHex` of `md5.ts`: a 32-bit word printed as four little-endian bytes. -/
def word32HexLE (n : Nat) : List Char :=
  byteHex (n % 256) ++ byteHex (n / 256 % 256) ++ byteHex (n / 65536 % 256) ++
  byteHex (n / 16777216 % 256)

/-- `md5Hex` of `md5.ts` on a byte sequence. -/
def md5Hex (msg : List Nat) : JSStr :=
  let bitLen := msg.length * 8
  let numBlocks := ((bitLen + 64) % 2 ^ 32) / 512 + 1
  let init : Nat × Nat × Nat × Nat := (0x67452301, 0xefcdab89, 0x98badcfe, 0x10325476)
  let (a, b, c, d) :=
    (List.range numBlocks).foldl (fun st k => md5Block (md5WordAt msg) (16 * k) st) init
  word32HexLE a ++ word32HexLE b ++ word32HexLE c ++ word32HexLE d

/-- The Baidu adapter's `config` record fields that the client reads. -/
structure BaiduConfig where
  use_online_api : Bool := false
  api_address : Option JSStr := none
  refresh_token : Option JSStr := none
  client_id : Option JSStr := none
  client_secret : Option JSStr := none
  root_path : Option JSStr := none
  order_by : Option JSStr := none
  order_direction : Option JSStr := none
  custom_upload_part_size : Option Int := none

/-- The Baidu adapter's mutable `saving` record fields that the client reads
or writes. -/
structure BaiduSaving where
  access_token : Option JSStr := none
  refresh_token : Option JSStr := none
  vip_type : Option Nat := none

/-- The in-memory state of one `BaiduYunClient` instance. -/
structure BaiduState where
  config : BaiduConfig
  saving : BaiduSaving
  savingChanged : Bool := false
  configChanged : Bool := false

/-- `BaiduYunClient.getStateUpdates`: `none` when nothing changed, otherwise
the changed slices only. -/
def baiduGetStateUpdates (st : BaiduState) : Option (Option BaiduConfig × Option BaiduSaving) :=
  if !st.savingChanged && !st.configChanged then none
  else some (if st.configChanged then some st.config else none,
             if st.savingChanged then some st.saving else none)

/-- A parsed OAuth-refresh response body (any provider, either refresh
route); each client reads only the fields its provider sends. -/
structure OauthResp where
  ok : Bool := true
  access_token : Option JSStr := none
  refresh_token : Option JSStr := none
  expires_in : Option Int := none
  error : Option JSStr := none
  error_description : Option JSStr := none
  code : Option JSStr := none
  message : Option JSStr := none
  text : Option JSStr := none
deriving DecidableEq

/-- The data fields of a parsed Baidu API JSON response that the client
reads. -/
structure BdData where
  errno : Option Int := none
  return_type : Option Nat := none
  uploadid : Option JSStr := none
  list : List BaiduFile := []
deriving DecidableEq

/-- One provider response consumed by one Baidu-side `fetch`. -/
inductive BdFetch where
  | oauth (o : OauthResp)
  | api (ok : Bool) (status : Nat) (body : BdData)
  | apiRaw (ok : Bool) (status : Nat) (text : JSStr)
  | slice (errno : Option Int) (error_code : Option Int)
deriving DecidableEq

/-- `BaiduYunClient.refreshTokenOnline`, consuming one OAuth fetch. -/
def baiduRefreshTokenOnline (st : BaiduState) (r : BdFetch) : Except JSStr BaiduState :=
  match r with
  | .oauth o =>
    if !o.ok then .error ("Baidu online refresh failed".toList)
    else if !(jsTruthyStr o.access_token) || !(jsTruthyStr o.refresh_token) then
      .error (jsOrStr o.text ("Baidu online refresh returned empty token".toList))
    else
      .ok { st with
        saving := { st.saving with access_token := o.access_token,
                                   refresh_token := o.refresh_token }
        config := { st.config with refresh_token := o.refresh_token }
        savingChanged := true
        configChanged := true }
  | _ => .error ("script mismatch: expected oauth response".toList)

/-- `BaiduYunClient.refreshTokenLocal`, consuming one OAuth fetch. -/
def baiduRefreshTokenLocal (st : BaiduState) (r : BdFetch) : Except JSStr BaiduState :=
  if !(jsTruthyStr st.config.client_id) || !(jsTruthyStr st.config.client_secret) then
    .error ("Missing client_id or client_secret".toList)
  else
    match r with
    | .oauth o =>
      if !o.ok || jsTruthyStr o.error then
        .error (jsOrStr o.error_description
                 (jsOrStr o.error ("Baidu refresh failed".toList)))
      else if !(jsTruthyStr o.access_token) || !(jsTruthyStr o.refresh_token) then
        .error ("Baidu refresh returned empty token".toList)
      else
        .ok { st with
          saving := { st.saving with access_token := o.access_token,
                                     refresh_token := o.refresh_token }
          config := { st.config with refresh_token := o.refresh_token }
          savingChanged := true
          configChanged := true }
    | _ => .error ("script mismatch: expected oauth response".toList)

/-- `BaiduYunClient.refreshToken`: route to the online relay or the local
OAuth exchange; consumes one OAuth fetch either way. -/
def baiduRefreshToken (st : BaiduState) (r : BdFetch) : Except JSStr BaiduState :=
  if st.config.use_online_api && jsTruthyStr st.config.api_address then
    baiduRefreshTokenOnline st r
  else baiduRefreshTokenLocal st r

/-- `BaiduYunClient.resolvePath`. -/
def baiduResolvePath (st : BaiduState) (path : JSStr) : JSStr :=
  let rootPath := jsOrStr st.config.root_path ['/']
  let joined := joinRootPath rootPath path
  if !(jsStartsWithChar joined '/') then '/' :: joined else joined

/-- The API-fetch phase of `BaiduYunClient.request`, entered with a token in
hand: consume one API response; `errno` 111 or -6 forces a token refresh and
a replay of the same request (the recursive `this.request` call; after a
successful refresh its `ensureToken` is a no-op, so the replay is the next
API fetch).  Returns the parsed data, the state, the unconsumed script, and
the number of refresh-and-replay rounds performed. -/
def baiduApiStep (st : BaiduState) (script : List BdFetch) :
    Except JSStr (BdData × BaiduState × List BdFetch × Nat) :=
  match script with
  | [] => .error ("script exhausted".toList)
  | .apiRaw ok _status _text :: _ =>
    if !ok then .error ("Baidu API error".toList)
    else .error ("Baidu API parse failed".toList)
  | .api _ok _status body :: rest =>
    (match body.errno with
     | some e =>
       if e ≠ 0 then
         if e = 111 ∨ e = -6 then
           match rest with
           | [] => .error ("script exhausted".toList)
           | r :: rest2 =>
             match baiduRefreshToken st r with
             | .error msg => .error msg
             | .ok st2 =>
               match baiduApiStep st2 rest2 with
               | .ok (d, st3, s3, k) => .ok (d, st3, s3, k + 1)
               | .error msg => .error msg
         else .error ("Baidu API errno".toList)
       else .ok (body, st, rest, 0)
     | none => .ok (body, st, rest, 0))
  | .oauth _ :: _ => .error ("script mismatch: expected api response".toList)
  | .slice _ _ :: _ => .error ("script mismatch: expected api response".toList)

/-- `BaiduYunClient.request`: `ensureToken` (refreshing only when no access
token is cached), then the API fetch with the errno-triggered
refresh-and-replay recursion. -/
def baiduRequest (st : BaiduState) (script : List BdFetch) :
    Except JSStr (BdData × BaiduState × List BdFetch × Nat) :=
  if jsTruthyStr st.saving.access_token then baiduApiStep st script
  else
    match script with
    | [] => .error ("script exhausted".toList)
    | r :: rest =>
      match baiduRefreshToken st r with
      | .error msg => .error msg
      | .ok st1 => baiduApiStep st1 rest

/-- The slice decomposition of `putObject`'s upload loop: maximal runs of
`sliceSize` bytes. -/
def chunksOf (s : Nat) (l : List Nat) : List (List Nat) :=
  if l = [] then []
  else if s = 0 then []
  else l.take s :: chunksOf s (l.drop s)
termination_by l.length
decreasing_by
  simp only [List.length_drop]
  rename_i h1 h2
  cases l with
  | nil => exact absurd rfl h1
  | cons a t => cases s with
    | zero => exact absurd rfl h2
    | succ m => simp; omega

/-- `BaiduYunClient.getSliceSize` (the `fileSize` argument is unused in the
source as well). -/
def baiduGetSliceSize (st : BaiduState) (_fileSize : Nat) : Nat :=
  let defaultSlice := 4 * 1024 * 1024
  let vipSlice := 16 * 1024 * 1024
  let svipSlice := 32 * 1024 * 1024
  let vipType := st.saving.vip_type.getD 0
  let custom : Int := st.config.custom_upload_part_size.getD 0
  if 0 < custom then max defaultSlice (min (custom.toNat * 1024 * 1024) svipSlice)
  else if vipType = 2 then svipSlice
  else if vipType = 1 then vipSlice
  else defaultSlice

/-- The `precreate` form data sent by `putObject`. -/
structure BaiduPrecreateCall where
  path : JSStr
  size : Nat
  block_list : List JSStr
  content_md5 : JSStr
  slice_md5 : JSStr

/-- One `superfile2` slice upload performed by `putObject`. -/
structure BaiduSliceCall where
  path : JSStr
  uploadid : JSStr
  partseq : Nat
  chunk : List Nat

/-- The final `create` form data sent by `putObject`. -/
structure BaiduCreateCall where
  path : JSStr
  size : Nat
  uploadid : JSStr
  block_list : List JSStr

/-- The provider interactions one `putObject` call performs. -/
structure BaiduPutTrace where
  precreate : BaiduPrecreateCall
  uploads : List BaiduSliceCall
  create : Option BaiduCreateCall

/-- The sequential slice-upload loop of `putObject`: one `superfile2` fetch
per slice, failing when a slice response reports neither `errno` 0 nor
`error_code` 0. -/
def baiduUploadSlices (path uploadid : JSStr) (chunks : List (Nat × List Nat))
    (script : List BdFetch) : Except JSStr (List BaiduSliceCall × List BdFetch) :=
  match chunks with
  | [] => .ok ([], script)
  | (seq, chunk) :: rest =>
    match script with
    | .slice errno error_code :: s2 =>
      if ¬(errno = some 0) ∧ ¬(error_code = some 0) then
        .error ("Baidu upload slice failed".toList)
      else
        match baiduUploadSlices path uploadid rest s2 with
        | .ok (calls, s3) =>
            .ok ({ path := path, uploadid := uploadid, partseq := seq, chunk := chunk } :: calls, s3)
        | .error msg => .error msg
    | _ => .error ("script mismatch: expected slice response".toList)

/-- `BaiduYunClient.putObject`: slice the body, md5 the whole body, its first
256KiB and each slice, `precreate`; stop there on a dedup hit
(`return_type == 2`); otherwise upload every slice sequentially and commit
with `create`.  Returns the trace of provider calls made. -/
def baiduPutObject (st : BaiduState) (key : JSStr) (body : List Nat)
    (script : List BdFetch) : Except JSStr (BaiduPutTrace × BaiduState × List BdFetch) :=
  let path := baiduResolvePath st key
  let fileSize := body.length
  let sliceSize := baiduGetSliceSize st fileSize
  let chunks := chunksOf sliceSize body
  let blockList := chunks.map md5Hex
  let contentMd5 := md5Hex body
  let sliceMd5 := md5Hex (body.take (min (256 * 1024) fileSize))
  let pre : BaiduPrecreateCall :=
    { path := path, size := fileSize, block_list := blockList,
      content_md5 := contentMd5, slice_md5 := sliceMd5 }
  match baiduRequest st script with
  | .error msg => .error msg
  | .ok (data, st1, s1, _) =>
    if data.return_type = some 2 then
      .ok ({ precreate := pre, uploads := [], create := none }, st1, s1)
    else if !(jsTruthyStr data.uploadid) then
      .error ("Baidu upload id missing".toList)
    else
      let uploadid := data.uploadid.getD []
      match baiduUploadSlices path uploadid (chunks.enum) s1 with
      | .error msg => .error msg
      | .ok (uploads, s2) =>
        match baiduRequest st1 s2 with
        | .error msg => .error msg
        | .ok (_, st2, s3, _) =>
          .ok ({ precreate := pre, uploads := uploads,
                 create := some { path := path, size := fileSize,
                                  uploadid := uploadid, block_list := blockList } },
               st2, s3)

/-- `BaiduYunClient.initiateMultipartUpload`: always throws. -/
def baiduInitiateMultipartUpload (_key _contentType : JSStr)
    (_opts : Option (Option Nat × Option Nat)) : Except JSStr JSStr :=
  .error ("BaiduYun does not support multipart upload in this mode".toList)

/-- `BaiduYunClient.uploadPart`: always throws. -/
def baiduUploadPart (_key _uploadId : JSStr) (_partNumber : Nat)
    (_body : List Nat) (_contentLength : Option Nat) : Except JSStr JSStr :=
  .error ("BaiduYun does not support multipart upload in this mode".toList)

/-- `BaiduYunClient.completeMultipartUpload`: returns immediately with no
provider interaction. -/
def baiduCompleteMultipartUpload (_key _uploadId : JSStr)
    (_parts : List (Nat × JSStr)) : Except JSStr Unit :=
  .ok ()

/-- `BaiduYunClient.abortMultipartUpload`: returns immediately with no
provider interaction. -/
def baiduAbortMultipartUpload (_key _uploadId : JSStr) : Except JSStr Unit :=
  .ok ()

/-- `BaiduYunClient.getSignedUploadPartUrl`: always throws. -/
def baiduGetSignedUploadPartUrl (_key _uploadId : JSStr) (_partNumber : Nat)
    (_expiresIn : Nat) : Except JSStr JSStr :=
  .error ("BaiduYun does not support direct signed upload URLs".toList)

/-- JS truthiness of an optional number: `undefined` and 0 are falsy. -/
def jsTruthyInt (o : Option Int) : Bool :=
  match o with
  | none => false
  | some n => n ≠ 0

/-- The `expires_at` computation shared by the OAuth clients:
`Date.now() + (data.expires_in ? data.expires_in * 1000 : 3600 * 1000)`. -/
def expiryFrom (now : Int) (expires_in : Option Int) : Int :=
  now + (if jsTruthyInt expires_in then expires_in.getD 0 * 1000 else 3600 * 1000)

/-- One provider response consumed by one fetch of an HTTP-401-signalling
client (Google Drive / OneDrive): an OAuth exchange, a parsed API response,
or an API response whose body is not JSON. -/
inductive HttpFetch where
  | oauth (o : OauthResp)
  | oauthRaw (ok : Bool) (text : JSStr)
  | api (status : Nat) (body : JSStr)
deriving DecidableEq

/-- `Response.ok`: status in the 200 range. -/
def respOk (status : Nat) : Bool := 200 ≤ status && status < 300

/-- The in-memory state of one `GoogleDriveClient` instance; `now` models
`Date.now()` during the call. -/
structure GdriveState where
  client_id : Option JSStr := none
  client_secret : Option JSStr := none
  refresh_token : Option JSStr := none
  root_folder_id : Option JSStr := none
  access_token : Option JSStr := none
  saving_refresh_token : Option JSStr := none
  expires_at : Option Int := none
  savingChanged : Bool := false
  configChanged : Bool := false
  now : Int := 0

/-- `GoogleDriveClient.isTokenExpired`: no expiry recorded, or within the
5-minute safety margin. -/
def gdriveIsTokenExpired (st : GdriveState) : Bool :=
  match st.expires_at with
  | none => true
  | some e => decide (e - 5 * 60 * 1000 ≤ st.now)

/-- `GoogleDriveClient.refreshToken`, consuming one OAuth fetch. -/
def gdriveRefreshToken (st : GdriveState) (r : HttpFetch) : Except JSStr GdriveState :=
  if !(jsTruthyStr st.client_id) || !(jsTruthyStr st.client_secret) then
    .error ("Missing client_id or client_secret".toList)
  else if !(jsTruthyStr st.refresh_token) then
    .error ("Missing refresh_token".toList)
  else
    match r with
    | .oauth o =>
      if !o.ok || jsTruthyStr o.error then
        .error (jsOrStr o.error_description
                 (jsOrStr o.error ("Google refresh failed".toList)))
      else if !(jsTruthyStr o.access_token) then
        .error ("Google refresh returned empty token".toList)
      else
        .ok { st with
          access_token := o.access_token
          saving_refresh_token :=
            if jsTruthyStr o.refresh_token then o.refresh_token
            else st.saving_refresh_token
          refresh_token :=
            if jsTruthyStr o.refresh_token then o.refresh_token else st.refresh_token
          configChanged := st.configChanged || jsTruthyStr o.refresh_token
          expires_at := some (expiryFrom st.now o.expires_in)
          savingChanged := true }
    | _ => .error ("script mismatch: expected oauth response".toList)

/-- The fetch phase of `GoogleDriveClient.request`, entered with a fresh
token: consume one API response; a 401 forces a token refresh and a replay
of the same request (the recursive `this.request`; after a successful
refresh its `ensureToken` is a no-op since the token is fresh for an hour).
Returns the response, the state, the unconsumed script, and the number of
refresh-and-replay rounds. -/
def gdriveApiStep (st : GdriveState) (script : List HttpFetch) :
    Except JSStr ((Nat × JSStr) × GdriveState × List HttpFetch × Nat) :=
  match script with
  | [] => .error ("script exhausted".toList)
  | .api status body :: rest =>
    if status = 401 then
      match rest with
      | [] => .error ("script exhausted".toList)
      | r :: rest2 =>
        match gdriveRefreshToken st r with
        | .error msg => .error msg
        | .ok st2 =>
          match gdriveApiStep st2 rest2 with
          | .ok (resp, st3, s3, k) => .ok (resp, st3, s3, k + 1)
          | .error msg => .error msg
    else .ok ((status, body), st, rest, 0)
  | _ :: _ => .error ("script mismatch: expected api response".toList)

/-- `GoogleDriveClient.request`: `ensureToken` (refresh when no token is
cached or it is within the expiry margin), then the fetch with the
401-triggered refresh-and-replay recursion. -/
def gdriveRequest (st : GdriveState) (script : List HttpFetch) :
    Except JSStr ((Nat × JSStr) × GdriveState × List HttpFetch × Nat) :=
  if !(jsTruthyStr st.access_token) || gdriveIsTokenExpired st then
    match script with
    | [] => .error ("script exhausted".toList)
    | r :: rest =>
      match gdriveRefreshToken st r with
      | .error msg => .error msg
      | .ok st1 => gdriveApiStep st1 rest
  else gdriveApiStep st script

/-- The in-memory state of one `OneDriveClient` instance. -/
structure OnedriveState where
  use_online_api : Bool := false
  api_address : Option JSStr := none
  client_id : Option JSStr := none
  client_secret : Option JSStr := none
  redirect_uri : Option JSStr := none
  refresh_token : Option JSStr := none
  access_token : Option JSStr := none
  saving_refresh_token : Option JSStr := none
  expires_at : Option Int := none
  savingChanged : Bool := false
  configChanged : Bool := false
  now : Int := 0

/-- `OneDriveClient.isTokenExpired`. -/
def onedriveIsTokenExpired (st : OnedriveState) : Bool :=
  match st.expires_at with
  | none => true
  | some e => decide (e - 5 * 60 * 1000 ≤ st.now)

/-- `OneDriveClient.refreshTokenOnline`, consuming one OAuth fetch. -/
def onedriveRefreshTokenOnline (st : OnedriveState) (r : HttpFetch) : Except JSStr OnedriveState :=
  match r with
  | .oauth o =>
    if !o.ok then .error ("OneDrive online refresh failed".toList)
    else if !(jsTruthyStr o.refresh_token) || !(jsTruthyStr o.access_token) then
      .error (jsOrStr o.text ("OneDrive online refresh returned empty token".toList))
    else
      .ok { st with
        access_token := o.access_token
        saving_refresh_token := o.refresh_token
        expires_at := some (expiryFrom st.now o.expires_in)
        refresh_token := o.refresh_token
        savingChanged := true
        configChanged := true }
  | .oauthRaw ok text =>
    if !ok then .error ("OneDrive online refresh failed".toList)
    else .error (("OneDrive online refresh unparseable body: ".toList) ++ text)
  | _ => .error ("script mismatch: expected oauth response".toList)

/-- `OneDriveClient.refreshTokenLocal`, consuming one OAuth fetch; the local
route parses the body before looking at the HTTP status and never checks
`response.ok` at all. -/
def onedriveRefreshTokenLocal (st : OnedriveState) (r : HttpFetch) : Except JSStr OnedriveState :=
  if !(jsTruthyStr st.client_id) || !(jsTruthyStr st.client_secret) then
    .error ("Missing client_id or client_secret".toList)
  else
    match r with
    | .oauthRaw _ _ => .error ("OneDrive refresh parse failed".toList)
    | .oauth o =>
      if jsTruthyStr o.error then
        .error (jsOrStr o.error_description (o.error.getD []))
      else if !(jsTruthyStr o.access_token) then
        .error ("OneDrive refresh returned empty token".toList)
      else
        .ok { st with
          access_token := o.access_token
          saving_refresh_token :=
            if jsTruthyStr o.refresh_token then o.refresh_token
            else st.saving_refresh_token
          refresh_token :=
            if jsTruthyStr o.refresh_token then o.refresh_token else st.refresh_token
          configChanged := st.configChanged || jsTruthyStr o.refresh_token
          expires_at := some (expiryFrom st.now o.expires_in)
          savingChanged := true }
    | _ => .error ("script mismatch: expected oauth response".toList)

/-- `OneDriveClient.refreshToken`: the online relay when configured,
otherwise the local OAuth exchange. -/
def onedriveRefreshToken (st : OnedriveState) (r : HttpFetch) : Except JSStr OnedriveState :=
  if st.use_online_api && jsTruthyStr st.api_address then onedriveRefreshTokenOnline st r
  else onedriveRefreshTokenLocal st r

/-- The fetch phase of `OneDriveClient.request`: a non-ok response with
status 401 forces refresh-and-replay (the recursive `this.request`); any
other non-ok response throws. -/
def onedriveApiStep (st : OnedriveState) (script : List HttpFetch) :
    Except JSStr ((Nat × JSStr) × OnedriveState × List HttpFetch × Nat) :=
  match script with
  | [] => .error ("script exhausted".toList)
  | .api status body :: rest =>
    if !(respOk status) then
      if status = 401 then
        match rest with
        | [] => .error ("script exhausted".toList)
        | r :: rest2 =>
          match onedriveRefreshToken st r with
          | .error msg => .error msg
          | .ok st2 =>
            match onedriveApiStep st2 rest2 with
            | .ok (resp, st3, s3, k) => .ok (resp, st3, s3, k + 1)
            | .error msg => .error msg
      else .error ("OneDrive request failed".toList)
    else .ok ((status, body), st, rest, 0)
  | _ :: _ => .error ("script mismatch: expected api response".toList)

/-- `OneDriveClient.request`: `ensureToken` then the fetch with the
401-triggered refresh-and-replay recursion. -/
def onedriveRequest (st : OnedriveState) (script : List HttpFetch) :
    Except JSStr ((Nat × JSStr) × OnedriveState × List HttpFetch × Nat) :=
  if !(jsTruthyStr st.access_token) || onedriveIsTokenExpired st then
    match script with
    | [] => .error ("script exhausted".toList)
    | r :: rest =>
      match onedriveRefreshToken st r with
      | .error msg => .error msg
      | .ok st1 => onedriveApiStep st1 rest
  else onedriveApiStep st script

/-- One provider response consumed by one Aliyun-side fetch: an OAuth
exchange or an API response whose JSON body carries the fields
`requestJson` inspects (`parsed = none` models an unparseable body). -/
inductive AliFetch where
  | oauth (o : OauthResp)
  | api (status : Nat) (parsed : Option (Option JSStr × Option JSStr)) (payload : JSStr)
deriving DecidableEq

/-- The in-memory state of one `AliyunDriveClient` instance. -/
structure AliyunState where
  use_online_api : Bool := false
  api_address : Option JSStr := none
  client_id : Option JSStr := none
  client_secret : Option JSStr := none
  refresh_token : Option JSStr := none
  alipan_type : Option JSStr := none
  drive_type : Option JSStr := none
  access_token : Option JSStr := none
  saving_refresh_token : Option JSStr := none
  expires_at : Option Int := none
  drive_id : Option JSStr := none
  user_id : Option JSStr := none
  savingChanged : Bool := false
  configChanged : Bool := false
  now : Int := 0
deriving DecidableEq

/-- `AliyunDriveClient.isTokenExpired`. -/
def aliyunIsTokenExpired (st : AliyunState) : Bool :=
  match st.expires_at with
  | none => true
  | some e => decide (e - 5 * 60 * 1000 ≤ st.now)

/-- `AliyunDriveClient.refreshTokenOnline`, consuming one OAuth fetch. -/
def aliyunRefreshTokenOnline (st : AliyunState) (r : AliFetch) : Except JSStr AliyunState :=
  match r with
  | .oauth o =>
    if !o.ok then .error ("Aliyun online refresh failed".toList)
    else if !(jsTruthyStr o.access_token) || !(jsTruthyStr o.refresh_token) then
      .error (jsOrStr o.text ("Aliyun online refresh returned empty token".toList))
    else
      .ok { st with
        access_token := o.access_token
        saving_refresh_token := o.refresh_token
        expires_at := some (expiryFrom st.now o.expires_in)
        refresh_token := o.refresh_token
        savingChanged := true
        configChanged := true }
  | _ => .error ("script mismatch: expected oauth response".toList)

/-- `AliyunDriveClient.refreshTokenLocal`, consuming one OAuth fetch. -/
def aliyunRefreshTokenLocal (st : AliyunState) (r : AliFetch) : Except JSStr AliyunState :=
  if !(jsTruthyStr st.client_id) || !(jsTruthyStr st.client_secret) then
    .error ("Missing client_id or client_secret".toList)
  else
    match r with
    | .oauth o =>
      if !o.ok || jsTruthyStr o.code then
        .error (jsOrStr o.message ("Aliyun refresh failed".toList))
      else if !(jsTruthyStr o.access_token) || !(jsTruthyStr o.refresh_token) then
        .error ("Aliyun refresh returned empty token".toList)
      else
        .ok { st with
          access_token := o.access_token
          saving_refresh_token := o.refresh_token
          expires_at := some (expiryFrom st.now o.expires_in)
          refresh_token := o.refresh_token
          savingChanged := true
          configChanged := true }
    | _ => .error ("script mismatch: expected oauth response".toList)

/-- `AliyunDriveClient.refreshToken`. -/
def aliyunRefreshToken (st : AliyunState) (r : AliFetch) : Except JSStr AliyunState :=
  if st.use_online_api && jsTruthyStr st.api_address then aliyunRefreshTokenOnline st r
  else aliyunRefreshTokenLocal st r

/-- `AliyunDriveClient.ensureToken`: refresh when the token is missing or
stale.  When `saving.drive_id` is absent the source's
`ensureToken → loadDriveInfo → requestJson → request → ensureToken` cycle
recurses forever before reaching any fetch; the model returns a
distinguished error for that diverging case. -/
def aliyunEnsureToken (st : AliyunState) (script : List AliFetch) :
    Except JSStr (AliyunState × List AliFetch × Nat) :=
  let go := fun (st1 : AliyunState) (rest : List AliFetch) (k : Nat) =>
    if !(jsTruthyStr st1.drive_id) then
      Except.error ("diverges: ensureToken/loadDriveInfo recursion".toList)
    else Except.ok (st1, rest, k)
  if !(jsTruthyStr st.access_token) || aliyunIsTokenExpired st then
    match script with
    | [] => .error ("script exhausted".toList)
    | r :: rest =>
      match aliyunRefreshToken st r with
      | .error msg => .error msg
      | .ok st1 => go st1 rest 1
  else go st script 0

/-- `AliyunDriveClient.request`: `ensureToken`, then one fetch, returned
as-is — there is no 401 handling at all in this adapter. -/
def aliyunRequest (st : AliyunState) (script : List AliFetch) :
    Except JSStr (AliFetch × AliyunState × List AliFetch × Nat) :=
  match aliyunEnsureToken st script with
  | .error msg => .error msg
  | .ok (st1, s1, k) =>
    match s1 with
    | [] => .error ("script exhausted".toList)
    | r :: rest => .ok (r, st1, rest, k)

/-- `AliyunDriveClient.requestJson`: `request`, then throw on an unparseable
body and on any non-ok status or `code`-carrying body; refreshes counted are
exactly the ones `ensureToken` performed. -/
def aliyunRequestJson (st : AliyunState) (script : List AliFetch) :
    Except JSStr (JSStr × AliyunState × List AliFetch × Nat) :=
  match aliyunRequest st script with
  | .error msg => .error msg
  | .ok (r, st1, s1, k) =>
    match r with
    | .api status parsed payload =>
      (match parsed with
       | none => .error ("Aliyun API parse failed".toList)
       | some (code, message) =>
         if !(respOk status) || jsTruthyStr code then
           .error (jsOrStr message ("Aliyun API error".toList))
         else .ok (payload, st1, s1, k))
    | .oauth _ => .error ("script mismatch: expected api response".toList)

/-- ASCII upper-casing (JS `toUpperCase` on the method strings in play). -/
def jsToUpperAscii (s : JSStr) : JSStr :=
  s.map (fun c => if 97 ≤ c.toNat ∧ c.toNat ≤ 122 then Char.ofNat (c.toNat - 32) else c)

/-- ASCII lower-casing (JS `toLowerCase` on extension strings). -/
def jsToLowerAscii (s : JSStr) : JSStr :=
  s.map (fun c => if 65 ≤ c.toNat ∧ c.toNat ≤ 90 then Char.ofNat (c.toNat + 32) else c)

/-- Index of the first occurrence of `pat` in `s`. -/
def findPatIdx : JSStr → JSStr → Option Nat
  | [], pat => if pat = [] then some 0 else none
  | c :: rest, pat =>
    if pat.isPrefixOf (c :: rest) then some 0
    else (findPatIdx rest pat).map (fun i => i + 1)

/-- JS `s.replace(pat, "")` for a plain-string pattern: removes the first
occurrence only. -/
def replaceFirstEmpty (s pat : JSStr) : JSStr :=
  match findPatIdx s pat with
  | none => s
  | some i => s.take i ++ s.drop (i + pat.length)

/-- The static extension table of `getContentType`. -/
def mimeTable : List (JSStr × JSStr) :=
  [ ("html".toList, "text/html".toList), ("htm".toList, "text/html".toList),
    ("css".toList, "text/css".toList), ("js".toList, "application/javascript".toList),
    ("json".toList, "application/json".toList), ("xml".toList, "application/xml".toList),
    ("txt".toList, "text/plain".toList), ("md".toList, "text/markdown".toList),
    ("png".toList, "image/png".toList), ("jpg".toList, "image/jpeg".toList),
    ("jpeg".toList, "image/jpeg".toList), ("gif".toList, "image/gif".toList),
    ("svg".toList, "image/svg+xml".toList), ("webp".toList, "image/webp".toList),
    ("ico".toList, "image/x-icon".toList), ("pdf".toList, "application/pdf".toList),
    ("zip".toList, "application/zip".toList), ("tar".toList, "application/x-tar".toList),
    ("gz".toList, "application/gzip".toList), ("mp3".toList, "audio/mpeg".toList),
    ("mp4".toList, "video/mp4".toList), ("webm".toList, "video/webm".toList),
    ("avi".toList, "video/x-msvideo".toList), ("mov".toList, "video/quicktime".toList) ]

/-- `getContentType` of the bridge: guess from the file extension. -/
def getContentType (filename : JSStr) : JSStr :=
  let ext := jsToLowerAscii ((filename.splitOn '.').getLastD [])
  match mimeTable.lookup ext with
  | some m => m
  | none => "application/octet-stream".toList

/-- The environment variables the WebDAV bridge reads. -/
structure WebdavEnv where
  WEBDAV_ENABLED : Option JSStr := none
  WEBDAV_USERNAME : Option JSStr := none
  WEBDAV_PASSWORD : Option JSStr := none
  ADMIN_USERNAME : Option JSStr := none
  ADMIN_PASSWORD : Option JSStr := none

/-- The effective WebDAV username: `WEBDAV_USERNAME || ADMIN_USERNAME ||
"admin"` with JS truthiness. -/
def effectiveWebdavUsername (env : WebdavEnv) : JSStr :=
  jsOrStr env.WEBDAV_USERNAME (jsOrStr env.ADMIN_USERNAME ("admin".toList))

/-- The effective WebDAV password: `WEBDAV_PASSWORD || ADMIN_PASSWORD ||
"changeme"` with JS truthiness. -/
def effectiveWebdavPassword (env : WebdavEnv) : JSStr :=
  jsOrStr env.WEBDAV_PASSWORD (jsOrStr env.ADMIN_PASSWORD ("changeme".toList))

/-- `validateWebdavAuth`: Basic scheme, `atob` the payload (a throw yields
false), split on ":", compare against the effective credential pair. -/
def validateWebdavAuth (authHeader : Option JSStr) (env : WebdavEnv) : Bool :=
  match authHeader with
  | none => false
  | some h =>
    if h.take 6 ≠ ("Basic ".toList) then false
    else
      match jsAtob (h.drop 6) with
      | none => false
      | some credentials =>
        let parts := credentials.splitOn ':'
        let username := parts.headI
        let password := parts[1]?
        username = effectiveWebdavUsername env &&
          password = some (effectiveWebdavPassword env)

/-- An HTTP response as the bridge builds it (`none` bodies stand for
generated documents no claim inspects). -/
structure HttpResponse where
  status : Nat
  headers : List (JSStr × JSStr) := []
  body : Option JSStr := none

/-- The observable side effects of one bridge request. -/
inductive BridgeEvent where
  | dbInit
  | dbGetStorage (id : Option Int)
  | dbGetAllStorages
  | adapterCall (op : JSStr)
  | persistAttempt

/-- Is this event an adapter invocation? -/
def isAdapterCall : BridgeEvent → Bool
  | .adapterCall _ => true
  | .dbInit => false
  | .dbGetStorage _ => false
  | .dbGetAllStorages => false
  | .persistAttempt => false

/-- Is this event a state-persistence attempt? -/
def isPersistAttempt : BridgeEvent → Bool
  | .persistAttempt => true
  | .dbInit => false
  | .dbGetStorage _ => false
  | .dbGetAllStorages => false
  | .adapterCall _ => false

/-- A configured backend as the bridge reads it from the config store. -/
structure StorageRec where
  name : JSStr := []
  stype : JSStr := []
deriving DecidableEq

/-- The config store: backend records by id. -/
structure DbModel where
  storages : List (Int × StorageRec) := []

/-- `getStorageById` (adapter-independent lookup; a NaN id finds nothing). -/
def dbGetStorageById (db : DbModel) (id : Option Int) : Option StorageRec :=
  match id with
  | none => none
  | some i => db.storages.lookup i

/-- A `getObject` response's observable parts. -/
structure GetObjectResp where
  content_type : Option JSStr := none
  content_length : Option JSStr := none
  body : JSStr := []

/-- The changed slices a client reports through `getStateUpdates` (payloads
kept opaque). -/
structure StateUpdates where
  config : Option JSStr := none
  saving : Option JSStr := none

/-- The outcomes of the adapter calls and the persistence step a single
bridge request can perform (the oracle the bridge model is interpreted
against). -/
structure AdapterOracle where
  listObjects : Except JSStr ListObjectsResult := .error []
  getObject : Except JSStr GetObjectResp := .error []
  putObject : Except JSStr Unit := .error []
  deleteObject : Except JSStr Unit := .error []
  createFolder : Except JSStr Unit := .error []
  copyObject : Except JSStr Unit := .error []
  moveObject : Except JSStr Unit := .error []
  hasMoveObject : Bool := true
  hasGetStateUpdates : Bool := true
  stateUpdates : Option StateUpdates := none
  persist : Except JSStr Unit := .ok ()

/-- `persistClientState`: nothing to do when the client has no
`getStateUpdates`, reports no change, or reports an empty update; otherwise
write exactly the present slices.  Returns what was written and the write's
outcome. -/
def persistClientState (oracle : AdapterOracle) : Option StateUpdates × Except JSStr Unit :=
  if !oracle.hasGetStateUpdates then (none, .ok ())
  else
    match oracle.stateUpdates with
    | none => (none, .ok ())
    | some u =>
      if u.config = none ∧ u.saving = none then (none, .ok ())
      else (some u, oracle.persist)

/-- `withClientState`: run the action, then always attempt
`persistClientState`, swallowing (logging) any persistence failure.  Returns
the action's own outcome untouched, what was persisted, and the swallowed
persistence error if any. -/
def withClientState {α : Type} (oracle : AdapterOracle) (actionResult : Except JSStr α) :
    Except JSStr α × Option StateUpdates × Option JSStr :=
  let (written, pr) := persistClientState oracle
  let logged := match pr with | .ok _ => none | .error m => some m
  (actionResult, written, logged)

/-- An incoming WebDAV request as the bridge reads it.  `destPathname` is
the parsed `Destination` URL's pathname (`none` models `new URL` throwing). -/
structure WebdavRequest where
  method : JSStr
  authHeader : Option JSStr := none
  storageIdParam : Option JSStr := none
  path : JSStr := []
  destinationHeader : Option JSStr := none
  destPathname : Option JSStr := none
  contentTypeHeader : Option JSStr := none
  body : JSStr := []

/-- `params.storageId || "0"` then `parseInt(_, 10)`. -/
def parseStorageId (p : Option JSStr) : Option Int :=
  jsParseInt (jsOrStr p ('0' :: []))

/-- JS template rendering of the storage id (NaN prints as "NaN"). -/
def renderStorageId (id : Option Int) : JSStr :=
  match id with
  | none => "NaN".toList
  | some i => printInt i

/-- The 401 response with its Basic challenge
(`createUnauthorizedResponse`). -/
def unauthorizedResponse : HttpResponse :=
  { status := 401
    headers := [ ("WWW-Authenticate".toList, [])
               , ("Content-Type".toList, "text/plain".toList) ]
    body := some ("Unauthorized".toList) }

/-- The `OPTIONS` discovery response of the loader. -/
def optionsResponse : HttpResponse :=
  { status := 200
    headers := [ ("DAV".toList, "1, 2".toList)
               , ("Allow".toList, "OPTIONS, GET, HEAD, PUT, DELETE, PROPFIND, MKCOL, COPY, MOVE".toList)
               , ("MS-Author-Via".toList, "DAV".toList) ]
    body := none }

/-- The WebDAV `loader` (OPTIONS, PROPFIND, GET, HEAD): the exact gate
order of the source — OPTIONS short-circuit, `WEBDAV_ENABLED` check, Basic
auth, database init, synthetic root id 0, storage lookup, then the method
dispatch where every adapter call runs under `withClientState`.  Generated
XML/HTML documents are left as `none` bodies (no claim inspects them). -/
def davLoader (req : WebdavRequest) (env : WebdavEnv) (db : DbModel)
    (oracle : AdapterOracle) : HttpResponse × List BridgeEvent :=
  let method := jsToUpperAscii req.method
  if method = ("OPTIONS".toList) then (optionsResponse, [])
  else if env.WEBDAV_ENABLED ≠ some ("true".toList) then
    ({ status := 403, body := some ("WebDAV is disabled".toList) }, [])
  else if !(validateWebdavAuth req.authHeader env) then (unauthorizedResponse, [])
  else
    let ev0 := [BridgeEvent.dbInit]
    let storageId := parseStorageId req.storageIdParam
    let path := req.path
    if storageId = some 0 then
      if method = ("PROPFIND".toList) then
        ({ status := 207
           headers := [("Content-Type".toList, "application/xml; charset=utf-8".toList)] },
         ev0 ++ [BridgeEvent.dbGetAllStorages])
      else ({ status := 405, body := some ("Method not allowed".toList) }, ev0)
    else
      let ev1 := ev0 ++ [BridgeEvent.dbGetStorage storageId]
      match dbGetStorageById db storageId with
      | none => ({ status := 404, body := some ("Storage not found".toList) }, ev1)
      | some _storage =>
        if method = ("PROPFIND".toList) then
          let ev2 := ev1 ++ [BridgeEvent.adapterCall ("listObjects".toList),
                             BridgeEvent.persistAttempt]
          match (withClientState oracle oracle.listObjects).1 with
          | .ok _ =>
            ({ status := 207
               headers := [("Content-Type".toList, "application/xml; charset=utf-8".toList)] },
             ev2)
          | .error _ =>
            ({ status := 500, body := some ("Internal Server Error".toList) }, ev2)
        else if method = ("GET".toList) ∨ method = ("HEAD".toList) then
          if jsEndsWithChar path '/' || path.isEmpty then
            let ev2 := ev1 ++ [BridgeEvent.adapterCall ("listObjects".toList),
                               BridgeEvent.persistAttempt]
            match (withClientState oracle oracle.listObjects).1 with
            | .ok _ =>
              ({ status := 200
                 headers := [("Content-Type".toList, "text/html; charset=utf-8".toList)] },
               ev2)
            | .error _ =>
              ({ status := 404, body := some ("Not Found".toList) }, ev2)
          else
            let ev2 := ev1 ++ [BridgeEvent.adapterCall ("getObject".toList),
                               BridgeEvent.persistAttempt]
            match (withClientState oracle oracle.getObject).1 with
            | .ok resp =>
              let contentType := jsOrStr resp.content_type (getContentType path)
              let lengthHeaders :=
                match resp.content_length with
                | some l => [("Content-Length".toList, l)]
                | none => []
              if method = ("HEAD".toList) then
                ({ status := 200
                   headers := ("Content-Type".toList, contentType) :: lengthHeaders },
                 ev2)
              else
                ({ status := 200
                   headers := ("Content-Type".toList, contentType) :: lengthHeaders
                   body := some resp.body },
                 ev2)
            | .error _ =>
              ({ status := 404, body := some ("Not Found".toList) }, ev2)
        else ({ status := 405, body := some ("Method not allowed".toList) }, ev1)

/-- The WebDAV `action` (PUT, DELETE, MKCOL, COPY, MOVE), mirroring the
source's gate order and the per-method catch that turns any adapter failure
into a 500. -/
def davAction (req : WebdavRequest) (env : WebdavEnv) (db : DbModel)
    (oracle : AdapterOracle) : HttpResponse × List BridgeEvent :=
  let method := jsToUpperAscii req.method
  if env.WEBDAV_ENABLED ≠ some ("true".toList) then
    ({ status := 403, body := some ("WebDAV is disabled".toList) }, [])
  else if !(validateWebdavAuth req.authHeader env) then (unauthorizedResponse, [])
  else
    let ev0 := [BridgeEvent.dbInit]
    let storageId := parseStorageId req.storageIdParam
    if storageId = some 0 then
      ({ status := 403, body := some ("Cannot modify root".toList) }, ev0)
    else
      let ev1 := ev0 ++ [BridgeEvent.dbGetStorage storageId]
      match dbGetStorageById db storageId with
      | none => ({ status := 404, body := some ("Storage not found".toList) }, ev1)
      | some _storage =>
        if method = ("PUT".toList) then
          let ev2 := ev1 ++ [BridgeEvent.adapterCall ("putObject".toList),
                             BridgeEvent.persistAttempt]
          match (withClientState oracle oracle.putObject).1 with
          | .ok _ => ({ status := 201 }, ev2)
          | .error _ => ({ status := 500, body := some ("Failed to upload file".toList) }, ev2)
        else if method = ("DELETE".toList) then
          let ev2 := ev1 ++ [BridgeEvent.adapterCall ("deleteObject".toList),
                             BridgeEvent.persistAttempt]
          match (withClientState oracle oracle.deleteObject).1 with
          | .ok _ => ({ status := 204 }, ev2)
          | .error _ => ({ status := 500, body := some ("Failed to delete".toList) }, ev2)
        else if method = ("MKCOL".toList) then
          let ev2 := ev1 ++ [BridgeEvent.adapterCall ("createFolder".toList),
                             BridgeEvent.persistAttempt]
          match (withClientState oracle oracle.createFolder).1 with
          | .ok _ => ({ status := 201 }, ev2)
          | .error _ =>
            ({ status := 500, body := some ("Failed to create directory".toList) }, ev2)
        else if method = ("COPY".toList) then
          match req.destinationHeader with
          | none =>
            ({ status := 400, body := some ("Destination header required".toList) }, ev1)
          | some _ =>
            match req.destPathname with
            | none => ({ status := 500, body := some ("Failed to copy".toList) }, ev1)
            | some _p =>
              let ev2 := ev1 ++ [BridgeEvent.adapterCall ("copyObject".toList),
                                 BridgeEvent.persistAttempt]
              match (withClientState oracle oracle.copyObject).1 with
              | .ok _ => ({ status := 201 }, ev2)
              | .error _ => ({ status := 500, body := some ("Failed to copy".toList) }, ev2)
        else if method = ("MOVE".toList) then
          match req.destinationHeader with
          | none =>
            ({ status := 400, body := some ("Destination header required".toList) }, ev1)
          | some _ =>
            match req.destPathname with
            | none => ({ status := 500, body := some ("Failed to move".toList) }, ev1)
            | some _p =>
              if oracle.hasMoveObject then
                let ev2 := ev1 ++ [BridgeEvent.adapterCall ("moveObject".toList),
                                   BridgeEvent.persistAttempt]
                match (withClientState oracle oracle.moveObject).1 with
                | .ok _ => ({ status := 201 }, ev2)
                | .error _ => ({ status := 500, body := some ("Failed to move".toList) }, ev2)
              else
                let ev2 := ev1 ++ [BridgeEvent.adapterCall ("copyObject".toList),
                                   BridgeEvent.persistAttempt]
                match (withClientState oracle oracle.copyObject).1 with
                | .error _ => ({ status := 500, body := some ("Failed to move".toList) }, ev2)
                | .ok _ =>
                  let ev3 := ev2 ++ [BridgeEvent.adapterCall ("deleteObject".toList),
                                     BridgeEvent.persistAttempt]
                  match (withClientState oracle oracle.deleteObject).1 with
                  | .ok _ => ({ status := 201 }, ev3)
                  | .error _ => ({ status := 500, body := some ("Failed to move".toList) }, ev3)
        else ({ status := 405, body := some ("Method not allowed".toList) }, ev1)

/-- The computed key the bridge passes to `copyObject`/`moveObject`: the
`Destination` URL's pathname with the first `/dav/{storageId}/` occurrence
removed. -/
def davDestPath (pathname : JSStr) (storageId : Option Int) : JSStr :=
  replaceFirstEmpty pathname
    (("/dav/".toList) ++ renderStorageId storageId ++ ['/'])

/-- A provider script for the 401-signalling clients: `k` rounds of
(401 response, successful OAuth refresh) followed by one final response. -/
def authExpiryScript (k : Nat) (o : OauthResp) (finalStatus : Nat) (body : JSStr) :
    List HttpFetch :=
  (List.replicate k [HttpFetch.api 401 [], HttpFetch.oauth o]).flatten ++
    [HttpFetch.api finalStatus body]

/-- A Baidu provider script: `k` rounds of (errno-111 response, successful
OAuth refresh) followed by one final API response. -/
def baiduAuthExpiryScript (k : Nat) (o : OauthResp) (final : BdData) : List BdFetch :=
  (List.replicate k [BdFetch.api true 200 { errno := some 111 }, BdFetch.oauth o]).flatten ++
    [BdFetch.api true 200 final]

/-- An OAuth refresh response that succeeds for every client. -/
def okOauth : OauthResp :=
  { ok := true
    access_token := some ('t' :: [])
    refresh_token := some ('r' :: [])
    expires_in := none }

/-- Sortedness under the adapters' comparator: directories before files and
comparator-ascending names within each group. -/
def sortedDrive (l : List DriveObject) : Prop :=
  l.Pairwise (fun a b => leDrive a b = true)

/-- True when a remainder starts (if at all) with a character that ends a
JSON number token: a separator or a closing bracket. -/
def jsonDelim : List Char → Bool
  | [] => true
  | c :: _ => c = ',' || c = ']' || c = '}'

mutual

/-- Fuel needed by `parseJVal` to parse the printed form of a value. -/
def jsize : JVal → Nat
  | .jarr (x :: xs) => 1 + isize (x :: xs)
  | .jobj (f :: fs) => 1 + msize (f :: fs)
  | _ => 1

/-- Fuel needed by `parseItems` on a printed non-empty item list. -/
def isize : List JVal → Nat
  | [] => 1
  | [x] => 1 + jsize x
  | x :: y :: rest => 1 + max (jsize x) (isize (y :: rest))

/-- Fuel needed by `parseMembers` on a printed non-empty member list. -/
def msize : List (JSStr × JVal) → Nat
  | [] => 1
  | [(_, v)] => 1 + jsize v
  | (_, v) :: m :: rest => 1 + max (jsize v) (msize (m :: rest))

end

/-- C5 (amended): both strip helpers are total Lean functions; each removes
at most one separator, so idempotence holds exactly when no doubled
separator is exposed: `stripLeadingSlash` is idempotent on strings not
beginning with "//", `stripTrailingSlash` on strings not ending with "//";
`stripTrailingSlash` is a no-op on every string of length at most 1, and
`stripLeadingSlash` is a no-op on the empty string and on one-character
strings other than "/", which it maps to the empty string. -/
theorem stripSlash_props (p : JSStr) :
    (p.take 2 ≠ ['/', '/'] →
      stripLeadingSlash (stripLeadingSlash p) = stripLeadingSlash p) ∧
    (¬(3 ≤ p.length ∧ jsEndsWithChar p '/' = true ∧ jsEndsWithChar p.dropLast '/' = true) →
      stripTrailingSlash (stripTrailingSlash p) = stripTrailingSlash p) ∧
    (p.length ≤ 1 → stripTrailingSlash p = p) ∧
    (stripLeadingSlash [] = ([] : JSStr)) ∧
    (∀ c : Char, c ≠ '/' → stripLeadingSlash [c] = [c]) ∧
    (stripLeadingSlash ['/'] = []) := by
  refine ⟨?_, ?_, ?_, rfl, ?_, rfl⟩
  · intro h
    match p, h with
    | [], _ => rfl
    | c :: t, h =>
      by_cases hc : c = '/'
      · subst hc
        have h1 : stripLeadingSlash ('/' :: t) = t := by
          simp [stripLeadingSlash, jsStartsWithChar]
        rw [h1]
        match t, h with
        | [], _ => rfl
        | d :: t2, h =>
          have hd : d ≠ '/' := by
            intro hd; subst hd; exact h (by simp)
          simp [stripLeadingSlash, jsStartsWithChar, hd]
      · simp [stripLeadingSlash, jsStartsWithChar, hc]
  · intro h
    by_cases hlen : p.length ≤ 1
    · simp [stripTrailingSlash, hlen]
    · by_cases he : jsEndsWithChar p '/' = true
      · have h1 : stripTrailingSlash p = p.dropLast := by
          simp [stripTrailingSlash, hlen, he]
        rw [h1]
        by_cases hlen2 : p.dropLast.length ≤ 1
        · unfold stripTrailingSlash
          rw [if_pos hlen2]
        · have he2 : ¬(jsEndsWithChar p.dropLast '/' = true) := by
            intro he2
            refine h ⟨?_, he, he2⟩
            have := List.length_dropLast p
            omega
          simp [stripTrailingSlash, hlen2, he2]
      · simp [stripTrailingSlash, hlen, he]
  · intro h
    simp [stripTrailingSlash, h]
  · intro c hc
    simp [stripLeadingSlash, jsStartsWithChar, hc]

/-- C5 witness: the amended idempotence facts at concrete inputs. -/
theorem stripSlash_props_witness :
    stripLeadingSlash (stripLeadingSlash ['a', '/']) = stripLeadingSlash ['a', '/'] ∧
    stripTrailingSlash (stripTrailingSlash ['/', 'a']) = stripTrailingSlash ['/', 'a'] :=
  ⟨(stripSlash_props ['a', '/']).1 (by decide),
   (stripSlash_props ['/', 'a']).2.1 (by decide)⟩

/-- C5 counterexample: the helpers strip a single separator only, so on
"//" `stripLeadingSlash` is not idempotent, on "///" `stripTrailingSlash`
is not idempotent, and on the length-1 string "/" `stripLeadingSlash` is
not a no-op. -/
theorem stripSlash_claim_counterexample :
    stripLeadingSlash (stripLeadingSlash ['/', '/']) ≠ stripLeadingSlash ['/', '/'] ∧
    stripLeadingSlash ['/'] ≠ ['/'] ∧
    stripTrailingSlash (stripTrailingSlash ['/', '/', '/']) ≠
      stripTrailingSlash ['/', '/', '/'] := by
  decide

/-- C3 (amended): the Baidu multipart lifecycle splits — `initiate` and
`uploadPart` fail fast with an unsupported-operation error for every input,
while `complete` and `abort` silently succeed as no-ops for every input. -/
theorem baidu_multipart_lifecycle (k ct uid : JSStr)
    (opts : Option (Option Nat × Option Nat)) (pn : Nat) (body : List Nat)
    (cl : Option Nat) (parts : List (Nat × JSStr)) :
    baiduInitiateMultipartUpload k ct opts =
      .error ("BaiduYun does not support multipart upload in this mode".toList) ∧
    baiduUploadPart k uid pn body cl =
      .error ("BaiduYun does not support multipart upload in this mode".toList) ∧
    baiduCompleteMultipartUpload k uid parts = .ok () ∧
    baiduAbortMultipartUpload k uid = .ok () :=
  ⟨rfl, rfl, rfl, rfl⟩

/-- C3 counterexample: `completeMultipartUpload` and `abortMultipartUpload`
succeed silently on the Baidu adapter instead of failing fast. -/
theorem baidu_multipart_counterexample :
    baiduCompleteMultipartUpload [] [] [] = .ok () ∧
    baiduAbortMultipartUpload [] [] = .ok () ∧
    ¬ ∃ msg, baiduCompleteMultipartUpload [] [] [] = Except.error msg :=
  ⟨rfl, rfl, fun ⟨_, hc⟩ => nomatch hc⟩

/-- C10 (confirmed): an OPTIONS request is answered first thing in the
loader — status 200 with the DAV capability and Allow headers — for every
environment, credential set, config store and adapter behaviour, with an
empty effect trace (no store read, no adapter call). -/
theorem options_before_gates (req : WebdavRequest) (env : WebdavEnv) (db : DbModel)
    (oracle : AdapterOracle) (hm : jsToUpperAscii req.method = ("OPTIONS".toList)) :
    davLoader req env db oracle = (optionsResponse, []) ∧
    optionsResponse =
      { status := 200
        headers := [ ("DAV".toList, "1, 2".toList)
                   , ("Allow".toList,
                      "OPTIONS, GET, HEAD, PUT, DELETE, PROPFIND, MKCOL, COPY, MOVE".toList)
                   , ("MS-Author-Via".toList, "DAV".toList) ]
        body := none } := by
  refine ⟨?_, rfl⟩
  unfold davLoader
  rw [hm]
  rw [if_pos rfl]

/-- C10 witness: a concrete OPTIONS request with WebDAV disabled and no
credentials still gets the discovery response with no effects. -/
theorem options_before_gates_witness :
    davLoader { method := "OPTIONS".toList } {} {} {} = (optionsResponse, []) :=
  (options_before_gates { method := "OPTIONS".toList } {} {} {} (by decide)).1

/-- C9 (confirmed): with none of the four credential variables set (JS
truthiness: unset or empty), WebDAV Basic auth accepts exactly the decoded
credential pairs whose username field is "admin" and password field is
"changeme"; a set (non-empty) `WEBDAV_USERNAME`/`WEBDAV_PASSWORD` each
individually takes precedence over the admin pair, which in turn takes
precedence over the hardcoded defaults. -/
theorem webdav_auth_spec :
    (∀ h : Option JSStr,
      validateWebdavAuth h {} = true ↔
        ∃ hd, h = some hd ∧ hd.take 6 = ("Basic ".toList) ∧
          ∃ creds, jsAtob (hd.drop 6) = some creds ∧
            (creds.splitOn ':').headI = ("admin".toList) ∧
            (creds.splitOn ':')[1]? = some ("changeme".toList)) ∧
    (∀ env : WebdavEnv, ∀ u, env.WEBDAV_USERNAME = some u → jsTruthyStr (some u) = true →
      effectiveWebdavUsername env = u) ∧
    (∀ env : WebdavEnv, ∀ a, jsTruthyStr env.WEBDAV_USERNAME = false →
      env.ADMIN_USERNAME = some a → jsTruthyStr (some a) = true →
      effectiveWebdavUsername env = a) ∧
    (∀ env : WebdavEnv, jsTruthyStr env.WEBDAV_USERNAME = false →
      jsTruthyStr env.ADMIN_USERNAME = false →
      effectiveWebdavUsername env = ("admin".toList)) ∧
    (∀ env : WebdavEnv, ∀ u, env.WEBDAV_PASSWORD = some u → jsTruthyStr (some u) = true →
      effectiveWebdavPassword env = u) ∧
    (∀ env : WebdavEnv, ∀ a, jsTruthyStr env.WEBDAV_PASSWORD = false →
      env.ADMIN_PASSWORD = some a → jsTruthyStr (some a) = true →
      effectiveWebdavPassword env = a) ∧
    (∀ env : WebdavEnv, jsTruthyStr env.WEBDAV_PASSWORD = false →
      jsTruthyStr env.ADMIN_PASSWORD = false →
      effectiveWebdavPassword env = ("changeme".toList)) := by
  refine ⟨?_, ?_, ?_, ?_, ?_, ?_, ?_⟩
  · intro h
    cases h with
    | none => simp [validateWebdavAuth]
    | some hd =>
      simp only [validateWebdavAuth]
      by_cases h6 : hd.take 6 = ("Basic ".toList)
      · rw [if_neg (by simpa using h6)]
        cases hAt : jsAtob (hd.drop 6) with
        | none => simp [hAt, h6]
        | some creds =>
          simp [hAt, h6, effectiveWebdavUsername, effectiveWebdavPassword, jsOrStr]
      · rw [if_pos (by simpa using h6)]
        refine ⟨fun hcon => by simp at hcon, ?_⟩
        rintro ⟨hd', heq, h6', -⟩
        injection heq with heq'
        exact (h6 (by rw [heq']; exact h6')).elim
  · intro env u hu htu
    cases u with
    | nil => simp [jsTruthyStr] at htu
    | cons c t => simp [effectiveWebdavUsername, jsOrStr, hu]
  · intro env a hw ha hta
    unfold effectiveWebdavUsername jsOrStr
    cases hu : env.WEBDAV_USERNAME with
    | none =>
      cases a with
      | nil => simp [jsTruthyStr] at hta
      | cons c t => simp [ha]
    | some w =>
      rw [hu] at hw
      have hwEmpty : w.isEmpty = true := by
        simpa [jsTruthyStr] using hw
      cases a with
      | nil => simp [jsTruthyStr] at hta
      | cons c t => simp [ha, hwEmpty]
  · intro env hw ha
    unfold effectiveWebdavUsername jsOrStr
    cases hu : env.WEBDAV_USERNAME with
    | none =>
      cases hadm : env.ADMIN_USERNAME with
      | none => rfl
      | some w =>
        rw [hadm] at ha
        have : w.isEmpty = true := by simpa [jsTruthyStr] using ha
        simp [this]
    | some w =>
      rw [hu] at hw
      have hwEmpty : w.isEmpty = true := by simpa [jsTruthyStr] using hw
      cases hadm : env.ADMIN_USERNAME with
      | none => simp [hwEmpty]
      | some w2 =>
        rw [hadm] at ha
        have : w2.isEmpty = true := by simpa [jsTruthyStr] using ha
        simp [hwEmpty, this]
  · intro env u hu htu
    cases u with
    | nil => simp [jsTruthyStr] at htu
    | cons c t => simp [effectiveWebdavPassword, jsOrStr, hu]
  · intro env a hw ha hta
    unfold effectiveWebdavPassword jsOrStr
    cases hu : env.WEBDAV_PASSWORD with
    | none =>
      cases a with
      | nil => simp [jsTruthyStr] at hta
      | cons c t => simp [ha]
    | some w =>
      rw [hu] at hw
      have hwEmpty : w.isEmpty = true := by simpa [jsTruthyStr] using hw
      cases a with
      | nil => simp [jsTruthyStr] at hta
      | cons c t => simp [ha, hwEmpty]
  · intro env hw ha
    unfold effectiveWebdavPassword jsOrStr
    cases hu : env.WEBDAV_PASSWORD with
    | none =>
      cases hadm : env.ADMIN_PASSWORD with
      | none => rfl
      | some w =>
        rw [hadm] at ha
        have : w.isEmpty = true := by simpa [jsTruthyStr] using ha
        simp [this]
    | some w =>
      rw [hu] at hw
      have hwEmpty : w.isEmpty = true := by simpa [jsTruthyStr] using hw
      cases hadm : env.ADMIN_PASSWORD with
      | none => simp [hwEmpty]
      | some w2 =>
        rw [hadm] at ha
        have : w2.isEmpty = true := by simpa [jsTruthyStr] using ha
        simp [hwEmpty, this]


/-- C9 witness: the default pair authenticates with an empty environment,
and a configured WebDAV username takes precedence. -/
theorem webdav_auth_spec_witness :
    validateWebdavAuth (some ("Basic YWRtaW46Y2hhbmdlbWU=".toList)) {} = true ∧
    effectiveWebdavUsername { WEBDAV_USERNAME := some ('u' :: []) } = ('u' :: []) :=
  ⟨(webdav_auth_spec.1 _).mpr ⟨_, rfl, by decide, by decide⟩,
   webdav_auth_spec.2.1 _ ('u' :: []) rfl (by decide)⟩

set_option maxHeartbeats 1600000 in
/-- C8 (confirmed): `withClientState` returns the wrapped action's own
outcome untouched whatever the persistence step does; the persistence step
writes exactly the changed slices `getStateUpdates` reported (nothing on
`null` or on an empty update); the Baidu client's `getStateUpdates` reports
exactly the slices whose changed flag is set; and in both bridge entry
points every adapter invocation is paired with exactly one persistence
attempt in the effect trace. -/
theorem state_propagation_spec :
    (∀ (α : Type) (oracle : AdapterOracle) (r : Except JSStr α),
      (withClientState oracle r).1 = r) ∧
    (∀ (α : Type) (oracle : AdapterOracle) (r : Except JSStr α),
      (withClientState oracle r).2.1 = (persistClientState oracle).1) ∧
    (∀ oracle : AdapterOracle, oracle.hasGetStateUpdates = true →
      ∀ u, oracle.stateUpdates = some u → ¬(u.config = none ∧ u.saving = none) →
        persistClientState oracle = (some u, oracle.persist)) ∧
    (∀ oracle : AdapterOracle, oracle.stateUpdates = none →
      (persistClientState oracle).1 = none) ∧
    (∀ st : BaiduState, st.savingChanged = false → st.configChanged = false →
      baiduGetStateUpdates st = none) ∧
    (∀ st : BaiduState, st.savingChanged = true → st.configChanged = false →
      baiduGetStateUpdates st = some (none, some st.saving)) ∧
    (∀ st : BaiduState, st.savingChanged = false → st.configChanged = true →
      baiduGetStateUpdates st = some (some st.config, none)) ∧
    (∀ st : BaiduState, st.savingChanged = true → st.configChanged = true →
      baiduGetStateUpdates st = some (some st.config, some st.saving)) ∧
    (∀ (req : WebdavRequest) (env : WebdavEnv) (db : DbModel) (oracle : AdapterOracle),
      ((davLoader req env db oracle).2.countP isAdapterCall) =
        ((davLoader req env db oracle).2.countP isPersistAttempt)) ∧
    (∀ (req : WebdavRequest) (env : WebdavEnv) (db : DbModel) (oracle : AdapterOracle),
      ((davAction req env db oracle).2.countP isAdapterCall) =
        ((davAction req env db oracle).2.countP isPersistAttempt)) := by
  refine ⟨fun α oracle r => rfl, fun α oracle r => rfl, ?_, ?_, ?_, ?_, ?_, ?_, ?_, ?_⟩
  · intro oracle hg u hu hne
    unfold persistClientState
    rw [hg, hu]
    simp [hne]
  · intro oracle hu
    unfold persistClientState
    rw [hu]
    by_cases hg : oracle.hasGetStateUpdates <;> simp [hg]
  · intro st hs hc
    unfold baiduGetStateUpdates
    rw [hs, hc]
    rfl
  · intro st hs hc
    unfold baiduGetStateUpdates
    rw [hs, hc]
    rfl
  · intro st hs hc
    unfold baiduGetStateUpdates
    rw [hs, hc]
    rfl
  · intro st hs hc
    unfold baiduGetStateUpdates
    rw [hs, hc]
    rfl
  · intro req env db oracle
    unfold davLoader
    dsimp only
    repeat' split
    all_goals simp [isAdapterCall, isPersistAttempt]
  · intro req env db oracle
    unfold davAction
    dsimp only
    by_cases hE : env.WEBDAV_ENABLED = some ("true".toList)
    · rw [if_neg (not_not_intro hE)]
      cases hA : validateWebdavAuth req.authHeader env with
      | false =>
        rw [if_pos (by decide)]
        rfl
      | true =>
        rw [if_neg (by decide)]
        by_cases hI : parseStorageId req.storageIdParam = some 0
        · rw [if_pos hI]
          rfl
        · rw [if_neg hI]
          cases hS : dbGetStorageById db (parseStorageId req.storageIdParam) with
          | none => rfl
          | some srec =>
            by_cases h1 : jsToUpperAscii req.method = ("PUT".toList)
            · rw [if_pos h1]
              cases (withClientState oracle oracle.putObject).1 <;> rfl
            · rw [if_neg h1]
              by_cases h2 : jsToUpperAscii req.method = ("DELETE".toList)
              · rw [if_pos h2]
                cases (withClientState oracle oracle.deleteObject).1 <;> rfl
              · rw [if_neg h2]
                by_cases h3 : jsToUpperAscii req.method = ("MKCOL".toList)
                · rw [if_pos h3]
                  cases (withClientState oracle oracle.createFolder).1 <;> rfl
                · rw [if_neg h3]
                  by_cases h4 : jsToUpperAscii req.method = ("COPY".toList)
                  · rw [if_pos h4]
                    cases req.destinationHeader with
                    | none => rfl
                    | some d =>
                      cases req.destPathname with
                      | none => rfl
                      | some p =>
                        cases (withClientState oracle oracle.copyObject).1 <;> rfl
                  · rw [if_neg h4]
                    by_cases h5 : jsToUpperAscii req.method = ("MOVE".toList)
                    · rw [if_pos h5]
                      cases req.destinationHeader with
                      | none => rfl
                      | some d =>
                        cases req.destPathname with
                        | none => rfl
                        | some p =>
                          by_cases hMv : oracle.hasMoveObject = true
                          · rw [if_pos hMv]
                            cases (withClientState oracle oracle.moveObject).1 <;> rfl
                          · rw [if_neg hMv]
                            cases (withClientState oracle oracle.copyObject).1 with
                            | error e => rfl
                            | ok v =>
                              cases (withClientState oracle oracle.deleteObject).1 <;> rfl
                    · rw [if_neg h5]
                      rfl
    · rw [if_pos hE]
      rfl

/-- C2 (amended): when the gates pass (enabled, authenticated, real backend
id, storage found), an adapter failure is answered with 500 for PROPFIND and
for every modification method (PUT, DELETE, MKCOL, COPY, MOVE), but a GET or
HEAD whose adapter call fails is answered with 404, not 500; and a 401, 403
or 405 response is always produced by the bridge's own checks with no
adapter invoked. -/
theorem bridge_error_statuses :
    (∀ (req : WebdavRequest) (env : WebdavEnv) (db : DbModel) (oracle : AdapterOracle)
        (srec : StorageRec) (e : JSStr),
      env.WEBDAV_ENABLED = some ("true".toList) →
      validateWebdavAuth req.authHeader env = true →
      parseStorageId req.storageIdParam ≠ some 0 →
      dbGetStorageById db (parseStorageId req.storageIdParam) = some srec →
      jsToUpperAscii req.method = ("PROPFIND".toList) →
      oracle.listObjects = .error e →
      (davLoader req env db oracle).1.status = 500) ∧
    (∀ (req : WebdavRequest) (env : WebdavEnv) (db : DbModel) (oracle : AdapterOracle)
        (srec : StorageRec) (e : JSStr),
      env.WEBDAV_ENABLED = some ("true".toList) →
      validateWebdavAuth req.authHeader env = true →
      parseStorageId req.storageIdParam ≠ some 0 →
      dbGetStorageById db (parseStorageId req.storageIdParam) = some srec →
      jsToUpperAscii req.method = ("GET".toList) →
      (jsEndsWithChar req.path '/' || req.path.isEmpty) = false →
      oracle.getObject = .error e →
      (davLoader req env db oracle).1.status = 404) ∧
    (∀ (req : WebdavRequest) (env : WebdavEnv) (db : DbModel) (oracle : AdapterOracle)
        (srec : StorageRec) (e : JSStr),
      env.WEBDAV_ENABLED = some ("true".toList) →
      validateWebdavAuth req.authHeader env = true →
      parseStorageId req.storageIdParam ≠ some 0 →
      dbGetStorageById db (parseStorageId req.storageIdParam) = some srec →
      jsToUpperAscii req.method = ("GET".toList) →
      (jsEndsWithChar req.path '/' || req.path.isEmpty) = true →
      oracle.listObjects = .error e →
      (davLoader req env db oracle).1.status = 404) ∧
    (∀ (req : WebdavRequest) (env : WebdavEnv) (db : DbModel) (oracle : AdapterOracle)
        (srec : StorageRec) (e : JSStr),
      env.WEBDAV_ENABLED = some ("true".toList) →
      validateWebdavAuth req.authHeader env = true →
      parseStorageId req.storageIdParam ≠ some 0 →
      dbGetStorageById db (parseStorageId req.storageIdParam) = some srec →
      jsToUpperAscii req.method = ("PUT".toList) →
      oracle.putObject = .error e →
      (davAction req env db oracle).1.status = 500) ∧
    (∀ (req : WebdavRequest) (env : WebdavEnv) (db : DbModel) (oracle : AdapterOracle)
        (srec : StorageRec) (e : JSStr),
      env.WEBDAV_ENABLED = some ("true".toList) →
      validateWebdavAuth req.authHeader env = true →
      parseStorageId req.storageIdParam ≠ some 0 →
      dbGetStorageById db (parseStorageId req.storageIdParam) = some srec →
      jsToUpperAscii req.method = ("DELETE".toList) →
      oracle.deleteObject = .error e →
      (davAction req env db oracle).1.status = 500) ∧
    (∀ (req : WebdavRequest) (env : WebdavEnv) (db : DbModel) (oracle : AdapterOracle)
        (srec : StorageRec) (e : JSStr),
      env.WEBDAV_ENABLED = some ("true".toList) →
      validateWebdavAuth req.authHeader env = true →
      parseStorageId req.storageIdParam ≠ some 0 →
      dbGetStorageById db (parseStorageId req.storageIdParam) = some srec →
      jsToUpperAscii req.method = ("MKCOL".toList) →
      oracle.createFolder = .error e →
      (davAction req env db oracle).1.status = 500) ∧
    (∀ (req : WebdavRequest) (env : WebdavEnv) (db : DbModel) (oracle : AdapterOracle)
        (srec : StorageRec) (e : JSStr) (d p : JSStr),
      env.WEBDAV_ENABLED = some ("true".toList) →
      validateWebdavAuth req.authHeader env = true →
      parseStorageId req.storageIdParam ≠ some 0 →
      dbGetStorageById db (parseStorageId req.storageIdParam) = some srec →
      jsToUpperAscii req.method = ("COPY".toList) →
      req.destinationHeader = some d →
      req.destPathname = some p →
      oracle.copyObject = .error e →
      (davAction req env db oracle).1.status = 500) ∧
    (∀ (req : WebdavRequest) (env : WebdavEnv) (db : DbModel) (oracle : AdapterOracle)
        (srec : StorageRec) (e : JSStr) (d p : JSStr),
      env.WEBDAV_ENABLED = some ("true".toList) →
      validateWebdavAuth req.authHeader env = true →
      parseStorageId req.storageIdParam ≠ some 0 →
      dbGetStorageById db (parseStorageId req.storageIdParam) = some srec →
      jsToUpperAscii req.method = ("MOVE".toList) →
      req.destinationHeader = some d →
      req.destPathname = some p →
      oracle.hasMoveObject = true →
      oracle.moveObject = .error e →
      (davAction req env db oracle).1.status = 500) ∧
    (∀ (req : WebdavRequest) (env : WebdavEnv) (db : DbModel) (oracle : AdapterOracle),
      ((davLoader req env db oracle).1.status = 401 ∨
       (davLoader req env db oracle).1.status = 403 ∨
       (davLoader req env db oracle).1.status = 405) →
      (davLoader req env db oracle).2.countP isAdapterCall = 0) ∧
    (∀ (req : WebdavRequest) (env : WebdavEnv) (db : DbModel) (oracle : AdapterOracle),
      ((davAction req env db oracle).1.status = 401 ∨
       (davAction req env db oracle).1.status = 403 ∨
       (davAction req env db oracle).1.status = 405) →
      (davAction req env db oracle).2.countP isAdapterCall = 0) := by
  refine ⟨?_, ?_, ?_, ?_, ?_, ?_, ?_, ?_, ?_, ?_⟩
  · intro req env db oracle srec e hE hA hI hS hm herr
    unfold davLoader
    dsimp only
    rw [if_neg (by rw [hm]; decide), if_neg (not_not_intro hE), hA,
        if_neg (by decide), if_neg hI, hS, if_pos hm]
    have hr : (withClientState oracle oracle.listObjects).1 = Except.error e := herr
    rw [hr]
  · intro req env db oracle srec e hE hA hI hS hm hp herr
    unfold davLoader
    dsimp only
    rw [if_neg (by rw [hm]; decide), if_neg (not_not_intro hE), hA,
        if_neg (by decide), if_neg hI, hS, if_neg (by rw [hm]; decide),
        if_pos (Or.inl hm), hp]
    have hr : (withClientState oracle oracle.getObject).1 = Except.error e := herr
    rw [if_neg (by decide), hr]
  · intro req env db oracle srec e hE hA hI hS hm hp herr
    unfold davLoader
    dsimp only
    rw [if_neg (by rw [hm]; decide), if_neg (not_not_intro hE), hA,
        if_neg (by decide), if_neg hI, hS, if_neg (by rw [hm]; decide),
        if_pos (Or.inl hm), hp, if_pos rfl]
    have hr : (withClientState oracle oracle.listObjects).1 = Except.error e := herr
    rw [hr]
  · intro req env db oracle srec e hE hA hI hS hm herr
    unfold davAction
    dsimp only
    rw [if_neg (not_not_intro hE), hA, if_neg (by decide), if_neg hI, hS, if_pos hm]
    have hr : (withClientState oracle oracle.putObject).1 = Except.error e := herr
    rw [hr]
  · intro req env db oracle srec e hE hA hI hS hm herr
    unfold davAction
    dsimp only
    rw [if_neg (not_not_intro hE), hA, if_neg (by decide), if_neg hI, hS,
        if_neg (by rw [hm]; decide), if_pos hm]
    have hr : (withClientState oracle oracle.deleteObject).1 = Except.error e := herr
    rw [hr]
  · intro req env db oracle srec e hE hA hI hS hm herr
    unfold davAction
    dsimp only
    rw [if_neg (not_not_intro hE), hA, if_neg (by decide), if_neg hI, hS,
        if_neg (by rw [hm]; decide), if_neg (by rw [hm]; decide), if_pos hm]
    have hr : (withClientState oracle oracle.createFolder).1 = Except.error e := herr
    rw [hr]
  · intro req env db oracle srec e d p hE hA hI hS hm hd hp herr
    unfold davAction
    dsimp only
    rw [if_neg (not_not_intro hE), hA, if_neg (by decide), if_neg hI, hS,
        if_neg (by rw [hm]; decide), if_neg (by rw [hm]; decide),
        if_neg (by rw [hm]; decide), if_pos hm, hd, hp]
    have hr : (withClientState oracle oracle.copyObject).1 = Except.error e := herr
    rw [hr]
  · intro req env db oracle srec e d p hE hA hI hS hm hd hp hMv herr
    unfold davAction
    dsimp only
    rw [if_neg (not_not_intro hE), hA, if_neg (by decide), if_neg hI, hS,
        if_neg (by rw [hm]; decide), if_neg (by rw [hm]; decide),
        if_neg (by rw [hm]; decide), if_neg (by rw [hm]; decide), if_pos hm,
        hd, hp, if_pos hMv]
    have hr : (withClientState oracle oracle.moveObject).1 = Except.error e := herr
    rw [hr]
  · intro req env db oracle
    unfold davLoader
    dsimp only
    repeat' split
    all_goals (intro h; first
      | rfl
      | (rcases h with h | h | h <;> simp at h))
  · intro req env db oracle
    unfold davAction
    dsimp only
    by_cases hE : env.WEBDAV_ENABLED = some ("true".toList)
    · rw [if_neg (not_not_intro hE)]
      cases hA : validateWebdavAuth req.authHeader env with
      | false =>
        rw [if_pos (by decide)]
        intro h
        rfl
      | true =>
        rw [if_neg (by decide)]
        by_cases hI : parseStorageId req.storageIdParam = some 0
        · rw [if_pos hI]
          intro h
          rfl
        · rw [if_neg hI]
          cases hS : dbGetStorageById db (parseStorageId req.storageIdParam) with
          | none =>
            intro h
            rfl
          | some srec =>
            by_cases h1 : jsToUpperAscii req.method = ("PUT".toList)
            · rw [if_pos h1]
              cases (withClientState oracle oracle.putObject).1 <;>
                (intro h; rcases h with h | h | h <;> simp at h)
            · rw [if_neg h1]
              by_cases h2 : jsToUpperAscii req.method = ("DELETE".toList)
              · rw [if_pos h2]
                cases (withClientState oracle oracle.deleteObject).1 <;>
                  (intro h; rcases h with h | h | h <;> simp at h)
              · rw [if_neg h2]
                by_cases h3 : jsToUpperAscii req.method = ("MKCOL".toList)
                · rw [if_pos h3]
                  cases (withClientState oracle oracle.createFolder).1 <;>
                    (intro h; rcases h with h | h | h <;> simp at h)
                · rw [if_neg h3]
                  by_cases h4 : jsToUpperAscii req.method = ("COPY".toList)
                  · rw [if_pos h4]
                    cases req.destinationHeader with
                    | none => intro h; rfl
                    | some d =>
                      cases req.destPathname with
                      | none => intro h; rfl
                      | some p =>
                        cases (withClientState oracle oracle.copyObject).1 <;>
                          (intro h; rcases h with h | h | h <;> simp at h)
                  · rw [if_neg h4]
                    by_cases h5 : jsToUpperAscii req.method = ("MOVE".toList)
                    · rw [if_pos h5]
                      cases req.destinationHeader with
                      | none => intro h; rfl
                      | some d =>
                        cases req.destPathname with
                        | none => intro h; rfl
                        | some p =>
                          by_cases hMv : oracle.hasMoveObject = true
                          · rw [if_pos hMv]
                            cases (withClientState oracle oracle.moveObject).1 <;>
                              (intro h; rcases h with h | h | h <;> simp at h)
                          · rw [if_neg hMv]
                            cases (withClientState oracle oracle.copyObject).1 with
                            | error e =>
                              intro h
                              rcases h with h | h | h <;> simp at h
                            | ok v =>
                              cases (withClientState oracle oracle.deleteObject).1 <;>
                                (intro h; rcases h with h | h | h <;> simp at h)
                    · rw [if_neg h5]
                      intro h
                      rfl
    · rw [if_pos hE]
      intro h
      rfl

/-- C2 witness: a PUT whose adapter call fails is answered 500 at a concrete
request, and a failing GET at the same backend is answered 404. -/
theorem bridge_error_statuses_witness :
    (davAction
      { method := "PUT".toList, authHeader := some ("Basic dTpw".toList),
        storageIdParam := some ['3'], path := "a.txt".toList }
      { WEBDAV_ENABLED := some ("true".toList), WEBDAV_USERNAME := some ['u'],
        WEBDAV_PASSWORD := some ['p'] }
      { storages := [(3, {})] }
      { putObject := .error ("boom".toList) }).1.status = 500 :=
  bridge_error_statuses.2.2.2.1 _ _ _ _ {} ("boom".toList)
    rfl (by decide) (by decide) (by decide) (by decide) rfl

/-- C2 counterexample: at a concrete authenticated GET request against a
real backend whose `getObject` throws, the bridge answers 404 — not 500 as
the claim states. -/
theorem bridge_error_statuses_counterexample :
    (davLoader
      { method := "GET".toList, authHeader := some ("Basic dTpw".toList),
        storageIdParam := some ['3'], path := "a.txt".toList }
      { WEBDAV_ENABLED := some ("true".toList), WEBDAV_USERNAME := some ['u'],
        WEBDAV_PASSWORD := some ['p'] }
      { storages := [(3, {})] }
      { getObject := .error ("boom".toList) }).1.status = 404 ∧
    ¬((davLoader
      { method := "GET".toList, authHeader := some ("Basic dTpw".toList),
        storageIdParam := some ['3'], path := "a.txt".toList }
      { WEBDAV_ENABLED := some ("true".toList), WEBDAV_USERNAME := some ['u'],
        WEBDAV_PASSWORD := some ['p'] }
      { storages := [(3, {})] }
      { getObject := .error ("boom".toList) }).1.status = 500) := by
  constructor
  · decide
  · decide

/-- Reversing the arguments of the code-unit comparison swaps the result. -/
theorem lexCmp_swap (a b : JSStr) : lexCmp b a = (lexCmp a b).swap := by
  induction a generalizing b with
  | nil => cases b <;> rfl
  | cons x xs ih =>
    cases b with
    | nil => rfl
    | cons y ys =>
      simp only [lexCmp]
      rcases Nat.lt_trichotomy x.toNat y.toNat with h | h | h
      · rw [Nat.compare_eq_lt.mpr h, Nat.compare_eq_gt.mpr h]
        rfl
      · rw [Nat.compare_eq_eq.mpr h, Nat.compare_eq_eq.mpr h.symm]
        exact ih ys
      · rw [Nat.compare_eq_gt.mpr h, Nat.compare_eq_lt.mpr h]
        rfl

/-- The code-unit comparison is transitive on the "not greater" relation. -/
theorem lexCmp_trans (a b c : JSStr) (hab : lexCmp a b ≠ .gt) (hbc : lexCmp b c ≠ .gt) :
    lexCmp a c ≠ .gt := by
  induction a generalizing b c with
  | nil =>
    cases c with
    | nil => simp [lexCmp]
    | cons z zs => simp [lexCmp]
  | cons x xs ih =>
    cases b with
    | nil => simp [lexCmp] at hab
    | cons y ys =>
      cases c with
      | nil => simp [lexCmp] at hbc
      | cons z zs =>
        simp only [lexCmp] at hab hbc ⊢
        rcases Nat.lt_trichotomy x.toNat y.toNat with h1 | h1 | h1
        · rcases Nat.lt_trichotomy y.toNat z.toNat with h2 | h2 | h2
          · rw [Nat.compare_eq_lt.mpr (h1.trans h2)]
            simp
          · rw [Nat.compare_eq_lt.mpr (h2 ▸ h1)]
            simp
          · rw [Nat.compare_eq_gt.mpr h2] at hbc
            exact absurd rfl hbc
        · rcases Nat.lt_trichotomy y.toNat z.toNat with h2 | h2 | h2
          · rw [Nat.compare_eq_lt.mpr (h1 ▸ h2)]
            simp
          · rw [Nat.compare_eq_eq.mpr (h1.trans h2)]
            rw [Nat.compare_eq_eq.mpr h1] at hab
            rw [Nat.compare_eq_eq.mpr h2] at hbc
            exact ih ys zs hab hbc
          · rw [Nat.compare_eq_gt.mpr h2] at hbc
            exact absurd rfl hbc
        · rw [Nat.compare_eq_gt.mpr h1] at hab
          exact absurd rfl hab

/-- `leDrive` spelled out through the comparator's cases. -/
theorem leDrive_iff (a b : DriveObject) :
    leDrive a b = true ↔
      (a.isDirectory = true ∧ b.isDirectory = false) ∨
      (a.isDirectory = b.isDirectory ∧ lexCmp a.name b.name ≠ .gt) := by
  unfold leDrive cmpDrive localeCompare
  rw [decide_eq_true_eq]
  by_cases hd : a.isDirectory = b.isDirectory
  · rw [if_neg (by simp [hd])]
    cases hcmp : lexCmp a.name b.name with
    | lt =>
      simp only [hcmp]
      constructor
      · intro _
        right
        exact ⟨hd, by simp [hcmp]⟩
      · intro _
        decide
    | eq =>
      simp only [hcmp]
      constructor
      · intro _
        right
        exact ⟨hd, by simp [hcmp]⟩
      · intro _
        decide
    | gt =>
      simp only [hcmp]
      constructor
      · intro h
        exact absurd h (by decide)
      · rintro (⟨ha, hb⟩ | ⟨-, hn⟩)
        · rw [ha, hb] at hd
          exact absurd hd (by decide)
        · exact absurd rfl hn
  · rw [if_pos hd]
    cases ha : a.isDirectory with
    | true =>
      cases hb : b.isDirectory with
      | true => exact absurd (ha.trans hb.symm) hd
      | false => simp [ha, hb]
    | false =>
      cases hb : b.isDirectory with
      | true =>
        rw [ha] at hd
        simp [ha, hb, hd]
      | false => exact absurd (ha.trans hb.symm) hd

/-- `leDrive` is total. -/
theorem leDrive_total (a b : DriveObject) : (leDrive a b || leDrive b a) = true := by
  rw [Bool.or_eq_true]
  by_cases h : leDrive a b = true
  · left
    exact h
  · right
    rw [leDrive_iff]
    cases ha : a.isDirectory <;> cases hb : b.isDirectory
    · have hgt : lexCmp a.name b.name = .gt := by
        by_contra hn
        exact h ((leDrive_iff a b).mpr (Or.inr ⟨ha.trans hb.symm, hn⟩))
      refine Or.inr ⟨rfl, ?_⟩
      rw [lexCmp_swap, hgt]
      decide
    · exact Or.inl ⟨rfl, rfl⟩
    · exact absurd ((leDrive_iff a b).mpr (Or.inl ⟨ha, hb⟩)) h
    · have hgt : lexCmp a.name b.name = .gt := by
        by_contra hn
        exact h ((leDrive_iff a b).mpr (Or.inr ⟨ha.trans hb.symm, hn⟩))
      refine Or.inr ⟨rfl, ?_⟩
      rw [lexCmp_swap, hgt]
      decide

/-- `leDrive` is transitive. -/
theorem leDrive_trans (a b c : DriveObject) (hab : leDrive a b = true)
    (hbc : leDrive b c = true) : leDrive a c = true := by
  rw [leDrive_iff] at hab hbc ⊢
  rcases hab with ⟨ha, hb⟩ | ⟨hab, hnab⟩
  · rcases hbc with ⟨hb2, hc⟩ | ⟨hbc2, hnbc⟩
    · rw [hb] at hb2
      exact absurd hb2 (by decide)
    · left
      exact ⟨ha, hbc2 ▸ hb⟩
  · rcases hbc with ⟨hb2, hc⟩ | ⟨hbc2, hnbc⟩
    · left
      exact ⟨hab.trans hb2, hc⟩
    · right
      exact ⟨hab.trans hbc2, lexCmp_trans _ _ _ hnab hnbc⟩

/-- `sortDrive` sorts by the comparator and permutes its input. -/
theorem sortDrive_sorted_perm (l : List DriveObject) :
    sortedDrive (sortDrive l) ∧ (sortDrive l).Perm l := by
  constructor
  · exact List.sorted_mergeSort (fun a b c => leDrive_trans a b c) leDrive_total l
  · exact List.mergeSort_perm l leDrive

/-- Every key collected into `prefixes` during the listing loop belongs to a
directory entry of the sorted `objects`. -/
theorem prefixes_subset (objects0 : List DriveObject) (k : JSStr)
    (hk : k ∈ (objects0.filter (fun o => o.isDirectory)).map (fun o => o.key)) :
    ∃ o ∈ sortDrive objects0, o.isDirectory = true ∧ o.key = k := by
  rcases List.mem_map.mp hk with ⟨o, ho, hko⟩
  rcases List.mem_filter.mp ho with ⟨ho0, hdir⟩
  exact ⟨o, ((sortDrive_sorted_perm objects0).2.mem_iff).mpr ho0, by simpa using hdir, hko⟩

/-- C6 (amended): for every Google Drive or Baidu listing built from any
provider response, every key in `prefixes` is the key of a directory entry
in `objects`, and `objects` is sorted directories-first then by name under
the comparator; the Baidu result always has `isTruncated = false` with no
continuation token, while for Google Drive `isTruncated = false` implies the
token is absent or is the empty string (the page token is copied verbatim
while truncation is computed by JS truthiness). -/
theorem listObjects_result_invariants (normalized pre : JSStr)
    (rsp : GoogleListResponse) (files : List BaiduFile) :
    (∀ k ∈ (gdriveBuildList normalized rsp).prefixes,
      ∃ o ∈ (gdriveBuildList normalized rsp).objects, o.isDirectory = true ∧ o.key = k) ∧
    sortedDrive (gdriveBuildList normalized rsp).objects ∧
    ((gdriveBuildList normalized rsp).isTruncated = false →
      (gdriveBuildList normalized rsp).nextContinuationToken = none ∨
      (gdriveBuildList normalized rsp).nextContinuationToken = some []) ∧
    (∀ k ∈ (baiduBuildList pre files).prefixes,
      ∃ o ∈ (baiduBuildList pre files).objects, o.isDirectory = true ∧ o.key = k) ∧
    sortedDrive (baiduBuildList pre files).objects ∧
    (baiduBuildList pre files).isTruncated = false ∧
    (baiduBuildList pre files).nextContinuationToken = none := by
  refine ⟨?_, ?_, ?_, ?_, ?_, rfl, rfl⟩
  · intro k hk
    exact prefixes_subset _ k hk
  · exact (sortDrive_sorted_perm _).1
  · intro h
    cases ht : rsp.nextPageToken with
    | none =>
      left
      simp [gdriveBuildList, ht]
    | some s =>
      have h' : jsTruthyStr rsp.nextPageToken = false := h
      rw [ht] at h'
      cases s with
      | nil =>
        right
        simp [gdriveBuildList, ht]
      | cons c t => simp [jsTruthyStr] at h'
  · intro k hk
    exact prefixes_subset _ k hk
  · exact (sortDrive_sorted_perm _).1

/-- C6 witness: at a one-folder listing the prefix key "d/" is the key of a
directory entry, and an untruncated result carries no token. -/
theorem listObjects_result_invariants_witness :
    (∃ o ∈ (gdriveBuildList []
        { files := [{ id := [], name := ['d'], mimeType := some gdriveFolderMime }] }).objects,
      o.isDirectory = true ∧ o.key = ['d', '/']) ∧
    ((gdriveBuildList []
        { files := [{ id := [], name := ['d'], mimeType := some gdriveFolderMime }] }).nextContinuationToken = none ∨
     (gdriveBuildList []
        { files := [{ id := [], name := ['d'], mimeType := some gdriveFolderMime }] }).nextContinuationToken = some []) :=
  ⟨(listObjects_result_invariants [] []
      ⟨[⟨[], ['d'], some gdriveFolderMime, none, none⟩], none⟩ []).1 (['d', '/'])
      (by decide),
   (listObjects_result_invariants [] []
      ⟨[⟨[], ['d'], some gdriveFolderMime, none, none⟩], none⟩ []).2.2.1 (by decide)⟩

/-- C6 counterexample: a Google Drive response with an empty-string
`nextPageToken` yields `isTruncated = false` together with a present (empty)
continuation token, violating the claimed absence. -/
theorem listObjects_truncation_counterexample :
    (gdriveBuildList [] { files := [], nextPageToken := some [] }).isTruncated = false ∧
    (gdriveBuildList [] { files := [], nextPageToken := some [] }).nextContinuationToken ≠
      none := by
  constructor
  · rfl
  · decide

/-- A successful OAuth exchange with `okOauth` rotates the Google Drive
client's tokens and stamps a fresh one-hour expiry. -/
theorem gdriveRefreshToken_okOauth (st : GdriveState)
    (hcid : jsTruthyStr st.client_id = true)
    (hcs : jsTruthyStr st.client_secret = true)
    (hrt : jsTruthyStr st.refresh_token = true) :
    gdriveRefreshToken st (.oauth okOauth) =
      .ok { st with
        access_token := some ('t' :: [])
        saving_refresh_token := some ('r' :: [])
        refresh_token := some ('r' :: [])
        configChanged := st.configChanged || true
        expires_at := some (st.now + 3600 * 1000)
        savingChanged := true } := by
  unfold gdriveRefreshToken
  rw [hcid, hcs, hrt]
  rfl

/-- The fetch phase with `k` rounds of 401-plus-refresh then a success:
exactly `k` refresh-and-replay rounds happen and the caller sees the final
response. -/
theorem gdriveRequest_authExpiry (k : Nat) :
    ∀ (st : GdriveState) (body : JSStr),
      jsTruthyStr st.access_token = true →
      gdriveIsTokenExpired st = false →
      jsTruthyStr st.client_id = true →
      jsTruthyStr st.client_secret = true →
      jsTruthyStr st.refresh_token = true →
      ∃ st', gdriveRequest st (authExpiryScript k okOauth 200 body) =
        .ok ((200, body), st', [], k) := by
  induction k with
  | zero =>
    intro st body htok hexp hcid hcs hrt
    refine ⟨st, ?_⟩
    unfold gdriveRequest
    rw [htok, hexp]
    rw [if_neg (by decide)]
    simp [authExpiryScript, gdriveApiStep]
  | succ n ih =>
    intro st body htok hexp hcid hcs hrt
    have hscript : authExpiryScript (n + 1) okOauth 200 body =
        HttpFetch.api 401 [] :: HttpFetch.oauth okOauth ::
          authExpiryScript n okOauth 200 body := by
      simp [authExpiryScript, List.replicate_succ]
    rw [hscript]
    unfold gdriveRequest
    rw [htok, hexp]
    rw [if_neg (by decide)]
    unfold gdriveApiStep
    dsimp only
    rw [if_pos rfl]
    rw [gdriveRefreshToken_okOauth st hcid hcs hrt]
    dsimp only
    set st2 : GdriveState := { st with
        access_token := some ('t' :: [])
        saving_refresh_token := some ('r' :: [])
        refresh_token := some ('r' :: [])
        configChanged := st.configChanged || true
        expires_at := some (st.now + 3600 * 1000)
        savingChanged := true } with hst2
    have htok2 : jsTruthyStr st2.access_token = true := by
      rw [hst2]
      rfl
    have hexp2 : gdriveIsTokenExpired st2 = false := by
      rw [hst2]
      unfold gdriveIsTokenExpired
      simp only
      rw [decide_eq_false_iff_not]
      omega
    obtain ⟨st', h'⟩ := ih st2 body htok2 hexp2 (by rw [hst2]; exact hcid)
      (by rw [hst2]; exact hcs) (by rw [hst2]; rfl)
    have hreq : gdriveRequest st2 (authExpiryScript n okOauth 200 body) =
        gdriveApiStep st2 (authExpiryScript n okOauth 200 body) := by
      unfold gdriveRequest
      rw [htok2, hexp2]
      rw [if_neg (by decide)]
    rw [hreq] at h'
    rw [h']
    exact ⟨st', rfl⟩

/-- A successful local OAuth exchange with `okOauth` rotates the OneDrive
client's tokens and stamps a fresh one-hour expiry. -/
theorem onedriveRefreshToken_okOauth (st : OnedriveState)
    (huse : st.use_online_api = false)
    (hcid : jsTruthyStr st.client_id = true)
    (hcs : jsTruthyStr st.client_secret = true) :
    onedriveRefreshToken st (.oauth okOauth) =
      .ok { st with
        access_token := some ('t' :: [])
        saving_refresh_token := some ('r' :: [])
        refresh_token := some ('r' :: [])
        configChanged := st.configChanged || true
        expires_at := some (st.now + 3600 * 1000)
        savingChanged := true } := by
  unfold onedriveRefreshToken onedriveRefreshTokenLocal
  rw [huse, hcid, hcs]
  rfl

/-- OneDrive request against `k` rounds of 401-plus-refresh then a success:
`k` refresh-and-replay rounds, the caller sees the final response. -/
theorem onedriveRequest_authExpiry (k : Nat) :
    ∀ (st : OnedriveState) (body : JSStr),
      jsTruthyStr st.access_token = true →
      onedriveIsTokenExpired st = false →
      st.use_online_api = false →
      jsTruthyStr st.client_id = true →
      jsTruthyStr st.client_secret = true →
      ∃ st', onedriveRequest st (authExpiryScript k okOauth 200 body) =
        .ok ((200, body), st', [], k) := by
  induction k with
  | zero =>
    intro st body htok hexp huse hcid hcs
    refine ⟨st, ?_⟩
    unfold onedriveRequest
    rw [htok, hexp]
    rw [if_neg (by decide)]
    simp [authExpiryScript, onedriveApiStep, respOk]
  | succ n ih =>
    intro st body htok hexp huse hcid hcs
    have hscript : authExpiryScript (n + 1) okOauth 200 body =
        HttpFetch.api 401 [] :: HttpFetch.oauth okOauth ::
          authExpiryScript n okOauth 200 body := by
      simp [authExpiryScript, List.replicate_succ]
    rw [hscript]
    unfold onedriveRequest
    rw [htok, hexp]
    rw [if_neg (by decide)]
    unfold onedriveApiStep
    dsimp only
    rw [if_pos (by decide), if_pos rfl]
    rw [onedriveRefreshToken_okOauth st huse hcid hcs]
    dsimp only
    set st2 : OnedriveState := { st with
        access_token := some ('t' :: [])
        saving_refresh_token := some ('r' :: [])
        refresh_token := some ('r' :: [])
        configChanged := st.configChanged || true
        expires_at := some (st.now + 3600 * 1000)
        savingChanged := true } with hst2
    have htok2 : jsTruthyStr st2.access_token = true := by
      rw [hst2]
      rfl
    have hexp2 : onedriveIsTokenExpired st2 = false := by
      rw [hst2]
      unfold onedriveIsTokenExpired
      simp only
      rw [decide_eq_false_iff_not]
      omega
    obtain ⟨st', h'⟩ := ih st2 body htok2 hexp2 (by rw [hst2]; exact huse)
      (by rw [hst2]; exact hcid) (by rw [hst2]; exact hcs)
    have hreq : onedriveRequest st2 (authExpiryScript n okOauth 200 body) =
        onedriveApiStep st2 (authExpiryScript n okOauth 200 body) := by
      unfold onedriveRequest
      rw [htok2, hexp2]
      rw [if_neg (by decide)]
    rw [hreq] at h'
    rw [h']
    exact ⟨st', rfl⟩

/-- A successful local OAuth exchange with `okOauth` rotates the Baidu
client's tokens and marks both slices changed. -/
theorem baiduRefreshToken_okOauth (st : BaiduState)
    (huse : st.config.use_online_api = false)
    (hcid : jsTruthyStr st.config.client_id = true)
    (hcs : jsTruthyStr st.config.client_secret = true) :
    baiduRefreshToken st (.oauth okOauth) =
      .ok { st with
        saving := { st.saving with access_token := some ('t' :: []),
                                   refresh_token := some ('r' :: []) }
        config := { st.config with refresh_token := some ('r' :: []) }
        savingChanged := true
        configChanged := true } := by
  unfold baiduRefreshToken baiduRefreshTokenLocal
  rw [huse, hcid, hcs]
  rfl

/-- Baidu request against `k` rounds of errno-111-plus-refresh then a clean
response: `k` refresh-and-replay rounds, the caller sees the final data. -/
theorem baiduRequest_authExpiry (k : Nat) :
    ∀ (st : BaiduState) (data : BdData),
      jsTruthyStr st.saving.access_token = true →
      st.config.use_online_api = false →
      jsTruthyStr st.config.client_id = true →
      jsTruthyStr st.config.client_secret = true →
      (data.errno = none ∨ data.errno = some 0) →
      ∃ st', baiduRequest st (baiduAuthExpiryScript k okOauth data) =
        .ok (data, st', [], k) := by
  induction k with
  | zero =>
    intro st data htok huse hcid hcs herrno
    refine ⟨st, ?_⟩
    unfold baiduRequest
    rw [htok]
    rw [if_pos rfl]
    rcases herrno with h | h <;>
      simp [baiduAuthExpiryScript, baiduApiStep, h]
  | succ n ih =>
    intro st data htok huse hcid hcs herrno
    have hscript : baiduAuthExpiryScript (n + 1) okOauth data =
        BdFetch.api true 200 { errno := some 111 } :: BdFetch.oauth okOauth ::
          baiduAuthExpiryScript n okOauth data := by
      simp [baiduAuthExpiryScript, List.replicate_succ]
    rw [hscript]
    unfold baiduRequest
    rw [htok]
    rw [if_pos rfl]
    have hstep : baiduApiStep st
        (BdFetch.api true 200 { errno := some 111 } :: BdFetch.oauth okOauth ::
          baiduAuthExpiryScript n okOauth data) =
        (match baiduRefreshToken st (BdFetch.oauth okOauth) with
         | .error msg => .error msg
         | .ok st2 =>
           match baiduApiStep st2 (baiduAuthExpiryScript n okOauth data) with
           | .ok (d, st3, s3, k) => .ok (d, st3, s3, k + 1)
           | .error msg => .error msg) := rfl
    rw [hstep]
    rw [baiduRefreshToken_okOauth st huse hcid hcs]
    dsimp only
    set st2 : BaiduState := { st with
        saving := { st.saving with access_token := some ('t' :: []),
                                   refresh_token := some ('r' :: []) }
        config := { st.config with refresh_token := some ('r' :: []) }
        savingChanged := true
        configChanged := true } with hst2
    have htok2 : jsTruthyStr st2.saving.access_token = true := by
      rw [hst2]
      rfl
    obtain ⟨st', h'⟩ := ih st2 data htok2 (by rw [hst2]; exact huse)
      (by rw [hst2]; exact hcid) (by rw [hst2]; exact hcs) herrno
    have hreq : baiduRequest st2 (baiduAuthExpiryScript n okOauth data) =
        baiduApiStep st2 (baiduAuthExpiryScript n okOauth data) := by
      unfold baiduRequest
      rw [htok2]
      rw [if_pos rfl]
    rw [hreq] at h'
    rw [h']
    exact ⟨st', rfl⟩

/-- The Aliyun adapter performs no auth-expiry recovery at all: with a valid
token and drive id, a single 401 API response is passed through by `request`
with zero refreshes, and `requestJson` turns it into a thrown error rather
than a refresh-and-replay. -/
theorem aliyun_no_retry (st : AliyunState) (p : JSStr)
    (htok : jsTruthyStr st.access_token = true)
    (hexp : aliyunIsTokenExpired st = false)
    (hdrv : jsTruthyStr st.drive_id = true) :
    aliyunRequest st [AliFetch.api 401 (some (none, none)) p] =
      .ok (AliFetch.api 401 (some (none, none)) p, st, [], 0) ∧
    aliyunRequestJson st [AliFetch.api 401 (some (none, none)) p] =
      .error ("Aliyun API error".toList) := by
  have h1 : aliyunEnsureToken st [AliFetch.api 401 (some (none, none)) p] =
      .ok (st, [AliFetch.api 401 (some (none, none)) p], 0) := by
    unfold aliyunEnsureToken
    rw [htok, hexp]
    rw [if_neg (by decide)]
    dsimp only
    rw [hdrv]
    rfl
  constructor
  · unfold aliyunRequest
    rw [h1]
  · unfold aliyunRequestJson aliyunRequest
    rw [h1]
    rfl

/-- C1 (amended): on a provider-signalled auth expiry (HTTP 401 for Google
Drive and OneDrive, errno 111 or -6 for Baidu) the adapter refreshes and replays
the same request, and it repeats this for every further auth-expiry signal:
against `k` consecutive auth-expiry responses followed by a success the
adapter performs exactly `k` refresh-and-replay rounds — unbounded in `k`,
not capped at one — and the caller sees only the final success; the Aliyun
adapter performs no auth-expiry recovery at all: a 401 is passed through by
`request` with zero refreshes and surfaces from `requestJson` as a fatal
error. -/
theorem auth_retry_spec :
    (∀ (k : Nat) (st : GdriveState) (body : JSStr),
      jsTruthyStr st.access_token = true →
      gdriveIsTokenExpired st = false →
      jsTruthyStr st.client_id = true →
      jsTruthyStr st.client_secret = true →
      jsTruthyStr st.refresh_token = true →
      ∃ st', gdriveRequest st (authExpiryScript k okOauth 200 body) =
        .ok ((200, body), st', [], k)) ∧
    (∀ (k : Nat) (st : OnedriveState) (body : JSStr),
      jsTruthyStr st.access_token = true →
      onedriveIsTokenExpired st = false →
      st.use_online_api = false →
      jsTruthyStr st.client_id = true →
      jsTruthyStr st.client_secret = true →
      ∃ st', onedriveRequest st (authExpiryScript k okOauth 200 body) =
        .ok ((200, body), st', [], k)) ∧
    (∀ (k : Nat) (st : BaiduState) (data : BdData),
      jsTruthyStr st.saving.access_token = true →
      st.config.use_online_api = false →
      jsTruthyStr st.config.client_id = true →
      jsTruthyStr st.config.client_secret = true →
      (data.errno = none ∨ data.errno = some 0) →
      ∃ st', baiduRequest st (baiduAuthExpiryScript k okOauth data) =
        .ok (data, st', [], k)) ∧
    (∀ (st : AliyunState) (p : JSStr),
      jsTruthyStr st.access_token = true →
      aliyunIsTokenExpired st = false →
      jsTruthyStr st.drive_id = true →
      aliyunRequest st [AliFetch.api 401 (some (none, none)) p] =
        .ok (AliFetch.api 401 (some (none, none)) p, st, [], 0) ∧
      aliyunRequestJson st [AliFetch.api 401 (some (none, none)) p] =
        .error ("Aliyun API error".toList)) :=
  ⟨fun k st body h1 h2 h3 h4 h5 => gdriveRequest_authExpiry k st body h1 h2 h3 h4 h5,
   fun k st body h1 h2 h3 h4 h5 => onedriveRequest_authExpiry k st body h1 h2 h3 h4 h5,
   fun k st data h1 h2 h3 h4 h5 => baiduRequest_authExpiry k st data h1 h2 h3 h4 h5,
   fun st p h1 h2 h3 => aliyun_no_retry st p h1 h2 h3⟩

/-- C1 witness: the single-retry round trip at a concrete Google Drive state
and one 401-refresh round, and the Aliyun pass-through at a concrete state. -/
theorem auth_retry_spec_witness :
    (∃ st', gdriveRequest
      { client_id := some ['i'], client_secret := some ['s'],
        refresh_token := some ['r'], access_token := some ['a'],
        expires_at := some 10000000, now := 0 }
      (authExpiryScript 1 okOauth 200 ['b']) = .ok ((200, ['b']), st', [], 1)) ∧
    aliyunRequestJson
      { access_token := some ['a'], expires_at := some 10000000,
        drive_id := some ['d'], now := 0 }
      [AliFetch.api 401 (some (none, none)) []] =
      .error ("Aliyun API error".toList) :=
  ⟨auth_retry_spec.1 1
    { client_id := some ['i'], client_secret := some ['s'],
      refresh_token := some ['r'], access_token := some ['a'],
      expires_at := some 10000000, now := 0 } (['b'])
    (by decide) (by decide) (by decide) (by decide) (by decide),
   (auth_retry_spec.2.2.2
     { access_token := some ['a'], expires_at := some 10000000,
       drive_id := some ['d'], now := 0 } []
     (by decide) (by decide) (by decide)).2⟩

/-- C1 counterexample: against two consecutive 401s then a success, the
Google Drive adapter performs two refresh-and-replay rounds and still
returns the success — the replay is not capped at one, and a second
auth-expiry failure does not propagate as a fatal error; meanwhile a single
401 on the Aliyun adapter is already fatal with no refresh at all. -/
theorem auth_retry_counterexample :
    (gdriveRequest
      { client_id := some ['i'], client_secret := some ['s'],
        refresh_token := some ['r'], access_token := some ['a'],
        expires_at := some 10000000, now := 0 }
      (authExpiryScript 2 okOauth 200 ['b'])).map
        (fun r => (r.1, r.2.2.1, r.2.2.2)) =
      Except.ok ((200, ['b']), ([] : List HttpFetch), 2) ∧
    aliyunRequestJson
      { access_token := some ['a'], expires_at := some 10000000,
        drive_id := some ['d'], now := 0 }
      [AliFetch.api 401 (some (none, none)) []] =
      .error ("Aliyun API error".toList) := by
  constructor
  · rfl
  · rfl

/-- The number of slices is the rounded-up quotient of the byte length by
the (positive) slice size. -/
theorem chunksOf_length : ∀ (n s : Nat), 0 < s → ∀ l : List Nat, l.length ≤ n →
    (chunksOf s l).length = (l.length + s - 1) / s := by
  intro n
  induction n with
  | zero =>
    intro s hs l hl
    have hnil : l = [] := List.eq_nil_of_length_eq_zero (Nat.le_zero.mp hl)
    subst hnil
    rw [chunksOf, if_pos rfl]
    simp only [List.length_nil]
    exact (Nat.div_eq_of_lt (by omega : 0 + s - 1 < s)).symm
  | succ n ih =>
    intro s hs l hl
    by_cases hl0 : l = []
    · subst hl0
      rw [chunksOf, if_pos rfl]
      simp only [List.length_nil]
      exact (Nat.div_eq_of_lt (by omega : 0 + s - 1 < s)).symm
    · rw [chunksOf]
      rw [if_neg hl0, if_neg (by omega)]
      simp only [List.length_cons]
      have hlen : 0 < l.length := List.length_pos.mpr hl0
      rw [ih s hs (l.drop s) (by simp only [List.length_drop]; omega)]
      simp only [List.length_drop]
      have hr : (l.length + s - 1) / s = (l.length - 1) / s + 1 := by
        have h1 : l.length + s - 1 = l.length - 1 + s := by omega
        rw [h1, Nat.add_div_right _ hs]
      rw [hr]
      have hq : (l.length - s + s - 1) / s = (l.length - 1) / s := by
        rcases Nat.le_total s l.length with hle | hle
        · congr 1
          omega
        · have h1 : l.length - s = 0 := by omega
          rw [h1]
          rw [Nat.div_eq_of_lt (by omega : 0 + s - 1 < s)]
          rw [Nat.div_eq_of_lt (by omega : l.length - 1 < s)]
      omega

/-- The sequential slice-upload loop sends exactly the given slices with
their given sequence numbers, in order. -/
theorem baiduUploadSlices_ok (path uid : JSStr) :
    ∀ (chunks : List (Nat × List Nat)) (script : List BdFetch)
      (calls : List BaiduSliceCall) (s' : List BdFetch),
      baiduUploadSlices path uid chunks script = .ok (calls, s') →
      calls.map (fun c => c.partseq) = chunks.map Prod.fst ∧
      calls.map (fun c => c.chunk) = chunks.map Prod.snd := by
  intro chunks
  induction chunks with
  | nil =>
    intro script calls s' h
    rw [baiduUploadSlices] at h
    injection h with h
    injection h with h1 h2
    subst h1
    exact ⟨rfl, rfl⟩
  | cons hd tl ih =>
    intro script calls s' h
    obtain ⟨seq, chunk⟩ := hd
    cases script with
    | nil => simp [baiduUploadSlices] at h
    | cons ev rest =>
      cases ev with
      | oauth o => simp [baiduUploadSlices] at h
      | api ok status body => simp [baiduUploadSlices] at h
      | apiRaw ok status text => simp [baiduUploadSlices] at h
      | slice errno ecode =>
        rw [baiduUploadSlices] at h
        by_cases hfail : ¬(errno = some 0) ∧ ¬(ecode = some 0)
        · rw [if_pos hfail] at h
          exact absurd h (by simp)
        · rw [if_neg hfail] at h
          cases hrec : baiduUploadSlices path uid tl rest with
          | error msg =>
            rw [hrec] at h
            exact absurd h (by simp)
          | ok pr =>
            obtain ⟨calls0, s0⟩ := pr
            rw [hrec] at h
            injection h with h
            injection h with h1 h2
            subst h1
            obtain ⟨ha, hb⟩ := ih rest calls0 s0 hrec
            simp only [List.map_cons]
            exact ⟨by rw [ha], by rw [hb]⟩

/-- The slice size computed by `getSliceSize` is always positive. -/
theorem baiduGetSliceSize_pos (st : BaiduState) (n : Nat) :
    0 < baiduGetSliceSize st n := by
  unfold baiduGetSliceSize
  dsimp only
  split_ifs <;> omega

/-- C7 (amended): the slice size is 4MiB by default, 16MiB for vip tier 1 and
32MiB for vip tier 2; a configured positive custom size (in MiB) is clamped
into the band from the 4MiB default up to the 32MiB svip ceiling (so a custom
size below 4MiB is NOT honoured).  `putObject` sends a `precreate` carrying
the resolved path, the byte length, one md5 per slice, the whole-body md5 and
the md5 of the first min(256KiB, n) bytes; when the provider answers
`return_type` 2 it returns at once with no slice transfer and no `create`;
and on the full path it uploads exactly the ceil(n divided by sliceSize)
slices sequentially with strictly increasing `partseq` 0,1,2,... before a
final `create` commits the same block list. -/
theorem baidu_putObject_spec :
    (∀ st n, ¬(0 : Int) < st.config.custom_upload_part_size.getD 0 →
      baiduGetSliceSize st n =
        if st.saving.vip_type.getD 0 = 2 then 32 * 1024 * 1024
        else if st.saving.vip_type.getD 0 = 1 then 16 * 1024 * 1024
        else 4 * 1024 * 1024) ∧
    (∀ st n c, st.config.custom_upload_part_size = some c → 0 < c →
      baiduGetSliceSize st n =
        max (4 * 1024 * 1024) (min (c.toNat * 1024 * 1024) (32 * 1024 * 1024))) ∧
    (∀ st key body script data st1 s1 k,
      baiduRequest st script = .ok (data, st1, s1, k) →
      data.return_type = some 2 →
      baiduPutObject st key body script =
        .ok ({ precreate :=
                 { path := baiduResolvePath st key, size := body.length,
                   block_list :=
                     (chunksOf (baiduGetSliceSize st body.length) body).map md5Hex,
                   content_md5 := md5Hex body,
                   slice_md5 := md5Hex (body.take (min (256 * 1024) body.length)) },
               uploads := [], create := none }, st1, s1)) ∧
    (∀ st key body script tr st' s',
      baiduPutObject st key body script = .ok (tr, st', s') →
      tr.precreate.path = baiduResolvePath st key ∧
      tr.precreate.size = body.length ∧
      tr.precreate.block_list =
        (chunksOf (baiduGetSliceSize st body.length) body).map md5Hex ∧
      tr.precreate.block_list.length =
        (body.length + baiduGetSliceSize st body.length - 1) /
          baiduGetSliceSize st body.length ∧
      tr.precreate.content_md5 = md5Hex body ∧
      tr.precreate.slice_md5 = md5Hex (body.take (min (256 * 1024) body.length)) ∧
      (tr.create = none → tr.uploads = []) ∧
      (∀ cr, tr.create = some cr →
        tr.uploads.map (fun c => c.partseq) =
          List.range (chunksOf (baiduGetSliceSize st body.length) body).length ∧
        List.Pairwise (fun a b => a < b) (tr.uploads.map (fun c => c.partseq)) ∧
        tr.uploads.map (fun c => c.chunk) =
          chunksOf (baiduGetSliceSize st body.length) body ∧
        cr.path = baiduResolvePath st key ∧
        cr.size = body.length ∧
        cr.block_list =
          (chunksOf (baiduGetSliceSize st body.length) body).map md5Hex)) := by
  refine ⟨?_, ?_, ?_, ?_⟩
  · intro st n h
    unfold baiduGetSliceSize
    dsimp only
    rw [if_neg h]
  · intro st n c hc hpos
    unfold baiduGetSliceSize
    dsimp only
    rw [hc]
    simp only [Option.getD_some]
    rw [if_pos hpos]
  · intro st key body script data st1 s1 k hreq hrt
    unfold baiduPutObject
    dsimp only
    rw [hreq]
    dsimp only
    rw [if_pos hrt]
  · intro st key body script tr st' s' h
    unfold baiduPutObject at h
    dsimp only at h
    cases hreq : baiduRequest st script with
    | error msg => rw [hreq] at h; exact absurd h (by simp)
    | ok q =>
      obtain ⟨data, st1, s1, k⟩ := q
      rw [hreq] at h
      dsimp only at h
      by_cases hrt : data.return_type = some 2
      · rw [if_pos hrt] at h
        injection h with h1
        injection h1 with hA hrest
        subst hA
        refine ⟨rfl, rfl, rfl, ?_, rfl, rfl, fun _ => rfl, ?_⟩
        · simp only [List.length_map]
          exact chunksOf_length body.length _ (baiduGetSliceSize_pos st body.length)
            body le_rfl
        · intro cr hcr
          exact absurd hcr (by simp)
      · rw [if_neg hrt] at h
        by_cases hup : (!jsTruthyStr data.uploadid) = true
        · rw [if_pos hup] at h
          exact absurd h (by simp)
        · rw [if_neg hup] at h
          cases hsl : baiduUploadSlices (baiduResolvePath st key)
              (data.uploadid.getD [])
              ((chunksOf (baiduGetSliceSize st body.length) body).enum) s1 with
          | error msg => rw [hsl] at h; exact absurd h (by simp)
          | ok pr =>
            obtain ⟨uploads, s2⟩ := pr
            rw [hsl] at h
            dsimp only at h
            cases hreq2 : baiduRequest st1 s2 with
            | error msg => rw [hreq2] at h; exact absurd h (by simp)
            | ok q2 =>
              obtain ⟨data2, st2, s3, k2⟩ := q2
              rw [hreq2] at h
              dsimp only at h
              injection h with h1
              injection h1 with hA hrest
              subst hA
              obtain ⟨hseq, hchunk⟩ := baiduUploadSlices_ok _ _ _ _ _ _ hsl
              refine ⟨rfl, rfl, rfl, ?_, rfl, rfl, ?_, ?_⟩
              · simp only [List.length_map]
                exact chunksOf_length body.length _
                  (baiduGetSliceSize_pos st body.length) body le_rfl
              · intro hno
                exact absurd hno (by simp)
              · intro cr hcr
                injection hcr with hcr1
                subst hcr1
                have hs1 : uploads.map (fun c => c.partseq) =
                    List.range (chunksOf (baiduGetSliceSize st body.length) body).length := by
                  rw [hseq, List.enum_map_fst]
                have hs2 : uploads.map (fun c => c.chunk) =
                    chunksOf (baiduGetSliceSize st body.length) body := by
                  rw [hchunk, List.enum_map_snd]
                refine ⟨hs1, ?_, hs2, rfl, rfl, rfl⟩
                rw [hs1]
                exact List.pairwise_lt_range _

/-- C7 counterexample: a configured custom slice size of 1MiB is not
honoured: `getSliceSize` clamps it up to the 4MiB default. -/
theorem baidu_slice_size_counterexample :
    baiduGetSliceSize
      { config := { custom_upload_part_size := some 1 }, saving := {} } 0 =
      4 * 1024 * 1024 ∧
    ¬ baiduGetSliceSize
      { config := { custom_upload_part_size := some 1 }, saving := {} } 0 =
      1 * 1024 * 1024 := by
  exact ⟨rfl, by decide⟩

/-- C7 witness: the tier sizes and the dedup short-circuit at concrete
inputs, each obtained from the clauses of the specification theorem. -/
theorem baidu_putObject_spec_witness :
    baiduGetSliceSize ({ config := {}, saving := { vip_type := some 1 } } : BaiduState) 0 =
      16 * 1024 * 1024 ∧
    baiduGetSliceSize
      ({ config := { custom_upload_part_size := some 1 }, saving := {} } : BaiduState) 0 =
      4 * 1024 * 1024 ∧
    baiduPutObject ({ config := {}, saving := { access_token := some ['t'] } } : BaiduState)
        ['k'] [7]
        [BdFetch.api true 200 { errno := some 0, return_type := some 2 }] =
      .ok ({ precreate :=
               { path := baiduResolvePath
                   ({ config := {}, saving := { access_token := some ['t'] } } : BaiduState)
                   ['k'],
                 size := 1,
                 block_list :=
                   (chunksOf
                     (baiduGetSliceSize
                       ({ config := {}, saving := { access_token := some ['t'] } } : BaiduState) 1)
                     [7]).map md5Hex,
                 content_md5 := md5Hex [7],
                 slice_md5 := md5Hex ([7].take (min (256 * 1024) 1)) },
             uploads := [], create := none },
           ({ config := {}, saving := { access_token := some ['t'] } } : BaiduState), []) := by
  refine ⟨?_, ?_, ?_⟩
  · have h := baidu_putObject_spec.1
      ({ config := {}, saving := { vip_type := some 1 } } : BaiduState) 0 (by decide)
    exact h.trans (by decide)
  · have h := baidu_putObject_spec.2.1
      ({ config := { custom_upload_part_size := some 1 }, saving := {} } : BaiduState) 0 1
      rfl (by decide)
    exact h.trans (by decide)
  · exact baidu_putObject_spec.2.2.1
      ({ config := {}, saving := { access_token := some ['t'] } } : BaiduState)
      ['k'] [7]
      [BdFetch.api true 200 { errno := some 0, return_type := some 2 }]
      { errno := some 0, return_type := some 2 }
      ({ config := {}, saving := { access_token := some ['t'] } } : BaiduState)
      [] 0 rfl rfl

/-- `Char.ofNat` inverts `Char.toNat`. -/
theorem char_ofNat_toNat (c : Char) : Char.ofNat c.toNat = c :=
  Char.ofNat_toNat c

/-- Digit characters of digits below ten. -/
theorem digitChar_isDigit : ∀ d, d < 10 → isDigitChar (Nat.digitChar d) = true := by decide

/-- `digVal` inverts `Nat.digitChar` below ten. -/
theorem digVal_digitChar : ∀ d, d < 10 → digVal (Nat.digitChar d) = d := by decide

/-- The printed form of a natural number is never empty. -/
theorem printNat_ne_nil (m : Nat) : printNat m ≠ [] := by
  unfold printNat
  split_ifs with h
  · simp
  · intro hc
    have hl := congrArg List.length hc
    simp only [List.length_map, List.length_reverse, List.length_nil] at hl
    exact (Nat.digits_ne_nil_iff_ne_zero.mpr h) (List.eq_nil_of_length_eq_zero hl)

/-- Every character of the printed form of a natural number is a digit. -/
theorem printNat_all_digits (m : Nat) : (printNat m).all isDigitChar = true := by
  unfold printNat
  split_ifs with h
  · decide
  · rw [List.all_eq_true]
    intro c hc
    simp only [List.mem_map, List.mem_reverse] at hc
    obtain ⟨d, hd, rfl⟩ := hc
    exact digitChar_isDigit d (Nat.digits_lt_base (by norm_num) hd)

/-- The printed form of a natural number has no leading zero (except the
single digit of zero itself). -/
theorem printNat_leading (m : Nat) :
    ¬((printNat m).headI = '0' ∧ 1 < (printNat m).length) := by
  rintro ⟨hh, hl⟩
  by_cases h : m = 0
  · subst h
    simp [printNat] at hl
  · unfold printNat at hh hl
    rw [if_neg h] at hh hl
    have hne : Nat.digits 10 m ≠ [] := Nat.digits_ne_nil_iff_ne_zero.mpr h
    cases hrev : (Nat.digits 10 m).reverse with
    | nil => exact hne (by rw [← List.reverse_reverse (Nat.digits 10 m), hrev]; rfl)
    | cons a t =>
      rw [hrev] at hh
      simp only [List.map_cons, List.headI] at hh
      have ha10 : a < 10 := by
        apply Nat.digits_lt_base (by norm_num)
        rw [← List.mem_reverse, hrev]
        exact List.mem_cons_self a t
      have ha0 : a = 0 := by
        have hdec : ∀ b : Nat, b < 10 → Nat.digitChar b = '0' → b = 0 := by decide
        exact hdec a ha10 hh
      have hds : Nat.digits 10 m = t.reverse ++ [a] := by
        rw [← List.reverse_reverse (Nat.digits 10 m), hrev]
        simp
      have h1 : (Nat.digits 10 m).getLast? = some a := by
        rw [hds]
        exact List.getLast?_concat _
      have h2 : (Nat.digits 10 m).getLast hne = a := by
        have h3 := List.getLast?_eq_getLast (Nat.digits 10 m) hne
        rw [h1] at h3
        exact (Option.some.inj h3).symm
      exact Nat.getLast_digit_ne_zero 10 h (by rw [h2, ha0])

/-- Evaluating the digit-character fold on a reversed digit list. -/
theorem foldl_digits (l : List Nat) (hl : ∀ d ∈ l, d < 10) :
    ∀ a : Nat, List.foldl (fun acc c => acc * 10 + digVal c) a (l.reverse.map Nat.digitChar) =
      a * 10 ^ l.length + Nat.ofDigits 10 l := by
  induction l with
  | nil => intro a; simp [Nat.ofDigits_nil]
  | cons d t ih =>
    intro a
    have hd10 : d < 10 := hl d (List.mem_cons_self d t)
    have ht : ∀ x ∈ t, x < 10 := fun x hx => hl x (List.mem_cons_of_mem d hx)
    simp only [List.reverse_cons, List.map_append, List.foldl_append, List.map_cons,
      List.map_nil, List.foldl_cons, List.foldl_nil]
    rw [ih ht a, digVal_digitChar d hd10, Nat.ofDigits_cons, List.length_cons]
    ring

/-- `natFromDigits` inverts `printNat`. -/
theorem natFromDigits_printNat (m : Nat) : natFromDigits (printNat m) = m := by
  unfold printNat
  split_ifs with h
  · subst h; rfl
  · unfold natFromDigits
    rw [foldl_digits (Nat.digits 10 m)
      (fun d hd => Nat.digits_lt_base (by norm_num) hd) 0]
    simp [Nat.ofDigits_digits]

/-- A delimiter-started remainder yields nothing to the digit reader. -/
theorem readDigits_delim (r : List Char) (hr : jsonDelim r = true) :
    r.takeWhile isDigitChar = [] ∧ r.dropWhile isDigitChar = r := by
  cases r with
  | nil => exact ⟨rfl, rfl⟩
  | cons c t =>
    have hc : isDigitChar c = false := by
      simp only [jsonDelim, Bool.or_eq_true, decide_eq_true_eq] at hr
      rcases hr with (h | h) | h <;> subst h <;> decide
    exact ⟨by rw [List.takeWhile_cons, hc]; rfl,
           by rw [List.dropWhile_cons, hc]; rfl⟩

/-- `readDigits` splits a digit string followed by a delimiter exactly. -/
theorem readDigits_append (ds rest : List Char) (h1 : ds.all isDigitChar = true)
    (h2 : jsonDelim rest = true) : readDigits (ds ++ rest) = (ds, rest) := by
  induction ds with
  | nil =>
    obtain ⟨ht, hd⟩ := readDigits_delim rest h2
    unfold readDigits
    rw [List.nil_append, ht, hd]
  | cons c t ih =>
    rw [List.all_cons, Bool.and_eq_true] at h1
    have hres := ih h1.2
    unfold readDigits at hres ⊢
    simp only [Prod.mk.injEq] at hres
    rw [List.cons_append]
    simp [List.takeWhile_cons, List.dropWhile_cons, h1.1, hres.1, hres.2]

/-- Bool-conditioned `if` with literal `true`. -/
theorem bool_if_true {α : Type} (x y : α) : (if (true : Bool) then x else y) = x := rfl

/-- Bool-conditioned `if` with literal `false`. -/
theorem bool_if_false {α : Type} (x y : α) : (if (false : Bool) then x else y) = y := rfl

/-- A digit character is not whitespace and not any JSON structural
character. -/
theorem digit_char_facts (c : Char) (h : isDigitChar c = true) :
    jsonWs c = false ∧ c ≠ ']' ∧ c ≠ '}' ∧ c ≠ 'n' ∧ c ≠ 't' ∧ c ≠ 'f' ∧
      c ≠ '"' ∧ c ≠ '[' ∧ c ≠ '{' := by
  have hne : ∀ d : Char, isDigitChar d = false → c ≠ d := by
    intro d hd he
    subst he
    rw [h] at hd
    exact absurd hd (by simp)
  refine ⟨?_, hne ']' (by decide), hne '}' (by decide), hne 'n' (by decide),
    hne 't' (by decide), hne 'f' (by decide), hne '"' (by decide),
    hne '[' (by decide), hne '{' (by decide)⟩
  unfold jsonWs
  rw [decide_eq_false (hne ' ' (by decide)), decide_eq_false (hne '\t' (by decide)),
      decide_eq_false (hne '\n' (by decide)), decide_eq_false (hne '\r' (by decide))]
  rfl

/-- `hexVal` inverts `hexChar` below sixteen. -/
theorem hexVal_hexChar : ∀ n, n < 16 → hexVal (hexChar n) = some n := by decide

/-- The string-literal parser inverts the `JSON.stringify` string escaper. -/
theorem parseJStrBody_print (s : JSStr) : ∀ rest : List Char,
    parseJStrBody (s.flatMap escChar ++ '"' :: rest) = some (s, rest) := by
  induction s with
  | nil =>
    intro rest
    rw [List.flatMap_nil, List.nil_append, parseJStrBody.eq_def]
    dsimp only
    rw [if_pos (rfl : ('"' : Char) = '"')]
  | cons c cs ih =>
    intro rest
    rw [List.flatMap_cons, List.append_assoc]
    by_cases h1 : c = '"'
    · subst h1
      rw [show escChar '"' = ['\\', '"'] from rfl]
      rw [show (['\\', '"'] : List Char) ++ (cs.flatMap escChar ++ '"' :: rest) =
        '\\' :: '"' :: (cs.flatMap escChar ++ '"' :: rest) from rfl]
      rw [parseJStrBody.eq_def]
      dsimp only
      rw [if_neg (by decide : ¬('\\' : Char) = '"'), if_pos (rfl : ('\\' : Char) = '\\')]
      rw [if_neg (by decide : ¬('"' : Char) = 'u'), show escUnmap '"' = some '"' from rfl]
      dsimp only
      rw [ih rest]
    · by_cases h2 : c = '\\'
      · subst h2
        rw [show escChar '\\' = ['\\', '\\'] from rfl]
        rw [show (['\\', '\\'] : List Char) ++ (cs.flatMap escChar ++ '"' :: rest) =
          '\\' :: '\\' :: (cs.flatMap escChar ++ '"' :: rest) from rfl]
        rw [parseJStrBody.eq_def]
        dsimp only
        rw [if_neg (by decide : ¬('\\' : Char) = '"'), if_pos (rfl : ('\\' : Char) = '\\')]
        rw [if_neg (by decide : ¬('\\' : Char) = 'u'),
            show escUnmap '\\' = some '\\' from rfl]
        dsimp only
        rw [ih rest]
      · by_cases h3 : c.toNat = 8
        · have hc : c = Char.ofNat 8 := by rw [← h3, char_ofNat_toNat]
          rw [show escChar c = ['\\', 'b'] from by
            unfold escChar; rw [if_neg h1, if_neg h2, if_pos h3]]
          rw [show (['\\', 'b'] : List Char) ++ (cs.flatMap escChar ++ '"' :: rest) =
            '\\' :: 'b' :: (cs.flatMap escChar ++ '"' :: rest) from rfl]
          rw [parseJStrBody.eq_def]
          dsimp only
          rw [if_neg (by decide : ¬('\\' : Char) = '"'), if_pos (rfl : ('\\' : Char) = '\\')]
          rw [if_neg (by decide : ¬('b' : Char) = 'u'),
              show escUnmap 'b' = some (Char.ofNat 8) from rfl]
          dsimp only
          rw [ih rest, ← hc]
        · by_cases h4 : c.toNat = 9
          · have hc : c = Char.ofNat 9 := by rw [← h4, char_ofNat_toNat]
            rw [show escChar c = ['\\', 't'] from by
              unfold escChar; rw [if_neg h1, if_neg h2, if_neg h3, if_pos h4]]
            rw [show (['\\', 't'] : List Char) ++ (cs.flatMap escChar ++ '"' :: rest) =
              '\\' :: 't' :: (cs.flatMap escChar ++ '"' :: rest) from rfl]
            rw [parseJStrBody.eq_def]
            dsimp only
            rw [if_neg (by decide : ¬('\\' : Char) = '"'),
                if_pos (rfl : ('\\' : Char) = '\\')]
            rw [if_neg (by decide : ¬('t' : Char) = 'u'),
                show escUnmap 't' = some (Char.ofNat 9) from rfl]
            dsimp only
            rw [ih rest, ← hc]
          · by_cases h5 : c.toNat = 10
            · have hc : c = Char.ofNat 10 := by rw [← h5, char_ofNat_toNat]
              rw [show escChar c = ['\\', 'n'] from by
                unfold escChar; rw [if_neg h1, if_neg h2, if_neg h3, if_neg h4, if_pos h5]]
              rw [show (['\\', 'n'] : List Char) ++ (cs.flatMap escChar ++ '"' :: rest) =
                '\\' :: 'n' :: (cs.flatMap escChar ++ '"' :: rest) from rfl]
              rw [parseJStrBody.eq_def]
              dsimp only
              rw [if_neg (by decide : ¬('\\' : Char) = '"'),
                  if_pos (rfl : ('\\' : Char) = '\\')]
              rw [if_neg (by decide : ¬('n' : Char) = 'u'),
                  show escUnmap 'n' = some (Char.ofNat 10) from rfl]
              dsimp only
              rw [ih rest, ← hc]
            · by_cases h6 : c.toNat = 12
              · have hc : c = Char.ofNat 12 := by rw [← h6, char_ofNat_toNat]
                rw [show escChar c = ['\\', 'f'] from by
                  unfold escChar
                  rw [if_neg h1, if_neg h2, if_neg h3, if_neg h4, if_neg h5, if_pos h6]]
                rw [show (['\\', 'f'] : List Char) ++ (cs.flatMap escChar ++ '"' :: rest) =
                  '\\' :: 'f' :: (cs.flatMap escChar ++ '"' :: rest) from rfl]
                rw [parseJStrBody.eq_def]
                dsimp only
                rw [if_neg (by decide : ¬('\\' : Char) = '"'),
                    if_pos (rfl : ('\\' : Char) = '\\')]
                rw [if_neg (by decide : ¬('f' : Char) = 'u'),
                    show escUnmap 'f' = some (Char.ofNat 12) from rfl]
                dsimp only
                rw [ih rest, ← hc]
              · by_cases h7 : c.toNat = 13
                · have hc : c = Char.ofNat 13 := by rw [← h7, char_ofNat_toNat]
                  rw [show escChar c = ['\\', 'r'] from by
                    unfold escChar
                    rw [if_neg h1, if_neg h2, if_neg h3, if_neg h4, if_neg h5, if_neg h6,
                        if_pos h7]]
                  rw [show (['\\', 'r'] : List Char) ++ (cs.flatMap escChar ++ '"' :: rest) =
                    '\\' :: 'r' :: (cs.flatMap escChar ++ '"' :: rest) from rfl]
                  rw [parseJStrBody.eq_def]
                  dsimp only
                  rw [if_neg (by decide : ¬('\\' : Char) = '"'),
                      if_pos (rfl : ('\\' : Char) = '\\')]
                  rw [if_neg (by decide : ¬('r' : Char) = 'u'),
                      show escUnmap 'r' = some (Char.ofNat 13) from rfl]
                  dsimp only
                  rw [ih rest, ← hc]
                · by_cases h8 : c.toNat < 32
                  · rw [show escChar c =
                        ['\\', 'u', '0', '0', hexChar (c.toNat / 16), hexChar (c.toNat % 16)]
                        from by
                      unfold escChar
                      rw [if_neg h1, if_neg h2, if_neg h3, if_neg h4, if_neg h5, if_neg h6,
                          if_neg h7, if_pos h8]]
                    rw [show (['\\', 'u', '0', '0', hexChar (c.toNat / 16),
                          hexChar (c.toNat % 16)] : List Char) ++
                          (cs.flatMap escChar ++ '"' :: rest) =
                        '\\' :: 'u' :: '0' :: '0' :: hexChar (c.toNat / 16) ::
                          hexChar (c.toNat % 16) :: (cs.flatMap escChar ++ '"' :: rest)
                        from rfl]
                    rw [parseJStrBody.eq_def]
                    dsimp only
                    rw [if_neg (by decide : ¬('\\' : Char) = '"'),
                        if_pos (rfl : ('\\' : Char) = '\\')]
                    rw [if_pos (rfl : ('u' : Char) = 'u')]
                    rw [hexVal_hexChar (c.toNat / 16) (by omega),
                        hexVal_hexChar (c.toNat % 16) (by omega),
                        show hexVal '0' = some 0 from rfl]
                    dsimp only
                    rw [ih rest]
                    dsimp only
                    rw [show (0 * 4096 + 0 * 256 + c.toNat / 16 * 16 + c.toNat % 16) = c.toNat
                        from by omega, char_ofNat_toNat]
                  · rw [show escChar c = [c] from by
                      unfold escChar
                      rw [if_neg h1, if_neg h2, if_neg h3, if_neg h4, if_neg h5, if_neg h6,
                          if_neg h7, if_neg h8]]
                    rw [List.singleton_append]
                    rw [parseJStrBody.eq_def]
                    dsimp only
                    rw [if_neg h1, if_neg h2, if_neg h8, ih rest]

/-- The number parser inverts `printNat` followed by a delimiter. -/
theorem parseJNum_printNat (m : Nat) (rest : List Char) (hr : jsonDelim rest = true) :
    parseJNum (printNat m ++ rest) = some (JVal.jnum (m : Int), rest) := by
  have hread := readDigits_append (printNat m) rest (printNat_all_digits m) hr
  have hlead := printNat_leading m
  cases hpm : printNat m with
  | nil => exact absurd hpm (printNat_ne_nil m)
  | cons c cs =>
    have hall := printNat_all_digits m
    rw [hpm, List.all_cons, Bool.and_eq_true] at hall
    have hc : isDigitChar c = true := hall.1
    have hcneg : c ≠ '-' := fun he => by rw [he] at hc; exact absurd hc (by decide)
    rw [hpm] at hread hlead
    rw [List.cons_append]
    unfold parseJNum
    split
    next neg s1 heq =>
      split at heq
      · next r heq2 =>
        injection heq2 with hx1 hx2
        exact absurd hx1 hcneg
      · injection heq with hx1 hx2
        subst hx1
        subst hx2
        rw [← List.cons_append, hread]
        dsimp only
        rw [if_neg hlead]
        dsimp only
        rw [← hpm, natFromDigits_printNat]
        cases rest with
        | nil => rfl
        | cons r0 rt =>
          simp only [jsonDelim, Bool.or_eq_true, decide_eq_true_eq] at hr
          rcases hr with (h | h) | h <;> subst h <;> rfl

/-- The number parser inverts `printInt` followed by a delimiter. -/
theorem parseJNum_printInt (n : Int) (rest : List Char) (hr : jsonDelim rest = true) :
    parseJNum (printInt n ++ rest) = some (JVal.jnum n, rest) := by
  by_cases hneg : n < 0
  · have hpr : printInt n = '-' :: printNat n.natAbs := by
      unfold printInt; rw [if_pos hneg]
    rw [hpr, List.cons_append]
    have hread := readDigits_append (printNat n.natAbs) rest (printNat_all_digits _) hr
    have hlead := printNat_leading n.natAbs
    have hval : -((natFromDigits (printNat n.natAbs) : Nat) : Int) = n := by
      rw [natFromDigits_printNat]
      omega
    cases hpm : printNat n.natAbs with
    | nil => exact absurd hpm (printNat_ne_nil n.natAbs)
    | cons c cs =>
      rw [hpm] at hread hlead hval
      unfold parseJNum
      split
      next neg s1 heq =>
        split at heq
        · next r heq2 =>
          injection heq2 with hx1 hx2
          injection heq with hy1 hy2
          subst hy1
          subst hy2
          subst hx2
          rw [hread]
          dsimp only
          rw [if_neg hlead]
          dsimp only
          rw [hval]
          cases rest with
          | nil => rfl
          | cons r0 rt =>
            simp only [jsonDelim, Bool.or_eq_true, decide_eq_true_eq] at hr
            rcases hr with (h | h) | h <;> subst h <;> rfl
        · next hne =>
          exact absurd heq (by exact fun _ => hne (c :: cs ++ rest) rfl)
  · have hpr : printInt n = printNat n.natAbs := by
      unfold printInt; rw [if_neg hneg]
    rw [hpr, parseJNum_printNat n.natAbs rest hr]
    have : ((n.natAbs : Nat) : Int) = n := by omega
    rw [this]

/-- Every value needs at least fuel one. -/
theorem one_le_jsize (v : JVal) : 1 ≤ jsize v := by
  rw [jsize.eq_def]
  cases v with
  | jarr xs => cases xs <;> dsimp only <;> omega
  | jobj fs => cases fs <;> dsimp only <;> omega
  | jnull => dsimp only; omega
  | jbool b => dsimp only; omega
  | jnum n => dsimp only; omega
  | jnumNonint lit => dsimp only; omega
  | jstr s => dsimp only; omega

/-- Every item list needs at least fuel one. -/
theorem one_le_isize (xs : List JVal) : 1 ≤ isize xs := by
  rw [isize.eq_def]
  cases xs with
  | nil => dsimp only; omega
  | cons x t => cases t <;> dsimp only <;> omega

/-- Every member list needs at least fuel one. -/
theorem one_le_msize (fs : List (JSStr × JVal)) : 1 ≤ msize fs := by
  rw [msize.eq_def]
  cases fs with
  | nil => dsimp only; omega
  | cons f t =>
    obtain ⟨a, b⟩ := f
    cases t <;> dsimp only <;> omega

/-- `dropWhile` keeps a list whose head fails the predicate. -/
theorem dropWhile_not_head (p : Char → Bool) (c : Char) (l : List Char) (h : p c = false) :
    List.dropWhile p (c :: l) = c :: l := by
  rw [List.dropWhile_cons, h]
  rfl

/-- The printed form of a well-formed value starts with a character that is
not whitespace and not a closing bracket. -/
theorem printJVal_head (v : JVal) (hwf : wfJVal v = true) :
    ∃ c t, printJVal v = c :: t ∧ jsonWs c = false ∧ c ≠ ']' ∧ c ≠ '}' := by
  cases v with
  | jnull =>
    exact ⟨'n', ['u', 'l', 'l'], by rw [printJVal], by decide, by decide, by decide⟩
  | jbool b =>
    cases b
    · exact ⟨'f', ['a', 'l', 's', 'e'], by rw [printJVal], by decide, by decide, by decide⟩
    · exact ⟨'t', ['r', 'u', 'e'], by rw [printJVal], by decide, by decide, by decide⟩
  | jnum n =>
    by_cases hneg : n < 0
    · exact ⟨'-', printNat n.natAbs,
        by rw [printJVal]; unfold printInt; rw [if_pos hneg],
        by decide, by decide, by decide⟩
    · cases hpm : printNat n.natAbs with
      | nil => exact absurd hpm (printNat_ne_nil _)
      | cons c cs =>
        have hc : isDigitChar c = true := by
          have hall := printNat_all_digits n.natAbs
          rw [hpm, List.all_cons, Bool.and_eq_true] at hall
          exact hall.1
        obtain ⟨hws, hbr, hbc, _⟩ := digit_char_facts c hc
        exact ⟨c, cs, by rw [printJVal]; unfold printInt; rw [if_neg hneg, hpm],
          hws, hbr, hbc⟩
  | jnumNonint lit => simp [wfJVal] at hwf
  | jstr s =>
    exact ⟨'"', s.flatMap escChar ++ ['"'], by rw [printJVal, printQuoted]; rfl,
      by decide, by decide, by decide⟩
  | jarr xs =>
    exact ⟨'[', printItems xs ++ [']'], by rw [printJVal]; rfl, by decide, by decide,
      by decide⟩
  | jobj fs =>
    exact ⟨'{', printFields fs ++ ['}'], by rw [printJVal]; rfl, by decide, by decide,
      by decide⟩

/-- A digit-headed input routes the value parser into the number parser. -/
theorem parseJVal_digit_head (fuel : Nat) (c : Char) (hc : isDigitChar c = true)
    (l : List Char) : parseJVal (fuel + 1) (c :: l) = parseJNum (c :: l) := by
  obtain ⟨hws, hbr, hbc, hn, ht, hf, hq, hlb, hlc⟩ := digit_char_facts c hc
  rw [parseJVal.eq_def]
  dsimp only
  rw [dropWhile_not_head jsonWs c l hws]
  dsimp only
  rw [if_neg hn, if_neg ht, if_neg hf, if_neg hq, if_neg hlb, if_neg hlc,
      if_pos (Or.inr hc)]

/-- A minus-headed input routes the value parser into the number parser. -/
theorem parseJVal_minus_head (fuel : Nat) (l : List Char) :
    parseJVal (fuel + 1) ('-' :: l) = parseJNum ('-' :: l) := rfl

/-- The fueled value parser inverts `printInt` followed by a delimiter. -/
theorem parseJVal_printInt (fuel : Nat) (n : Int) (rest : List Char)
    (hdel : jsonDelim rest = true) :
    parseJVal (fuel + 1) (printInt n ++ rest) = some (JVal.jnum n, rest) := by
  have h := parseJNum_printInt n rest hdel
  by_cases hneg : n < 0
  · have hpr : printInt n = '-' :: printNat n.natAbs := by
      unfold printInt; rw [if_pos hneg]
    rw [hpr, List.cons_append] at h ⊢
    rw [parseJVal_minus_head]
    exact h
  · have hpr : printInt n = printNat n.natAbs := by
      unfold printInt; rw [if_neg hneg]
    rw [hpr] at h ⊢
    cases hpm : printNat n.natAbs with
    | nil => exact absurd hpm (printNat_ne_nil _)
    | cons c cs =>
      rw [hpm] at h
      have hc : isDigitChar c = true := by
        have hall := printNat_all_digits n.natAbs
        rw [hpm, List.all_cons, Bool.and_eq_true] at hall
        exact hall.1
      rw [List.cons_append] at h ⊢
      rw [parseJVal_digit_head fuel c hc]
      exact h

/-- The fueled `JSON.parse` model inverts the `JSON.stringify` model on
well-formed values, item lists and member lists, given enough fuel. -/
theorem parsePrint (fuel : Nat) :
    (∀ v rest, wfJVal v = true → jsize v ≤ fuel → jsonDelim rest = true →
      parseJVal fuel (printJVal v ++ rest) = some (v, rest)) ∧
    (∀ xs rest, wfItemsB xs = true → xs ≠ [] → isize xs ≤ fuel →
      parseItems fuel (printItems xs ++ ']' :: rest) = some (xs, rest)) ∧
    (∀ fs rest, wfFieldsB fs = true → fs ≠ [] → msize fs ≤ fuel →
      parseMembers fuel (printFields fs ++ '}' :: rest) = some (fs, rest)) := by
  induction fuel with
  | zero =>
    refine ⟨fun v rest hwf hsz hdel => ?_, fun xs rest hwf hne hsz => ?_,
            fun fs rest hwf hne hsz => ?_⟩
    · exact absurd hsz (by have := one_le_jsize v; omega)
    · exact absurd hsz (by have := one_le_isize xs; omega)
    · exact absurd hsz (by have := one_le_msize fs; omega)
  | succ fuel ih =>
    obtain ⟨P, Q, R⟩ := ih
    refine ⟨fun v rest hwf hsz hdel => ?_, fun xs rest hwf hne hsz => ?_,
            fun fs rest hwf hne hsz => ?_⟩
    · cases v with
      | jnull =>
        simp only [printJVal, List.cons_append, List.nil_append]
        rfl
      | jbool b =>
        cases b <;>
          · simp only [printJVal, List.cons_append, List.nil_append]
            rfl
      | jnum n =>
        simp only [printJVal]
        exact parseJVal_printInt fuel n rest hdel
      | jnumNonint lit => simp [wfJVal] at hwf
      | jstr s =>
        simp only [printJVal, printQuoted, List.cons_append, List.append_assoc,
          List.singleton_append, List.nil_append]
        have hstep : ∀ l, parseJVal (fuel + 1) ('"' :: l) =
            (match parseJStrBody l with
             | some (str, r) => some (JVal.jstr str, r)
             | none => none) := fun l => rfl
        rw [hstep, parseJStrBody_print]
      | jarr xs =>
        cases xs with
        | nil =>
          simp only [printJVal, printItems, List.cons_append, List.nil_append,
            List.singleton_append]
          rfl
        | cons x xs2 =>
          have hwf2 : wfJVal x = true ∧ wfItemsB xs2 = true := by
            simp only [wfJVal, wfItemsB, Bool.and_eq_true] at hwf
            exact hwf
          have hsz2 : isize (x :: xs2) ≤ fuel := by
            have hj : jsize (JVal.jarr (x :: xs2)) = 1 + isize (x :: xs2) := by
              rw [jsize]
            omega
          simp only [printJVal, List.cons_append, List.append_assoc,
            List.singleton_append, List.nil_append]
          have hstep : ∀ l, parseJVal (fuel + 1) ('[' :: l) =
              (match l.dropWhile jsonWs with
               | ']' :: r => some (JVal.jarr [], r)
               | _ =>
                 match parseItems fuel l with
                 | some (vs, r) => some (JVal.jarr vs, r)
                 | none => none) := fun l => rfl
          rw [hstep]
          obtain ⟨t0, hd0⟩ : ∃ t, printItems (x :: xs2) = printJVal x ++ t := by
            cases xs2 with
            | nil => exact ⟨[], by rw [printItems, List.append_nil]⟩
            | cons y ys => exact ⟨',' :: printItems (y :: ys), by rw [printItems]⟩
          obtain ⟨c0, t1, hph, hws0, hnb, hnc⟩ := printJVal_head x hwf2.1
          have hdw : (printItems (x :: xs2) ++ ']' :: rest).dropWhile jsonWs =
              printItems (x :: xs2) ++ ']' :: rest := by
            rw [hd0, hph, List.cons_append, List.cons_append]
            exact dropWhile_not_head _ _ _ hws0
          rw [hdw]
          split
          · next r heqq =>
            rw [hd0, hph, List.cons_append, List.cons_append] at heqq
            injection heqq with hh1 hh2
            exact absurd hh1 hnb
          · rw [Q (x :: xs2) rest (by
                simp only [wfJVal] at hwf
                exact hwf) (List.cons_ne_nil x xs2) hsz2]
      | jobj fs =>
        cases fs with
        | nil =>
          simp only [printJVal, printFields, List.cons_append, List.nil_append,
            List.singleton_append]
          rfl
        | cons f fs2 =>
          obtain ⟨k, v⟩ := f
          have hsz2 : msize ((k, v) :: fs2) ≤ fuel := by
            have hj : jsize (JVal.jobj ((k, v) :: fs2)) = 1 + msize ((k, v) :: fs2) := by
              rw [jsize]
            omega
          simp only [printJVal, List.cons_append, List.append_assoc,
            List.singleton_append, List.nil_append]
          obtain ⟨t0, hd0⟩ : ∃ t, printFields ((k, v) :: fs2) = '"' :: t := by
            cases fs2 with
            | nil =>
              exact ⟨k.flatMap escChar ++ ['"'] ++ ':' :: printJVal v,
                by rw [printFields, printQuoted]; rfl⟩
            | cons m ms =>
              exact ⟨k.flatMap escChar ++ ['"'] ++ ':' :: printJVal v ++
                  ',' :: printFields (m :: ms),
                by rw [printFields, printQuoted]; rfl⟩
          have hstep : ∀ l, parseJVal (fuel + 1) ('{' :: '"' :: l) =
              (match parseMembers fuel ('"' :: l) with
               | some (fs3, r) => some (JVal.jobj fs3, r)
               | none => none) := fun l => rfl
          rw [hd0, List.cons_append, hstep, ← List.cons_append, ← hd0]
          rw [R ((k, v) :: fs2) rest (by
              simp only [wfJVal, Bool.and_eq_true] at hwf
              exact hwf.2) (List.cons_ne_nil _ _) hsz2]
    · cases xs with
      | nil => exact absurd rfl hne
      | cons x xs2 =>
        have hwf2 : wfJVal x = true ∧ wfItemsB xs2 = true := by
          simp only [wfItemsB, Bool.and_eq_true] at hwf
          exact hwf
        have hstep : ∀ s, parseItems (fuel + 1) s =
            (match parseJVal fuel s with
             | none => none
             | some (v, r1) =>
               match r1.dropWhile jsonWs with
               | ',' :: r2 =>
                 (match parseItems fuel r2 with
                  | some (vs, r3) => some (v :: vs, r3)
                  | none => none)
               | ']' :: r2 => some ([v], r2)
               | _ => none) := fun s => rfl
        rw [hstep]
        cases xs2 with
        | nil =>
          have hszx : jsize x ≤ fuel := by
            have hi : isize [x] = 1 + jsize x := by rw [isize]
            omega
          rw [show printItems [x] = printJVal x from by rw [printItems]]
          rw [P x (']' :: rest) hwf2.1 hszx (by rfl)]
          rfl
        | cons y ys =>
          have hszx : jsize x ≤ fuel := by
            have hi : isize (x :: y :: ys) = 1 + max (jsize x) (isize (y :: ys)) := by
              rw [isize]
            omega
          have hszt : isize (y :: ys) ≤ fuel := by
            have hi : isize (x :: y :: ys) = 1 + max (jsize x) (isize (y :: ys)) := by
              rw [isize]
            omega
          rw [show printItems (x :: y :: ys) =
              printJVal x ++ ',' :: printItems (y :: ys) from by rw [printItems]]
          rw [List.append_assoc, List.cons_append]
          rw [P x (',' :: (printItems (y :: ys) ++ ']' :: rest)) hwf2.1 hszx (by rfl)]
          show (match parseItems fuel (printItems (y :: ys) ++ ']' :: rest) with
                | some (vs, r3) => some (x :: vs, r3)
                | none => none) = some (x :: y :: ys, rest)
          rw [Q (y :: ys) rest hwf2.2 (List.cons_ne_nil y ys) hszt]
    · cases fs with
      | nil => exact absurd rfl hne
      | cons f fs2 =>
        obtain ⟨k, v⟩ := f
        have hwf2 : wfJVal v = true ∧ wfFieldsB fs2 = true := by
          simp only [wfFieldsB, Bool.and_eq_true] at hwf
          exact hwf
        have hstep : ∀ l, parseMembers (fuel + 1) ('"' :: l) =
            (match parseJStrBody l with
             | none => none
             | some (k2, r1) =>
               match r1.dropWhile jsonWs with
               | ':' :: r2 =>
                 (match parseJVal fuel r2 with
                  | none => none
                  | some (v2, r3) =>
                    match r3.dropWhile jsonWs with
                    | ',' :: r4 =>
                      (match parseMembers fuel r4 with
                       | some (fs3, r5) => some ((k2, v2) :: fs3, r5)
                       | none => none)
                    | '}' :: r4 => some ([(k2, v2)], r4)
                    | _ => none)
               | _ => none) := fun l => rfl
        cases fs2 with
        | nil =>
          have hszv : jsize v ≤ fuel := by
            have hm : msize [(k, v)] = 1 + jsize v := by rw [msize]
            omega
          rw [show printFields [(k, v)] = printQuoted k ++ ':' :: printJVal v from by
            rw [printFields]]
          simp only [printQuoted, List.cons_append, List.append_assoc,
            List.singleton_append, List.nil_append]
          rw [hstep, parseJStrBody_print k (':' :: (printJVal v ++ '}' :: rest))]
          show (match parseJVal fuel (printJVal v ++ '}' :: rest) with
                | none => none
                | some (v2, r3) =>
                  match r3.dropWhile jsonWs with
                  | ',' :: r4 =>
                    (match parseMembers fuel r4 with
                     | some (fs3, r5) => some ((k, v2) :: fs3, r5)
                     | none => none)
                  | '}' :: r4 => some ([(k, v2)], r4)
                  | _ => none) = some ([(k, v)], rest)
          rw [P v ('}' :: rest) hwf2.1 hszv (by rfl)]
          rfl
        | cons m ms =>
          have hszv : jsize v ≤ fuel := by
            have hm : msize ((k, v) :: m :: ms) = 1 + max (jsize v) (msize (m :: ms)) := by
              rw [msize]
            omega
          have hszt : msize (m :: ms) ≤ fuel := by
            have hm : msize ((k, v) :: m :: ms) = 1 + max (jsize v) (msize (m :: ms)) := by
              rw [msize]
            omega
          rw [show printFields ((k, v) :: m :: ms) =
              printQuoted k ++ ':' :: printJVal v ++ ',' :: printFields (m :: ms) from by
            rw [printFields]]
          simp only [printQuoted, List.cons_append, List.append_assoc,
            List.singleton_append, List.nil_append]
          rw [hstep, parseJStrBody_print k
            (':' :: (printJVal v ++ ',' :: (printFields (m :: ms) ++ '}' :: rest)))]
          show (match parseJVal fuel
                  (printJVal v ++ ',' :: (printFields (m :: ms) ++ '}' :: rest)) with
                | none => none
                | some (v2, r3) =>
                  match r3.dropWhile jsonWs with
                  | ',' :: r4 =>
                    (match parseMembers fuel r4 with
                     | some (fs3, r5) => some ((k, v2) :: fs3, r5)
                     | none => none)
                  | '}' :: r4 => some ([(k, v2)], r4)
                  | _ => none) = some ((k, v) :: m :: ms, rest)
          rw [P v (',' :: (printFields (m :: ms) ++ '}' :: rest)) hwf2.1 hszv (by rfl)]
          show (match parseMembers fuel (printFields (m :: ms) ++ '}' :: rest) with
                | some (fs3, r5) => some ((k, v) :: fs3, r5)
                | none => none) = some ((k, v) :: m :: ms, rest)
          rw [R (m :: ms) rest hwf2.2 (List.cons_ne_nil m ms) hszt]

/-- The fuel measure is dominated by (twice) the printed length, so
`jsonParse`'s fuel budget is always sufficient. -/
theorem jsize_bound : ∀ N : Nat,
    (∀ v, (printJVal v).length ≤ N → jsize v ≤ 2 * (printJVal v).length + 1) ∧
    (∀ xs, (printItems xs).length ≤ N → isize xs ≤ 2 * (printItems xs).length + 2) ∧
    (∀ fs, (printFields fs).length ≤ N → msize fs ≤ 2 * (printFields fs).length + 2) := by
  intro N
  induction N using Nat.strong_induction_on with
  | _ N ih =>
    have h1 : ∀ v, (printJVal v).length ≤ N → jsize v ≤ 2 * (printJVal v).length + 1 := by
      intro v hlen
      cases v with
      | jnull => rw [jsize.eq_def]; dsimp only; omega
      | jbool b => rw [jsize.eq_def]; dsimp only; omega
      | jnum n => rw [jsize.eq_def]; dsimp only; omega
      | jnumNonint lit => rw [jsize.eq_def]; dsimp only; omega
      | jstr s => rw [jsize.eq_def]; dsimp only; omega
      | jarr xs =>
        cases xs with
        | nil => rw [jsize.eq_def]; dsimp only; omega
        | cons x xs2 =>
          have hlen2 : (printJVal (JVal.jarr (x :: xs2))).length =
              (printItems (x :: xs2)).length + 2 := by
            rw [printJVal]
            simp only [List.length_append, List.length_cons, List.length_nil]
          have hI : isize (x :: xs2) ≤ 2 * (printItems (x :: xs2)).length + 2 :=
            (ih (N - 1) (by omega)).2.1 (x :: xs2) (by omega)
          rw [jsize]
          omega
      | jobj fs =>
        cases fs with
        | nil => rw [jsize.eq_def]; dsimp only; omega
        | cons f fs2 =>
          have hlen2 : (printJVal (JVal.jobj (f :: fs2))).length =
              (printFields (f :: fs2)).length + 2 := by
            rw [printJVal]
            simp only [List.length_append, List.length_cons, List.length_nil]
          have hI : msize (f :: fs2) ≤ 2 * (printFields (f :: fs2)).length + 2 :=
            (ih (N - 1) (by omega)).2.2 (f :: fs2) (by omega)
          rw [jsize]
          omega
    have h2 : ∀ xs, (printItems xs).length ≤ N →
        isize xs ≤ 2 * (printItems xs).length + 2 := by
      intro xs hlen
      cases xs with
      | nil => rw [isize.eq_def]; dsimp only; omega
      | cons x xs2 =>
        cases xs2 with
        | nil =>
          have hpi : printItems [x] = printJVal x := by rw [printItems]
          rw [hpi] at hlen
          have hx := h1 x hlen
          rw [isize, hpi]
          omega
        | cons y ys =>
          have hlen2 : (printItems (x :: y :: ys)).length =
              (printJVal x).length + 1 + (printItems (y :: ys)).length := by
            rw [printItems]
            simp only [List.length_append, List.length_cons]
            omega
          have hx := h1 x (by omega)
          have ht : isize (y :: ys) ≤ 2 * (printItems (y :: ys)).length + 2 :=
            (ih (N - 1) (by omega)).2.1 (y :: ys) (by omega)
          rw [isize]
          omega
    have h3 : ∀ fs, (printFields fs).length ≤ N →
        msize fs ≤ 2 * (printFields fs).length + 2 := by
      intro fs hlen
      cases fs with
      | nil => rw [msize.eq_def]; dsimp only; omega
      | cons f fs2 =>
        obtain ⟨k, v⟩ := f
        cases fs2 with
        | nil =>
          have hlen2 : (printFields [(k, v)]).length =
              (printQuoted k).length + 1 + (printJVal v).length := by
            rw [printFields]
            simp only [List.length_append, List.length_cons]
            omega
          have hx := h1 v (by omega)
          rw [msize]
          omega
        | cons m ms =>
          have hlen2 : (printFields ((k, v) :: m :: ms)).length =
              (printQuoted k).length + 1 + (printJVal v).length + 1 +
                (printFields (m :: ms)).length := by
            rw [printFields]
            simp only [List.length_append, List.length_cons]
            omega
          have hx := h1 v (by omega)
          have ht : msize (m :: ms) ≤ 2 * (printFields (m :: ms)).length + 2 :=
            (ih (N - 1) (by omega)).2.2 (m :: ms) (by omega)
          rw [msize]
          omega
    exact ⟨h1, h2, h3⟩

/-- The `JSON.parse` model inverts the `JSON.stringify` model on well-formed
values. -/
theorem jsonParse_print (v : JVal) (hwf : wfJVal v = true) :
    jsonParse (printJVal v) = some v := by
  unfold jsonParse
  have hb := (jsize_bound (printJVal v).length).1 v le_rfl
  have h := (parsePrint (2 * (printJVal v).length + 4)).1 v [] hwf (by omega) rfl
  rw [List.append_nil] at h
  rw [h]
  rfl

/-- The facts needed about every base64 alphabet character, indexed by its
6-bit value. -/
theorem b64CharOf_facts : ∀ n, n < 64 →
    b64IndexOf (b64CharOf n) = some n ∧
    b64CharOf n ≠ '=' ∧
    asciiSpace (b64CharOf n) = false ∧
    unswapChar (swapChar (b64CharOf n)) = b64CharOf n ∧
    swapChar (b64CharOf n) ≠ '=' ∧
    swapChar (b64CharOf n) ≠ '+' ∧
    swapChar (b64CharOf n) ≠ '/' := by decide

/-- Base64-encoding a byte list yields alphabet characters followed by at
most two padding characters, and the 6-bit values decode back to the bytes. -/
theorem b64_roundtrip : ∀ (n : Nat) (bytes : List Nat), bytes.length ≤ n →
    (∀ b ∈ bytes, b < 256) →
    ∃ vals k, b64EncBytes bytes = vals.map b64CharOf ++ List.replicate k '=' ∧
      k ≤ 2 ∧ (∀ x ∈ vals, x < 64) ∧ (vals.length + k) % 4 = 0 ∧
      b64DecQuads vals = some bytes := by
  intro n
  induction n with
  | zero =>
    intro bytes hlen hb
    have hnil : bytes = [] := List.eq_nil_of_length_eq_zero (Nat.le_zero.mp hlen)
    subst hnil
    exact ⟨[], 0, rfl, by omega, by simp, rfl, rfl⟩
  | succ n ihn =>
    intro bytes hlen hb
    cases bytes with
    | nil => exact ⟨[], 0, rfl, by omega, by simp, rfl, rfl⟩
    | cons a t =>
      have ha : a < 256 := hb a (List.mem_cons_self a t)
      cases t with
      | nil =>
        refine ⟨[a / 4, a % 4 * 16], 2, rfl, by omega, ?_, by simp, ?_⟩
        · intro x hx
          simp only [List.mem_cons, List.not_mem_nil, or_false] at hx
          rcases hx with h | h <;> subst h <;> omega
        · rw [show b64DecQuads [a / 4, a % 4 * 16] =
            some [a / 4 * 4 + a % 4 * 16 / 16] from rfl]
          have h1 : a / 4 * 4 + a % 4 * 16 / 16 = a := by omega
          rw [h1]
      | cons b t2 =>
        have hbb : b < 256 := hb b (by simp)
        cases t2 with
        | nil =>
          refine ⟨[a / 4, a % 4 * 16 + b / 16, b % 16 * 4], 1, rfl, by omega, ?_, by simp,
            ?_⟩
          · intro x hx
            simp only [List.mem_cons, List.not_mem_nil, or_false] at hx
            rcases hx with h | h | h <;> subst h <;> omega
          · rw [show b64DecQuads [a / 4, a % 4 * 16 + b / 16, b % 16 * 4] =
              some [a / 4 * 4 + (a % 4 * 16 + b / 16) / 16,
                    (a % 4 * 16 + b / 16) % 16 * 16 + b % 16 * 4 / 4] from rfl]
            have h1 : a / 4 * 4 + (a % 4 * 16 + b / 16) / 16 = a := by omega
            have h2 : (a % 4 * 16 + b / 16) % 16 * 16 + b % 16 * 4 / 4 = b := by omega
            rw [h1, h2]
        | cons c rest =>
          have hcc : c < 256 := hb c (by simp)
          have hrest : ∀ x ∈ rest, x < 256 := fun x hx => hb x (by simp [hx])
          obtain ⟨vals, k, heq, hk, hv, hm, hd⟩ := ihn rest
            (by simp only [List.length_cons] at hlen; omega) hrest
          refine ⟨a / 4 :: (a % 4 * 16 + b / 16) :: (b % 16 * 4 + c / 64) :: c % 64 :: vals,
            k, ?_, hk, ?_, ?_, ?_⟩
          · rw [show b64EncBytes (a :: b :: c :: rest) =
                b64CharOf (a / 4) :: b64CharOf (a % 4 * 16 + b / 16) ::
                b64CharOf (b % 16 * 4 + c / 64) :: b64CharOf (c % 64) :: b64EncBytes rest
              from rfl, heq]
            simp only [List.map_cons, List.cons_append]
          · intro x hx
            simp only [List.mem_cons] at hx
            rcases hx with h | h | h | h | h
            · subst h; omega
            · subst h; omega
            · subst h; omega
            · subst h; omega
            · exact hv x h
          · simp only [List.length_cons]
            omega
          · rw [show b64DecQuads (a / 4 :: (a % 4 * 16 + b / 16) ::
                (b % 16 * 4 + c / 64) :: c % 64 :: vals) =
                (match b64DecQuads vals with
                 | some t3 => some ((a / 4 * 4 + (a % 4 * 16 + b / 16) / 16) ::
                     ((a % 4 * 16 + b / 16) % 16 * 16 + (b % 16 * 4 + c / 64) / 4) ::
                     ((b % 16 * 4 + c / 64) % 4 * 64 + c % 64) :: t3)
                 | none => none) from rfl, hd]
            have h1 : a / 4 * 4 + (a % 4 * 16 + b / 16) / 16 = a := by omega
            have h2 : (a % 4 * 16 + b / 16) % 16 * 16 + (b % 16 * 4 + c / 64) / 4 = b := by
              omega
            have h3 : (b % 16 * 4 + c / 64) % 4 * 64 + c % 64 = c := by omega
            rw [h1, h2, h3]

/-- Alphabet characters map back to their 6-bit values. -/
theorem b64Indices_map : ∀ (vals : List Nat), (∀ x ∈ vals, x < 64) →
    b64Indices (vals.map b64CharOf) = some vals := by
  intro vals
  induction vals with
  | nil => intro h; rfl
  | cons x xs ih =>
    intro h
    rw [List.map_cons]
    rw [show b64Indices (b64CharOf x :: xs.map b64CharOf) =
        (match b64IndexOf (b64CharOf x), b64Indices (xs.map b64CharOf) with
         | some i, some is => some (i :: is)
         | _, _ => none) from rfl]
    rw [(b64CharOf_facts x (h x (List.mem_cons_self x xs))).1,
        ih (fun y hy => h y (List.mem_cons_of_mem x hy))]

/-- A list without '=' keeps its value under the trailing-'=' strip once
padding is appended. -/
theorem stripAllTrailingEq_append (l : List Char) (k : Nat)
    (h : ∀ c ∈ l, ¬ c = '=') :
    stripAllTrailingEq (l ++ List.replicate k '=') = l := by
  unfold stripAllTrailingEq
  rw [List.reverse_append, List.reverse_replicate]
  have hdrop1 : ∀ (m : Nat) (t : List Char),
      List.dropWhile (fun c => c = '=') (List.replicate m '=' ++ t) =
        List.dropWhile (fun c => c = '=') t := by
    intro m
    induction m with
    | zero => intro t; rfl
    | succ m ihm =>
      intro t
      rw [List.replicate_succ, List.cons_append, List.dropWhile_cons,
          if_pos (by decide)]
      exact ihm t
  have hdrop2 : List.dropWhile (fun c => c = '=') l.reverse = l.reverse := by
    cases hrev : l.reverse with
    | nil => rfl
    | cons a t2 =>
      have ha : a ∈ l := by
        rw [← List.mem_reverse, hrev]
        exact List.mem_cons_self a t2
      rw [List.dropWhile_cons, if_neg (by simp only [decide_eq_true_eq]; exact h a ha)]
  rw [hdrop1, hdrop2, List.reverse_reverse]

/-- A list without '=' does not end in '='. -/
theorem no_eq_getLast (l : List Char) (h : ∀ c ∈ l, ¬ c = '=') :
    l.getLast? ≠ some '=' := by
  intro hl
  cases hrev : l.reverse with
  | nil =>
    have hnil : l = [] := by rw [← List.reverse_reverse l, hrev]; rfl
    subst hnil
    simp at hl
  | cons a t2 =>
    have hl2 : l = t2.reverse ++ [a] := by
      rw [← List.reverse_reverse l, hrev]
      simp
    have ha : a ∈ l := by rw [hl2]; simp
    rw [hl2] at hl
    rw [show (t2.reverse ++ [a]).getLast? = some a from List.getLast?_concat _] at hl
    exact h a ha (Option.some.inj hl)

/-- `stripPad2` removes exactly the appended padding. -/
theorem stripPad2_eq (core : List Char) (k : Nat) (hk : k ≤ 2)
    (h : ∀ c ∈ core, ¬ c = '=') :
    stripPad2 (core ++ List.replicate k '=') = core := by
  interval_cases k
  · rw [List.replicate_zero, List.append_nil]
    unfold stripPad2
    rw [if_neg (no_eq_getLast core h)]
  · rw [show List.replicate 1 '=' = ['='] from rfl]
    unfold stripPad2
    rw [show (core ++ ['=']).getLast? = some '=' from List.getLast?_concat _]
    rw [if_pos rfl]
    dsimp only
    rw [show (core ++ ['=']).dropLast = core from List.dropLast_concat]
    rw [if_neg (no_eq_getLast core h)]
  · rw [show List.replicate 2 '=' = ['=', '='] from rfl]
    rw [show core ++ ['=', '='] = (core ++ ['=']) ++ ['='] from by
      rw [List.append_assoc]; rfl]
    unfold stripPad2
    rw [show ((core ++ ['=']) ++ ['=']).getLast? = some '=' from List.getLast?_concat _]
    rw [if_pos rfl]
    dsimp only
    rw [show ((core ++ ['=']) ++ ['=']).dropLast = core ++ ['='] from
      List.dropLast_concat]
    rw [show (core ++ ['=']).getLast? = some '=' from List.getLast?_concat _]
    rw [if_pos rfl]
    rw [show (core ++ ['=']).dropLast = core from List.dropLast_concat]

/-- Inversion of a successful `encodeUploadState`: the token is the swapped
alphabet image of 6-bit values that decode to the code units of the printed
state. -/
theorem encodeUploadState_inv (v : JVal) (t : JSStr)
    (henc : encodeUploadState v = some t) :
    ∃ vals k, (∀ x ∈ vals, x < 64) ∧ k ≤ 2 ∧
      t = (vals.map b64CharOf).map swapChar ∧
      (vals.length + k) % 4 = 0 ∧
      b64DecQuads vals = some ((printJVal v).map Char.toNat) := by
  unfold encodeUploadState at henc
  cases hB : jsBtoa (printJVal v) with
  | none => rw [hB] at henc; exact absurd henc (by simp)
  | some base64 =>
    rw [hB] at henc
    injection henc with ht
    unfold jsBtoa at hB
    by_cases hall : (printJVal v).all (fun c => c.toNat ≤ 0xff) = true
    · rw [if_pos hall] at hB
      injection hB with hB2
      have hbytes : ∀ x ∈ (printJVal v).map Char.toNat, x < 256 := by
        intro x hx
        simp only [List.mem_map] at hx
        obtain ⟨c, hc, rfl⟩ := hx
        rw [List.all_eq_true] at hall
        have h2 := hall c hc
        simp only [decide_eq_true_eq] at h2
        omega
      obtain ⟨vals, k, heq, hk, hv, hm, hd⟩ :=
        b64_roundtrip ((printJVal v).map Char.toNat).length _ le_rfl hbytes
      refine ⟨vals, k, hv, hk, ?_, hm, hd⟩
      rw [← ht, ← hB2, heq]
      rw [List.map_append, List.map_replicate]
      rw [show swapChar '=' = '=' from rfl]
      apply stripAllTrailingEq_append
      intro c hc
      simp only [List.mem_map] at hc
      obtain ⟨c0, ⟨x, hx, rfl⟩, rfl⟩ := hc
      exact (b64CharOf_facts x (hv x hx)).2.2.2.2.1
    · rw [if_neg hall] at hB
      exact absurd hB (by simp)

/-- Every character of an upload-state token is URL- and header-safe. -/
theorem encodeUploadState_safe (v : JVal) (t : JSStr)
    (henc : encodeUploadState v = some t) :
    ∀ c ∈ t, c ≠ '=' ∧ c ≠ '+' ∧ c ≠ '/' := by
  obtain ⟨vals, k, hv, hk, ht, hm, hd⟩ := encodeUploadState_inv v t henc
  intro c hc
  rw [ht] at hc
  simp only [List.mem_map] at hc
  obtain ⟨c0, ⟨x, hx, rfl⟩, rfl⟩ := hc
  have hf := b64CharOf_facts x (hv x hx)
  exact ⟨hf.2.2.2.2.1, hf.2.2.2.2.2.1, hf.2.2.2.2.2.2⟩

/-- `decodeUploadState` inverts a successful `encodeUploadState` on
well-formed states. -/
theorem decode_encode (v : JVal) (hwf : wfJVal v = true) (t : JSStr)
    (henc : encodeUploadState v = some t) : decodeUploadState t = some v := by
  obtain ⟨vals, k, hv, hk, ht, hm, hd⟩ := encodeUploadState_inv v t henc
  subst ht
  unfold decodeUploadState
  dsimp only
  have hpad : ∀ (l : List Nat), (∀ x ∈ l, x < 64) →
      ((l.map b64CharOf).map swapChar).map unswapChar = l.map b64CharOf := by
    intro l hl
    induction l with
    | nil => rfl
    | cons x xs ih =>
      simp only [List.map_cons]
      rw [(b64CharOf_facts x (hl x (by simp))).2.2.2.1,
          ih (fun y hy => hl y (by simp [hy]))]
  rw [hpad vals hv]
  have hlen : (vals.map b64CharOf).length = vals.length := List.length_map _ _
  have hpadlen : (if (vals.map b64CharOf).length % 4 = 0 then 0
      else 4 - (vals.map b64CharOf).length % 4) = k := by
    rw [hlen]
    split_ifs with h0 <;> omega
  rw [hpadlen]
  unfold jsAtob
  dsimp only
  have hfil : (vals.map b64CharOf ++ List.replicate k '=').filter
      (fun c => !asciiSpace c) = vals.map b64CharOf ++ List.replicate k '=' := by
    rw [List.filter_eq_self]
    intro a ha
    rcases List.mem_append.mp ha with h | h
    · obtain ⟨x, hx, rfl⟩ := List.mem_map.mp h
      rw [(b64CharOf_facts x (hv x hx)).2.2.1]
      rfl
    · have ha2 : a = '=' := List.eq_of_mem_replicate h
      subst ha2
      decide
  rw [hfil]
  have hlen4 : (vals.map b64CharOf ++ List.replicate k '=').length % 4 = 0 := by
    simp only [List.length_append, List.length_replicate, hlen]
    omega
  rw [if_pos hlen4]
  have hnoeq : ∀ c ∈ vals.map b64CharOf, ¬ c = '=' := by
    intro c hc
    obtain ⟨x, hx, rfl⟩ := List.mem_map.mp hc
    exact (b64CharOf_facts x (hv x hx)).2.1
  rw [stripPad2_eq _ _ hk hnoeq]
  have hne1 : ¬ (vals.map b64CharOf).length % 4 = 1 := by
    rw [hlen]
    omega
  rw [if_neg hne1]
  rw [b64Indices_map vals hv]
  dsimp only
  rw [hd]
  dsimp only
  have hid : ((printJVal v).map Char.toNat).map Char.ofNat = printJVal v := by
    rw [List.map_map]
    have hgen : ∀ (l : List Char), l.map (Char.ofNat ∘ Char.toNat) = l := by
      intro l
      induction l with
      | nil => rfl
      | cons c cs ih =>
        simp only [List.map_cons, Function.comp_apply, char_ofNat_toNat, ih]
    exact hgen _
  rw [hid, jsonParse_print v hwf]

/-- C4 (amended): a token returned by `encodeUploadState` contains only URL-
and header-safe characters (never '=', '+' or '/'); `decodeUploadState`
inverts every successful encode of a well-formed attribute map; and encoding
fails exactly when the JSON serialization contains a code unit above 0xFF
(the host `btoa` throws).  Decoding is NOT injective-complement: some strings
outside the range of `encodeUploadState` decode successfully. -/
theorem upload_state_codec_spec :
    (∀ v t, encodeUploadState v = some t → ∀ c ∈ t, c ≠ '=' ∧ c ≠ '+' ∧ c ≠ '/') ∧
    (∀ v t, wfJVal v = true → encodeUploadState v = some t →
      decodeUploadState t = some v) ∧
    (∀ v, encodeUploadState v = none ↔
      (printJVal v).all (fun c => c.toNat ≤ 0xff) = false) := by
  refine ⟨encodeUploadState_safe, fun v t hwf henc => decode_encode v hwf t henc, ?_⟩
  intro v
  unfold encodeUploadState jsBtoa
  by_cases hall : (printJVal v).all (fun c => c.toNat ≤ 0xff) = true
  · rw [if_pos hall]
    simp [hall]
  · rw [if_neg hall]
    simp only [Bool.not_eq_true] at hall
    simp [hall]

/-- C4 counterexample: the string "e30=" is decoded successfully (to the
empty object) although no `encodeUploadState` output ever contains '=',
so `decodeUploadState` does not fail on every string outside the range of
`encodeUploadState`. -/
theorem upload_state_codec_counterexample :
    decodeUploadState ('e' :: '3' :: '0' :: '=' :: []) = some (JVal.jobj []) ∧
    (∀ v t, encodeUploadState v = some t → '=' ∉ t) := by
  constructor
  · rfl
  · intro v t henc hmem
    exact (encodeUploadState_safe v t henc '=' hmem).1 rfl

/-- C4 witness: the empty attribute map round-trips through the codec at the
concrete token "e30", whose characters are all safe. -/
theorem upload_state_codec_spec_witness :
    wfJVal (JVal.jobj []) = true ∧
    encodeUploadState (JVal.jobj []) = some ('e' :: '3' :: '0' :: []) ∧
    decodeUploadState ('e' :: '3' :: '0' :: []) = some (JVal.jobj []) ∧
    (∀ c ∈ ('e' :: '3' :: '0' :: []), c ≠ '=' ∧ c ≠ '+' ∧ c ≠ '/') := by
  have hwf : wfJVal (JVal.jobj []) = true := by
    simp [wfJVal, nodupKeys, wfFieldsB]
  have hpr : printJVal (JVal.jobj []) = ('{' :: '}' :: []) := by
    simp [printJVal, printFields]
  have henc : encodeUploadState (JVal.jobj []) = some ('e' :: '3' :: '0' :: []) := by
    unfold encodeUploadState jsBtoa
    rw [hpr]
    rfl
  exact ⟨hwf, henc,
    upload_state_codec_spec.2.1 (JVal.jobj []) _ hwf henc,
    upload_state_codec_spec.1 (JVal.jobj []) _ henc⟩

/-- C8 witness: a client reporting one changed slice has exactly that slice
persisted, and an unchanged Baidu client reports no updates. -/
theorem state_propagation_spec_witness :
    persistClientState
      ({ stateUpdates := some { config := some ['c'] } } : AdapterOracle) =
      (some ({ config := some ['c'] } : StateUpdates), Except.ok ()) ∧
    baiduGetStateUpdates { config := {}, saving := {} } = none := by
  constructor
  · exact state_propagation_spec.2.2.1
      ({ stateUpdates := some { config := some ['c'] } } : AdapterOracle) rfl
      { config := some ['c'] } rfl (by simp)
  · exact state_propagation_spec.2.2.2.2.1 { config := {}, saving := {} } rfl rfl
